import Mathlib

/-!
# PCGExtendedToolkit: partition engine, point loops, node state machines, edges,
navmesh path task

A shallow embedding of the parts of the toolkit that the specification's
properties speak about, followed by the theorems that settle them.

Conventions of the embedding

* `double` values are exact rationals (`ℚ`): the properties are stated for
  arithmetic "taken exactly", so no rounding is modelled.
* `int32` / `int64` values are `Int`; no arithmetic in the embedded code can
  overflow on the inputs the theorems quantify over except the final
  `static_cast<int64>` of `Filter`, whose out-of-range behaviour is undefined
  in C++ and is not modelled (the cast is the mathematical truncation).
* `TArray` is `List`, `TMap` is an association list with `Find`/`Add`.
* Pointers into a `TArray` owned by the context are indices into the list.
* Code run under a lock is run atomically; the sequential theorems call the
  lock-delimited steps one after the other.
-/

set_option linter.unusedVariables false

namespace PCGExtendedToolkit

/-! ## Partition rule and `Filter` (PCGExPartitionByValues.cpp, 177-182) -/

/-- The `PCGExPartition::FRule` fields read by `Filter`. -/
structure FRule where
  Upscale : ℚ
  FilterSize : ℚ
deriving DecidableEq

/-- Conversion of a value to an integer by discarding its fractional part
(rounding toward zero): what `static_cast<int64>(double)` and the quotient
inside C `fmod` do. -/
def truncToInt (x : ℚ) : ℤ := Int.tdiv x.num (x.den : ℤ)

/-- `FGenericPlatformMath::Fmod`: the C truncated remainder `X - n * Y`, with
`n` the quotient `X / Y` rounded toward zero (the result has the sign of
`X`). -/
def Fmod (X Y : ℚ) : ℚ := X - Y * (truncToInt (X / Y) : ℚ)

namespace FPCGExPartitionByValuesElement

/-- `FPCGExPartitionByValuesElement::Filter`. For `FilterSize = 0` the source
divides by zero; what the model gives there (division by zero is zero in
`ℚ`) stands for no behaviour of the source. -/
def Filter (InValue : ℚ) (Rule : FRule) : ℤ :=
  let Upscaled : ℚ := InValue * Rule.Upscale
  let Filtered : ℚ := (Upscaled - Fmod Upscaled Rule.FilterSize) / Rule.FilterSize
  truncToInt Filtered

end FPCGExPartitionByValuesElement


/-! ## Points, point data and metadata -/

/-- `FVector`: three coordinates. -/
structure FVector where
  X : ℚ
  Y : ℚ
  Z : ℚ
deriving DecidableEq

/-- `FVector::DistSquared`. -/
def FVector.DistSquared (A B : FVector) : ℚ :=
  (A.X - B.X) * (A.X - B.X) + (A.Y - B.Y) * (A.Y - B.Y) + (A.Z - B.Z) * (A.Z - B.Z)

/-- `FPCGPoint`: the location of its transform, its metadata entry key, and
every other property (rotation, scale, density, bounds, colour, seed) as one
value. -/
structure FPCGPoint where
  Location : FVector
  Properties : ℕ
  MetadataEntry : ℤ
deriving DecidableEq

/-- `Point.Transform.SetLocation(Location)`. -/
def FPCGPoint.SetLocation (Point : FPCGPoint) (Location : FVector) : FPCGPoint :=
  { Point with Location := Location }

/-- What a copy of a point keeps when it is given a new metadata entry: all of
the point but `MetadataEntry`. -/
def FPCGPoint.Body (Point : FPCGPoint) : FVector × ℕ := (Point.Location, Point.Properties)

/-- An attribute name with the outcome of `PCGEx::Common::IsValidName` on it
(the name check itself is engine code). -/
structure FName where
  Text : String
  bValid : Bool
deriving DecidableEq

/-- `PCGEx::Common::IsValidName`. -/
def IsValidName (Name : FName) : Bool := Name.bValid

/-- `UPCGMetadata`, reduced to what `DistributePoint` touches: the entry keys
(`ItemKeyOffset` entries belong to the parent, `LocalEntries` were added
here) and the values of the `int64` partition-key attribute (`none` until the
attribute is created; the list records entry key and value, newest first). -/
structure UPCGMetadata where
  ItemKeyOffset : ℤ
  LocalEntries : ℕ
  KeyAttribute : Option (List (ℤ × ℤ))
deriving DecidableEq

/-- `UPCGMetadata::AddEntry`: a new entry key after all existing ones. -/
def UPCGMetadata.AddEntry (Metadata : UPCGMetadata) : UPCGMetadata × ℤ :=
  ({ Metadata with LocalEntries := Metadata.LocalEntries + 1 },
   Metadata.ItemKeyOffset + Metadata.LocalEntries)

/-- `UPCGMetadata::InitializeOnSet(InOutKey)`: a point whose key is invalid
(`-1`) or belongs to the parent metadata gets a new entry of this metadata. -/
def UPCGMetadata.InitializeOnSet (Metadata : UPCGMetadata) (InOutKey : ℤ) : UPCGMetadata × ℤ :=
  if InOutKey = -1 ∨ InOutKey < Metadata.ItemKeyOffset then Metadata.AddEntry
  else (Metadata, InOutKey)

/-- `PCGMetadataElementCommon::ClearOrCreateAttribute<int64>(Metadata, Name, 0)`:
the attribute is (re)created empty; a null result for a name the engine
rejects. The returned flag is "the pointer is not null". -/
def ClearOrCreateAttribute (Metadata : UPCGMetadata) (Name : FName) : UPCGMetadata × Bool :=
  if IsValidName Name then ({ Metadata with KeyAttribute := some [] }, true)
  else (Metadata, false)

/-- `FPCGMetadataAttribute<int64>::SetValue(EntryKey, Value)` on the key
attribute of this metadata. -/
def UPCGMetadata.SetValue (Metadata : UPCGMetadata) (EntryKey Value : ℤ) : UPCGMetadata :=
  match Metadata.KeyAttribute with
  | some Values => { Metadata with KeyAttribute := some ((EntryKey, Value) :: Values) }
  | none => Metadata

/-- The value last set for an entry key in the key attribute, if any. -/
def UPCGMetadata.GetValue (Metadata : UPCGMetadata) (EntryKey : ℤ) : Option ℤ :=
  match Metadata.KeyAttribute with
  | some Values => Values.lookup EntryKey
  | none => none

/-- `UPCGPointData`: points and metadata. -/
structure UPCGPointData where
  Points : List FPCGPoint
  Metadata : UPCGMetadata
deriving DecidableEq

/-- `UPCGExPointIO`: an input and an output point data. -/
structure UPCGExPointIO where
  In : UPCGPointData
  Out : UPCGPointData
deriving DecidableEq

/-- `UPCGExPointIOGroup::Emplace_GetRef(PointIO, EIOInit::NewOutput)`, the object
built: same input, a new empty output whose metadata is a child of the
input's. -/
def UPCGExPointIO.NewOutput (Io : UPCGExPointIO) : UPCGExPointIO :=
  { In := Io.In
    Out := { Points := []
             Metadata := { ItemKeyOffset := Io.In.Metadata.ItemKeyOffset + Io.In.Metadata.LocalEntries
                           LocalEntries := 0
                           KeyAttribute := none } } }

/-! ## `TMap` -/

/-- `TMap::Find`: the value stored for a key. -/
def TMapFind {V : Type} (Map : List (ℤ × V)) (Key : ℤ) : Option V := Map.lookup Key

/-- `TMap::Add`: the value of an existing key is replaced, a new key is
added. -/
def TMapAdd {V : Type} (Map : List (ℤ × V)) (Key : ℤ) (Value : V) : List (ℤ × V) :=
  if (Map.lookup Key).isSome then Map.map (fun e => if e.1 = Key then (Key, Value) else e)
  else Map ++ [(Key, Value)]

/-! ## PartitionByValues: context, `DistributePoint`, `ExecuteInternal` -/

/-- `PCGEx::EOperation`. -/
inductive EOperation where
  | Setup
  | ReadyForNextPoints
  | ProcessingPoints
  | Done
deriving DecidableEq

/-- `UPCGExPartitionByValuesSettings`, the fields read. -/
structure UPCGExPartitionByValuesSettings where
  KeyAttributeName : FName
  bWriteKeyToAttribute : Bool
  PartitioningRules : FRule
deriving DecidableEq

/-- `FPCGExSplitByValuesContext`. `Partitions` is the `UPCGExPointIOGroup` of
partitions; a `UPCGExPointIO*` to a partition is its index in that group, and
a `FPCGMetadataAttribute<int64>*` is the index of the partition whose output
metadata owns the attribute. `OutputData` is what `OutputTo` handed to the
host. -/
structure FPCGExSplitByValuesContext where
  CurrentOperation : EOperation
  Settings : UPCGExPartitionByValuesSettings
  Points : List UPCGExPointIO
  ChunkSize : ℤ
  Partitions : List UPCGExPointIO
  PartitionKeyName : FName
  bWritePartitionKey : Bool
  PartitionsMap : List (ℤ × ℕ)
  KeyAttributeMap : List (ℤ × ℕ)
  PartitionRule : FRule
  Rules : List FRule
  RuleMap : List (ℤ × ℕ)
  OutputData : List UPCGPointData
deriving DecidableEq

namespace FPCGExSplitByValuesContext

def IsCurrentOperation (Context : FPCGExSplitByValuesContext) (Op : EOperation) : Bool :=
  decide (Context.CurrentOperation = Op)

def SetOperation (Context : FPCGExSplitByValuesContext) (Op : EOperation) :
    FPCGExSplitByValuesContext :=
  { Context with CurrentOperation := Op }

def IsDone (Context : FPCGExSplitByValuesContext) : Bool :=
  Context.IsCurrentOperation EOperation.Done

end FPCGExSplitByValuesContext

namespace FPCGExPartitionByValuesElement

/-- `InitializeContext`: the partition fields of a new context, from the
settings. -/
def InitializeContext (Settings : UPCGExPartitionByValuesSettings)
    (Points : List UPCGExPointIO) (ChunkSize : ℤ) : FPCGExSplitByValuesContext :=
  { CurrentOperation := EOperation.Setup
    Settings := Settings
    Points := Points
    ChunkSize := ChunkSize
    Partitions := []
    PartitionKeyName := Settings.KeyAttributeName
    bWritePartitionKey := Settings.bWriteKeyToAttribute
    PartitionsMap := []
    KeyAttributeMap := []
    PartitionRule := Settings.PartitioningRules
    Rules := []
    RuleMap := []
    OutputData := [] }

/-- `DistributePoint`, lines 134-140: the key, and the partition found for it
in `PartitionsMap` under the read lock (`none` for a null pointer). -/
def DistributePoint_Find (Context : FPCGExSplitByValuesContext) (InValue : ℚ) : ℤ × Option ℕ :=
  let Key := Filter InValue Context.PartitionRule
  (Key, TMapFind Context.PartitionsMap Key)

/-- `DistributePoint`, lines 144-155, the branch `!Partition` under the write
lock: a new partition is emplaced and registered for the key; with key
writing on, its key attribute is created and, when not null, cached. Returns
the context, the partition pointer and the key-attribute pointer. -/
def DistributePoint_Create (Context : FPCGExSplitByValuesContext) (Io : UPCGExPointIO)
    (Key : ℤ) : FPCGExSplitByValuesContext × ℕ × Option ℕ :=
  let Partition : ℕ := Context.Partitions.length
  let NewPartition : UPCGExPointIO := Io.NewOutput
  let Context1 : FPCGExSplitByValuesContext :=
    { Context with
      Partitions := Context.Partitions ++ [NewPartition]
      PartitionsMap := TMapAdd Context.PartitionsMap Key Partition }
  if Context1.bWritePartitionKey then
    let Created := ClearOrCreateAttribute NewPartition.Out.Metadata Context1.PartitionKeyName
    let Context2 : FPCGExSplitByValuesContext :=
      { Context1 with
        Partitions := Context.Partitions ++ [{ NewPartition with Out := { NewPartition.Out with Metadata := Created.1 } }] }
    if Created.2 then
      ({ Context2 with KeyAttributeMap := TMapAdd Context2.KeyAttributeMap Key Partition },
        Partition, some Partition)
    else (Context2, Partition, none)
  else (Context1, Partition, none)

/-- `DistributePoint`, lines 156-164, the branch of a partition that exists:
with key writing on, the cached key attribute of the key, under the read
lock. -/
def DistributePoint_FindAttribute (Context : FPCGExSplitByValuesContext) (Key : ℤ) : Option ℕ :=
  if Context.bWritePartitionKey then TMapFind Context.KeyAttributeMap Key else none

/-- `DistributePoint`, lines 166-174, under the points lock: the point is
copied to the end of the partition's output points; with a key attribute, the
copy gets its metadata entry from `InitializeOnSet` and the key is set for
that entry on the attribute. A pointer that is not in `Partitions` does not
occur (the two branches above return pointers into it); the model leaves the
context as it is there. -/
def DistributePoint_Append (Context : FPCGExSplitByValuesContext) (Partition : ℕ)
    (KeyAttribute : Option ℕ) (Point : FPCGPoint) (Key : ℤ) : FPCGExSplitByValuesContext :=
  match Context.Partitions[Partition]? with
  | none => Context
  | some P =>
    match KeyAttribute with
    | none =>
      { Context with
        Partitions := Context.Partitions.set Partition
          { P with Out := { P.Out with Points := P.Out.Points ++ [Point] } } }
    | some Attribute =>
      let Init := P.Out.Metadata.InitializeOnSet Point.MetadataEntry
      let NewPoint : FPCGPoint := { Point with MetadataEntry := Init.2 }
      let Partitions1 := Context.Partitions.set Partition
          { P with Out := { Points := P.Out.Points ++ [NewPoint], Metadata := Init.1 } }
      match Partitions1[Attribute]? with
      | none => { Context with Partitions := Partitions1 }
      | some A =>
        { Context with
          Partitions := Partitions1.set Attribute
            { A with Out := { A.Out with Metadata := A.Out.Metadata.SetValue Init.2 Key } } }

/-- `FPCGExPartitionByValuesElement::DistributePoint`, run without
interleaving: the lock-delimited steps one after the other. -/
def DistributePoint (Context : FPCGExSplitByValuesContext) (Io : UPCGExPointIO)
    (Point : FPCGPoint) (InValue : ℚ) : FPCGExSplitByValuesContext :=
  let Found := DistributePoint_Find Context InValue
  let Key := Found.1
  match Found.2 with
  | none =>
    let Created := DistributePoint_Create Context Io Key
    DistributePoint_Append Created.1 Created.2.1 Created.2.2 Point Key
  | some Partition =>
    let KeyAttribute := DistributePoint_FindAttribute Context Key
    DistributePoint_Append Context Partition KeyAttribute Point Key

/-- One call of `DistributePoint`: the source point IO, the point and the value read
for it. -/
structure FDistributeCall where
  Io : UPCGExPointIO
  Point : FPCGPoint
  InValue : ℚ
deriving DecidableEq

/-- A sequence of `DistributePoint` calls, one after another. -/
def DistributePoints (Context : FPCGExSplitByValuesContext) (Calls : List FDistributeCall) :
    FPCGExSplitByValuesContext :=
  Calls.foldl (fun C Call => DistributePoint C Call.Io Call.Point Call.InValue) Context

/-- The lambda `InitializeForIO` of `ExecuteInternal` (lines 95-103) for the
input at `Index` of `Context->Points`. -/
def InitializeForIO (Context : FPCGExSplitByValuesContext) (Index : ℕ) :
    FPCGExSplitByValuesContext :=
  let IORule : ℕ := Context.Rules.length
  ({ Context with
      Rules := Context.Rules ++ [Context.PartitionRule]
      RuleMap := TMapAdd Context.RuleMap (Index : ℤ) IORule }).SetOperation
    EOperation.ProcessingPoints

/-- The lambda `ProcessPoint` of `ExecuteInternal` (lines 105-109).
`GetValue` is `PCGExPartition::FRule::GetValue` of the rule prepared for the
input: the value of the rule's attribute on the point. -/
def ProcessPoint (GetValue : UPCGPointData → FPCGPoint → ℚ)
    (Context : FPCGExSplitByValuesContext) (Point : FPCGPoint) (Io : UPCGExPointIO) :
    FPCGExSplitByValuesContext :=
  DistributePoint Context Io Point (GetValue Io.In Point)

/-- Modelled from the spec: `UPCGExPointIOGroup::InputsParallelProcessing` is
declared outside the sources at hand. Taken in its synchronous in-order form
(section 4.2: with asynchronous processing off, strategies "degrade to
synchronous in-order execution"): every input of the group is initialised and
then each of its points processed, in index order, and the call reports
completion. -/
def InputsParallelProcessing (GetValue : UPCGPointData → FPCGPoint → ℚ)
    (Context : FPCGExSplitByValuesContext) : FPCGExSplitByValuesContext × Bool :=
  ((List.range Context.Points.length).foldl
    (fun C Index =>
      match Context.Points[Index]? with
      | none => C
      | some Io =>
        Io.In.Points.foldl (fun C1 Point => ProcessPoint GetValue C1 Point Io)
          ( InitializeForIO C Index))
    Context, true)

/-- `UPCGExPointIOGroup::OutputTo(Context, true)` on the partitions: their
outputs are handed to the host. -/
def OutputPartitions (Context : FPCGExSplitByValuesContext) : FPCGExSplitByValuesContext :=
  { Context with OutputData := Context.OutputData ++ Context.Partitions.map (fun P => P.Out) }

/-- `FPCGExPartitionByValuesElement::ExecuteInternal`: one tick. Returns the
context when the tick returns and the returned flag. -/
def ExecuteInternal (GetValue : UPCGPointData → FPCGPoint → ℚ)
    (Context : FPCGExSplitByValuesContext) : FPCGExSplitByValuesContext × Bool :=
  -- lines 66-84
  let AfterSetup : Option FPCGExSplitByValuesContext :=
    if Context.IsCurrentOperation EOperation.Setup then
      if Context.Points.isEmpty then none
      else if Context.Settings.bWriteKeyToAttribute
          && !IsValidName Context.Settings.KeyAttributeName then none
      else some (Context.SetOperation EOperation.ReadyForNextPoints)
    else some Context
  match AfterSetup with
  | none => (Context, true)
  | some C1 =>
    -- lines 88-93
    let bProcessingAllowed : Bool := C1.IsCurrentOperation EOperation.ReadyForNextPoints
    -- lines 111-117
    let C2 : FPCGExSplitByValuesContext :=
      if C1.IsCurrentOperation EOperation.ProcessingPoints || bProcessingAllowed then
        let Processed := InputsParallelProcessing GetValue C1
        if Processed.2 then Processed.1.SetOperation EOperation.Done else Processed.1
      else C1
    -- lines 119-125
    if C2.IsDone then (OutputPartitions C2, true) else (C2, false)

end FPCGExPartitionByValuesElement

/-! ## Sub-point blending (PCGExSubPointsDataBlendInheritEnd/Start.cpp) -/

/-- The loop body shared by the two `ProcessSubPoints`: the sub-point at index
`i` takes the properties of `Source` through `PCGExMath::Copy` and its
attributes through `AttributeMap->SetCopy`, and gets back the location it had.
`Copy From To` is the point `To` after `PCGExMath::Copy(From, To)`; `SetCopy`
acts on the attribute store `σ` and gives the entry key the point has after
it (the second key is passed by reference). -/
def ProcessSubPoint {σ : Type} (Copy : FPCGPoint → FPCGPoint → FPCGPoint)
    (SetCopy : ℤ → ℤ → σ → σ × ℤ) (Source : FPCGPoint)
    (State : List FPCGPoint × σ) (i : ℕ) : List FPCGPoint × σ :=
  match State.1[i]? with
  | none => State
  | some Point =>
    let Location : FVector := Point.Location
    let Point1 : FPCGPoint := Copy Source Point
    let Copied : σ × ℤ := SetCopy Source.MetadataEntry Point1.MetadataEntry State.2
    let Point2 : FPCGPoint := { Point1 with MetadataEntry := Copied.2 }
    (State.1.set i (Point2.SetLocation Location), Copied.1)

namespace UPCGExSubPointsDataBlendInheritEnd

/-- `UPCGExSubPointsDataBlendInheritEnd::ProcessSubPoints`: the view of
sub-points and the attribute store after the call. -/
def ProcessSubPoints {σ : Type} (Copy : FPCGPoint → FPCGPoint → FPCGPoint)
    (SetCopy : ℤ → ℤ → σ → σ × ℤ) (AttributeMap : σ)
    (StartPoint EndPoint : FPCGPoint) (SubPoints : List FPCGPoint) (PathLength : ℚ) :
    List FPCGPoint × σ :=
  let NumPoints : ℕ := SubPoints.length
  (List.range NumPoints).foldl (ProcessSubPoint Copy SetCopy EndPoint) (SubPoints, AttributeMap)

end UPCGExSubPointsDataBlendInheritEnd

namespace UPCGExSubPointsDataBlendInheritStart

/-- `UPCGExSubPointsDataBlendInheritStart::ProcessSubPoints`: the view of
sub-points and the attribute store after the call. -/
def ProcessSubPoints {σ : Type} (Copy : FPCGPoint → FPCGPoint → FPCGPoint)
    (SetCopy : ℤ → ℤ → σ → σ × ℤ) (AttributeMap : σ)
    (StartPoint EndPoint : FPCGPoint) (SubPoints : List FPCGPoint) (PathLength : ℚ) :
    List FPCGPoint × σ :=
  let NumPoints : ℕ := SubPoints.length
  (List.range NumPoints).foldl (ProcessSubPoint Copy SetCopy StartPoint) (SubPoints, AttributeMap)

end UPCGExSubPointsDataBlendInheritStart

/-! ## PathfindingNavmesh: context, `Boot`, `ExecuteInternal`, `FNavmeshPathTask` -/

/-- `PCGExMT::AsyncState` values used by the nodes. -/
inductive AsyncState where
  | State_Setup
  | State_ReadyForNextPoints
  | State_ProcessingPoints
  | State_WaitingOnAsyncWork
  | State_ReadyForNextEdges
  | State_Pathfinding
  | State_Done
deriving DecidableEq

/-- Modelled from the spec: `PCGExMath::FPathMetrics` is declared outside the
sources at hand ("a derived path-length metric"). Its start, last location,
count and length are functions of the locations added to it, which the model
keeps in order. -/
structure FPathMetrics where
  Locations : List FVector
deriving DecidableEq

/-- `FPathMetrics::Add`. -/
def FPathMetrics.Add (Metrics : FPathMetrics) (Location : FVector) : FPathMetrics :=
  { Locations := Metrics.Locations ++ [Location] }

/-- `FPathMetrics::IsLastWithinRange`: the squared distance from the last
location added is below the range (`Context->FuseDistance` is the squared fuse
distance). -/
def FPathMetrics.IsLastWithinRange (Metrics : FPathMetrics) (Location : FVector) (Range : ℚ) :
    Bool :=
  match Metrics.Locations.getLast? with
  | some Last => decide (FVector.DistSquared Last Location < Range)
  | none => false

/-- `PCGExPathfindingNavmesh::FPath`. `PathPoints` points to an element of
`Context->OutputPaths`: its index there. -/
structure FPath where
  SeedIndex : ℤ
  StartPosition : FVector
  GoalIndex : ℤ
  EndPosition : FVector
  PathPoints : ℕ
  Metrics : FPathMetrics
deriving DecidableEq

/-- `UPCGExPathfindingNavmeshSettings`, the fields read by `Boot`. `bNavData`
is "`Settings->NavData` is not null". -/
structure UPCGExPathfindingNavmeshSettings where
  bNavData : Bool
  bAddSeedToPath : Bool
  bAddGoalToPath : Bool
  FuseDistance : ℚ
deriving DecidableEq

/-- `FPCGExPathfindingNavmeshContext` with what `Boot` reads from the host:
`bBaseBoot` is the result of `FPCGExPointsProcessorElementBase::Boot`,
`GoalsInputs` the data on the goals pin, `bNavSys` is
"`UNavigationSystemV1::GetCurrent(World)` is not null" and
`DefaultNavData` its default nav data instance. `Tasks` are the tasks started
on the async manager (task index, pointer into `PathBuffer`),
`bAsyncWorkComplete` is what `IsAsyncWorkComplete()` returns in this tick,
`OutputData` what `OutputTo` handed to the host. -/
structure FPCGExPathfindingNavmeshContext where
  CurrentState : AsyncState
  Settings : UPCGExPathfindingNavmeshSettings
  bBaseBoot : Bool
  GoalsInputs : List UPCGExPointIO
  bNavSys : Bool
  DefaultNavData : Option ℕ
  MainPoints : List UPCGExPointIO
  CurrentPointsIndex : ℤ
  CurrentIO : Option UPCGExPointIO
  GoalsPoints : Option UPCGExPointIO
  NavData : Option ℕ
  OutputPaths : List UPCGExPointIO
  bAddSeedToPath : Bool
  bAddGoalToPath : Bool
  FuseDistance : ℚ
  PathBuffer : List FPath
  Tasks : List (ℤ × ℕ)
  bAsyncWorkComplete : Bool
  OutputData : List UPCGPointData
deriving DecidableEq

namespace FPCGExPathfindingNavmeshContext

def IsState (Context : FPCGExPathfindingNavmeshContext) (OperationId : AsyncState) : Bool :=
  decide (Context.CurrentState = OperationId)

def IsSetup (Context : FPCGExPathfindingNavmeshContext) : Bool :=
  Context.IsState AsyncState.State_Setup

def IsDone (Context : FPCGExPathfindingNavmeshContext) : Bool :=
  Context.IsState AsyncState.State_Done

def SetState (Context : FPCGExPathfindingNavmeshContext) (OperationId : AsyncState) :
    FPCGExPathfindingNavmeshContext :=
  { Context with CurrentState := OperationId }

/-- `Done()`. -/
def Done (Context : FPCGExPathfindingNavmeshContext) : FPCGExPathfindingNavmeshContext :=
  Context.SetState AsyncState.State_Done

/-- `SetAsyncState`: the state in which the context waits for its tasks. -/
def SetAsyncState (Context : FPCGExPathfindingNavmeshContext) (WaitState : AsyncState) :
    FPCGExPathfindingNavmeshContext :=
  Context.SetState WaitState

/-- `IsAsyncWorkComplete()`. -/
def IsAsyncWorkComplete (Context : FPCGExPathfindingNavmeshContext) : Bool :=
  Context.bAsyncWorkComplete

/-- `AdvancePointsIO()`: the next input of `MainPoints` becomes `CurrentIO`
(null when there is none). -/
def AdvancePointsIO (Context : FPCGExPathfindingNavmeshContext) :
    FPCGExPathfindingNavmeshContext :=
  { Context with
    CurrentPointsIndex := Context.CurrentPointsIndex + 1
    CurrentIO :=
      if 0 ≤ Context.CurrentPointsIndex + 1
      then Context.MainPoints[(Context.CurrentPointsIndex + 1).toNat]?
      else none }

end FPCGExPathfindingNavmeshContext

/-- `UPCGExGoalPicker`, the three calls made on it. -/
structure UPCGExGoalPicker where
  OutputMultipleGoals : Bool
  GetGoalIndices : FPCGPoint → List ℤ
  GetGoalIndex : FPCGPoint → ℤ

/-- `GetInPoint(Index).Transform.GetLocation()` on a point IO; the origin for
an index outside the input (the goal pickers return `-1` or an index of a
goal). -/
def GetInLocation (Io : UPCGExPointIO) (Index : ℤ) : FVector :=
  if 0 ≤ Index then
    match Io.In.Points[Index.toNat]? with
    | some Point => Point.Location
    | none => ⟨0, 0, 0⟩
  else ⟨0, 0, 0⟩

/-- `TryGetInPoint(Index)` on a point IO pointer: null for a null IO or an
index outside its input. -/
def TryGetInPoint (Io : Option UPCGExPointIO) (Index : ℤ) : Option FPCGPoint :=
  match Io with
  | none => none
  | some P => if 0 ≤ Index then P.In.Points[Index.toNat]? else none

namespace FPCGExPathfindingNavmeshElement

/-- `FPCGExPathfindingNavmeshElement::Boot`: the context when it returns, with
what it has assigned up to there, and the returned flag. On the paths that
return false after lines 90-104, `GoalsPoints` and `NavData` have been
assigned. -/
def Boot (Context : FPCGExPathfindingNavmeshContext) : FPCGExPathfindingNavmeshContext × Bool :=
  -- line 86
  if !Context.bBaseBoot then (Context, false)
  else
    -- lines 90-95
    let C1 : FPCGExPathfindingNavmeshContext :=
      match Context.GoalsInputs with
      | GoalsSource :: _ => { Context with GoalsPoints := some GoalsSource }
      | [] => Context
    -- lines 97-104
    let C2 : FPCGExPathfindingNavmeshContext :=
      if !C1.Settings.bNavData && C1.bNavSys then { C1 with NavData := C1.DefaultNavData }
      else C1
    -- lines 106-110
    match C2.GoalsPoints with
    | none => (C2, false)
    | some Goals =>
      if Goals.In.Points.length = 0 then (C2, false)
      -- lines 112-116
      else if C2.NavData.isNone then (C2, false)
      -- lines 118-134
      else
        ({ C2 with
            OutputPaths := []
            bAddSeedToPath := C2.Settings.bAddSeedToPath
            bAddGoalToPath := C2.Settings.bAddGoalToPath
            FuseDistance := C2.Settings.FuseDistance * C2.Settings.FuseDistance }, true)

/-- The lambda `NavMeshTask` of `ExecuteInternal` (lines 155-164): a path
object and its output IO are emplaced and a `FNavmeshPathTask` is started. -/
def NavMeshTask (Context : FPCGExPathfindingNavmeshContext) (Current : UPCGExPointIO)
    (PointIndex : ℕ) (InGoalIndex : ℤ) : FPCGExPathfindingNavmeshContext :=
  let GoalLocation : FVector :=
    match Context.GoalsPoints with
    | some Goals => GetInLocation Goals InGoalIndex
    | none => ⟨0, 0, 0⟩
  let PathObject : FPath :=
    { SeedIndex := PointIndex
      StartPosition := GetInLocation Current PointIndex
      GoalIndex := InGoalIndex
      EndPosition := GoalLocation
      PathPoints := Context.OutputPaths.length
      Metrics := ⟨[]⟩ }
  { Context with
    PathBuffer := Context.PathBuffer ++ [PathObject]
    OutputPaths := Context.OutputPaths ++ [Current.NewOutput]
    Tasks := Context.Tasks ++ [(PathObject.SeedIndex, Context.PathBuffer.length)] }

/-- The body of the loop over the seeds of `ExecuteInternal` (lines 153-179)
for the seed at `PointIndex`. -/
def DispatchSeed (GoalPicker : UPCGExGoalPicker) (Current : UPCGExPointIO)
    (Context : FPCGExPathfindingNavmeshContext) (PointIndex : ℕ) :
    FPCGExPathfindingNavmeshContext :=
  match Current.In.Points[PointIndex]? with
  | none => Context
  | some Seed =>
    if GoalPicker.OutputMultipleGoals then
      (GoalPicker.GetGoalIndices Seed).foldl
        (fun C GoalIndex => if GoalIndex ≠ -1 then NavMeshTask C Current PointIndex GoalIndex else C)
        Context
    else
      let GoalIndex : ℤ := GoalPicker.GetGoalIndex Seed
      if GoalIndex ≠ -1 then NavMeshTask Context Current PointIndex GoalIndex else Context

/-- `FPCGExPathfindingNavmeshElement::ExecuteInternal`: one tick. Returns the
context when the tick returns and the returned flag. A null `CurrentIO` after
a successful `Boot` does not occur (the base `Boot` requires main points);
the model runs the seed loop over no points there. -/
def ExecuteInternal (GoalPicker : UPCGExGoalPicker)
    (Context : FPCGExPathfindingNavmeshContext) : FPCGExPathfindingNavmeshContext × Bool :=
  -- lines 143-149: the context after the `Setup` block, `none` when the block
  -- returns true, with the context `Boot` left
  let AfterSetup : Option FPCGExPathfindingNavmeshContext :=
    if Context.IsSetup then
      if !(Boot Context).2 then none
      else
        let Booted : FPCGExPathfindingNavmeshContext := (Boot Context).1
        some (Booted.AdvancePointsIO.SetState AsyncState.State_ProcessingPoints)
    else some Context
  match AfterSetup with
  | none => ((Boot Context).1, true)
  | some C1 =>
    -- lines 151-182
    let C2 : FPCGExPathfindingNavmeshContext :=
      if C1.IsState AsyncState.State_ProcessingPoints then
        let Dispatched : FPCGExPathfindingNavmeshContext :=
          match C1.CurrentIO with
          | none => C1
          | some Current =>
            (List.range Current.In.Points.length).foldl (DispatchSeed GoalPicker Current) C1
        Dispatched.SetAsyncState AsyncState.State_Pathfinding
      else C1
    -- lines 184-191
    let C3 : FPCGExPathfindingNavmeshContext :=
      if C2.IsState AsyncState.State_Pathfinding then
        if C2.IsAsyncWorkComplete then
          ({ C2 with OutputData := C2.OutputData ++ C2.OutputPaths.map (fun (P : UPCGExPointIO) => P.Out) }).Done
        else C2
      else C2
    -- line 193
    (C3, C3.IsDone)

end FPCGExPathfindingNavmeshElement

/-! ## `FNavmeshPathTask::ExecuteTask` (PCGExPathfindingNavmesh.cpp, 196-299) -/

/-- A default-constructed `FPCGPoint`, as `TArray::SetNum` adds them. -/
def FPCGPoint.Default : FPCGPoint := ⟨⟨0, 0, 0⟩, 0, -1⟩

/-- `TArray::SetNum(NewNum)`. -/
def SetNum (Points : List FPCGPoint) (NewNum : ℕ) : List FPCGPoint :=
  Points.take NewNum ++ List.replicate (NewNum - Points.length) FPCGPoint.Default

namespace FNavmeshPathTask

/-- The fuse loop of `ExecuteTask` (lines 242-257), from the loop test on,
with `i` the loop index, `PathLocations` and `PathHelper` as they stand.
Each unit of fuel is one evaluation of the loop test that succeeds; `none`
when the fuel is used up before the test fails. A fused location is removed
and the index, decremented and then incremented by the `for`, stays. -/
def FuseLoop (FuseDistance : ℚ) (FuseCountReduce : ℤ) :
    ℕ → ℕ → List FVector → FPathMetrics → Option (List FVector × FPathMetrics)
  | 0, i, PathLocations, PathHelper =>
    if i < PathLocations.length then none else some (PathLocations, PathHelper)
  | Fuel + 1, i, PathLocations, PathHelper =>
    match PathLocations[i]? with
    | none => some (PathLocations, PathHelper)
    | some CurrentLocation =>
      if 0 < i ∧ (i : ℤ) < (PathLocations.length : ℤ) - FuseCountReduce
          ∧ PathHelper.IsLastWithinRange CurrentLocation FuseDistance = true then
        FuseLoop FuseDistance FuseCountReduce Fuel i (PathLocations.eraseIdx i) PathHelper
      else
        FuseLoop FuseDistance FuseCountReduce Fuel (i + 1) PathLocations
          (PathHelper.Add CurrentLocation)

/-- The body of the loop of lines 271-276 at index `i`: the output point is the
seed moved to the path location, which is added to the path metrics. -/
def WritePosition (PathLocations : List FVector) (Seed : FPCGPoint)
    (State : List FPCGPoint × FPathMetrics) (i : ℕ) : List FPCGPoint × FPathMetrics :=
  match PathLocations[i]? with
  | none => State
  | some Location => (State.1.set i (Seed.SetLocation Location), State.2.Add Location)

/-- What `ExecuteTask` reads and does not write: the cancellation flag as
polled at each of the five `PCGEX_ASYNC_CHECKPOINT`s (numbered 1 to 5; the
checkpoint returns false when the flag is set), the outcome of
`FindPathSync` on a start and an end location (`none` unless the query result
is `Success`, else the locations of the path points), and the blending
operation `Context->Blending->BlendSubPoints` on the view of the output
points and the path metrics. -/
structure FTaskEnvironment where
  Cancelled : ℕ → Bool
  FindPathSync : FVector → FVector → Option (List FVector)
  BlendSubPoints : List FPCGPoint → FPathMetrics → List FPCGPoint

/-- `FNavmeshPathTask::ExecuteTask`, lines 259-298: what follows the fuse
loop, with `PathLocations` as the loop left it. Returns the returned flag,
the path object and the point data `Path->PathPoints->GetOut()`. What the
blender writes to the metadata of the output is not modelled. -/
def FinishTask (Env : FTaskEnvironment) (Context : FPCGExPathfindingNavmeshContext)
    (Path : FPath) (OutData : UPCGPointData) (Seed Goal : FPCGPoint)
    (PathLocations : List FVector) : Bool × FPath × UPCGPointData :=
  -- line 259
  if PathLocations.length ≤ 2 then (false, Path, OutData)
  -- line 261
  else if Env.Cancelled 4 then (false, Path, OutData)
  else
    -- lines 263-268
    let NumPositions : ℕ := PathLocations.length
    let LastPosition : ℕ := NumPositions - 1
    let MutablePoints0 : List FPCGPoint := SetNum OutData.Points NumPositions
    -- lines 270-276
    let Written := (List.range LastPosition).foldl
      (WritePosition PathLocations Seed) (MutablePoints0, Path.Metrics)
    -- lines 278-280
    let Last := WritePosition PathLocations Goal Written LastPosition
    let MutablePoints1 : List FPCGPoint := Last.1
    let Path1 : FPath := { Path with Metrics := Last.2 }
    -- line 284
    if Env.Cancelled 5 then (false, Path1, { OutData with Points := MutablePoints1 })
    else
      -- lines 286-293
      let MutablePoints2 : List FPCGPoint := Env.BlendSubPoints MutablePoints1 Path1.Metrics
      -- line 295
      let MutablePoints3 : List FPCGPoint :=
        if !Context.bAddSeedToPath then MutablePoints2.eraseIdx 0 else MutablePoints2
      -- line 296
      let MutablePoints4 : List FPCGPoint :=
        if !Context.bAddGoalToPath then MutablePoints3.dropLast else MutablePoints3
      (true, Path1, { OutData with Points := MutablePoints4 })

/-- `FNavmeshPathTask::ExecuteTask`, lines 210-257, with the seed and the goal
found: the path query and the fuse loop, then `FinishTask`. `none` only if the
fuse loop did not end within its fuel (the number of path locations). -/
def FindAndFuse (Env : FTaskEnvironment) (Context : FPCGExPathfindingNavmeshContext)
    (Path : FPath) (OutData : UPCGPointData) (Seed Goal : FPCGPoint) :
    Option (Bool × FPath × UPCGPointData) :=
  let StartLocation : FVector := Seed.Location
  let EndLocation : FVector := Goal.Location
  -- line 222
  if Env.Cancelled 2 then some (false, Path, OutData)
  else
    -- lines 224-226
    let Result := Env.FindPathSync StartLocation EndLocation
    -- line 228
    if Env.Cancelled 3 then some (false, Path, OutData)
    else
      -- line 230
      match Result with
      | none => some (false, Path, OutData)
      | some Points =>
        -- lines 232-241
        let PathLocations0 : List FVector := [StartLocation] ++ Points ++ [EndLocation]
        let PathHelper : FPathMetrics := (⟨[]⟩ : FPathMetrics).Add StartLocation
        let FuseCountReduce : ℤ := if Context.bAddGoalToPath then 2 else 1
        -- lines 242-257
        match FuseLoop Context.FuseDistance FuseCountReduce PathLocations0.length
            (if Context.bAddSeedToPath then 1 else 0) PathLocations0 PathHelper with
        | none => none
        | some Fused => some (FinishTask Env Context Path OutData Seed Goal Fused.1)

/-- `FNavmeshPathTask::ExecuteTask` for the path object `Path`, with `OutData`
the point data `Path->PathPoints->GetOut()`. Returns the returned flag, the
path object and the point data after the call; `none` only if the fuse loop
did not end within its fuel. -/
def ExecuteTask (Env : FTaskEnvironment) (Context : FPCGExPathfindingNavmeshContext)
    (Path : FPath) (OutData : UPCGPointData) : Option (Bool × FPath × UPCGPointData) :=
  -- line 198
  if Env.Cancelled 1 then some (false, Path, OutData)
  -- lines 202-203
  else if !Context.bNavSys then some (false, Path, OutData)
  else
    -- lines 205-208
    match TryGetInPoint Context.CurrentIO Path.SeedIndex,
          TryGetInPoint Context.GoalsPoints Path.GoalIndex with
    | some Seed, some Goal => FindAndFuse Env Context Path OutData Seed Goal
    | _, _ => some (false, Path, OutData)

end FNavmeshPathTask

/-! ## Observations on the partition context, and bucketing on keys alone -/

/-- The key `DistributePoint` computes for a call. -/
def KeyOf (Rule : FRule) (Call : FPCGExPartitionByValuesElement.FDistributeCall) : ℤ :=
  FPCGExPartitionByValuesElement.Filter Call.InValue Rule

/-- The points of every partition, in the order of the group, each without its
metadata entry. -/
def PointsView (Context : FPCGExSplitByValuesContext) : List (List (FVector × ℕ)) :=
  Context.Partitions.map (fun P => P.Out.Points.map FPCGPoint.Body)

/-- The points of every partition, each with the value of the key attribute
of the partition's output metadata at the point's metadata entry. -/
def TaggedView (Context : FPCGExSplitByValuesContext) : List (List ((FVector × ℕ) × Option ℤ)) :=
  Context.Partitions.map
    (fun P => P.Out.Points.map (fun Point => (Point.Body, P.Out.Metadata.GetValue Point.MetadataEntry)))

/-- The partition after a point is appended to it with its own key attribute. -/
def AppendedPartition (P : UPCGExPointIO) (Point : FPCGPoint) (Key : ℤ) : UPCGExPointIO :=
  { In := P.In
    Out :=
      { Points := P.Out.Points ++
          [{ Point with MetadataEntry := (P.Out.Metadata.InitializeOnSet Point.MetadataEntry).2 }]
        Metadata := (P.Out.Metadata.InitializeOnSet Point.MetadataEntry).1.SetValue
          (P.Out.Metadata.InitializeOnSet Point.MetadataEntry).2 Key } }

/-- Bucketing as section 4.4 of the specification words it, on keys alone: an
item goes to the bucket its key is mapped to; on a miss a new bucket is added
at the end and the key is mapped to it. -/
def BucketStep {β : Type} (S : List (ℤ × ℕ) × List (List β)) (Item : ℤ × β) :
    List (ℤ × ℕ) × List (List β) :=
  match S.1.lookup Item.1 with
  | some Index => (S.1, List.modify (fun Bucket => Bucket ++ [Item.2]) Index S.2)
  | none => (S.1 ++ [(Item.1, S.2.length)], S.2 ++ [[Item.2]])

/-- The scenario of section 8, item 7: the point carrying value `v`. -/
def ScenarioPoint (v : ℕ) : FPCGPoint := ⟨⟨v, 0, 0⟩, v, -1⟩

/-- The scenario of section 8, item 7: the input holding the six points. -/
def ScenarioInput : UPCGExPointIO :=
  { In := { Points := [0, 5, 9, 10, 19, 20].map ScenarioPoint, Metadata := ⟨0, 0, none⟩ }
    Out := { Points := [], Metadata := ⟨0, 0, none⟩ } }

/-- The scenario of section 8, item 7: one call per value, in order. -/
def ScenarioCalls : List FPCGExPartitionByValuesElement.FDistributeCall :=
  [0, 5, 9, 10, 19, 20].map (fun v => ⟨ScenarioInput, ScenarioPoint v, (v : ℚ)⟩)

/-- The scenario of section 8, item 7: a new context with the rule
`{Upscale = 1, FilterSize = 10}`. -/
def ScenarioContext (bWriteKey bValidName : Bool) : FPCGExSplitByValuesContext :=
  FPCGExPartitionByValuesElement.InitializeContext
    ⟨⟨"PartitionKey", bValidName⟩, bWriteKey, ⟨1, 10⟩⟩ [ScenarioInput] 0

/-! ## Sample inputs for the node and task theorems -/

/-- The value a rule reads on a point in the samples: its `X` coordinate. -/
def SampleGetValue (Data : UPCGPointData) (Point : FPCGPoint) : ℚ := Point.Location.X

/-- A PartitionByValues context in `Setup` with no input points. -/
def SampleEmptyInputContext : FPCGExSplitByValuesContext :=
  FPCGExPartitionByValuesElement.InitializeContext
    ⟨⟨"PartitionKey", true⟩, true, ⟨1, 10⟩⟩ [] 0

/-- A PartitionByValues context in `Setup` over the scenario input, with key
writing on and the negative bucket width `FilterSize = -10`. -/
def SampleNegativeWidthContext : FPCGExSplitByValuesContext :=
  FPCGExPartitionByValuesElement.InitializeContext
    ⟨⟨"PartitionKey", true⟩, true, ⟨1, -10⟩⟩ [ScenarioInput] 0

/-- A goal picker with one goal per seed: goal `0`. -/
def SampleGoalPicker : UPCGExGoalPicker := ⟨false, fun _ => [], fun _ => 0⟩

/-- One seed at the origin. -/
def SampleSeeds : UPCGExPointIO :=
  { In := { Points := [⟨⟨0, 0, 0⟩, 7, 0⟩], Metadata := ⟨0, 1, none⟩ }
    Out := { Points := [], Metadata := ⟨0, 0, none⟩ } }

/-- One goal at `(10, 0, 0)`. -/
def SampleGoals : UPCGExPointIO :=
  { In := { Points := [⟨⟨10, 0, 0⟩, 8, 0⟩], Metadata := ⟨0, 1, none⟩ }
    Out := { Points := [], Metadata := ⟨0, 0, none⟩ } }

/-- A PathfindingNavmesh context in the given state over `SampleSeeds`, with
the given goal inputs, the seed and goal both added to the path and the
squared fuse distance `4`. -/
def SampleNavContext (State : AsyncState) (Goals : List UPCGExPointIO) (bComplete : Bool) :
    FPCGExPathfindingNavmeshContext :=
  { CurrentState := State
    Settings := ⟨false, true, true, 2⟩
    bBaseBoot := true
    GoalsInputs := Goals
    bNavSys := true
    DefaultNavData := some 0
    MainPoints := [SampleSeeds]
    CurrentPointsIndex := 0
    CurrentIO := some SampleSeeds
    GoalsPoints := Goals.head?
    NavData := some 0
    OutputPaths := []
    bAddSeedToPath := true
    bAddGoalToPath := true
    FuseDistance := 4
    PathBuffer := []
    Tasks := []
    bAsyncWorkComplete := bComplete
    OutputData := [] }

/-- A goals input that holds no point. -/
def SampleNoGoals : UPCGExPointIO :=
  { In := { Points := [], Metadata := ⟨0, 0, none⟩ }
    Out := { Points := [], Metadata := ⟨0, 0, none⟩ } }

/-- A PathfindingNavmesh context entered for the first time: in `Setup`, with
a goals input that holds no point and neither `GoalsPoints` nor `NavData`
assigned yet. -/
def SampleFreshNavContext : FPCGExPathfindingNavmeshContext :=
  { SampleNavContext AsyncState.State_Setup [SampleNoGoals] false with
    GoalsPoints := none
    NavData := none }

/-- A task environment: the cancellation flag is set exactly at the
checkpoints listed, the path query succeeds with the way points
`0, 1, 5, 10` on the `X` axis, and blending leaves the points as they are. -/
def SampleEnvironment (CancelledAt : List ℕ) : FNavmeshPathTask.FTaskEnvironment :=
  { Cancelled := fun n => decide (n ∈ CancelledAt)
    FindPathSync := fun _ _ => some [⟨0, 0, 0⟩, ⟨1, 0, 0⟩, ⟨5, 0, 0⟩, ⟨10, 0, 0⟩]
    BlendSubPoints := fun Points _ => Points }

/-- The path object of seed `0` and goal `0`, with no metrics yet. -/
def SamplePath : FPath := ⟨0, ⟨0, 0, 0⟩, 0, ⟨10, 0, 0⟩, 0, ⟨[]⟩⟩

/-- A new, empty output point data. -/
def SampleOutData : UPCGPointData := ⟨[], ⟨0, 0, none⟩⟩

/-- The `DistributePoint` calls made when every point of every input is
processed, input after input, each point with the value read for it. -/
def InputCalls (GetValue : UPCGPointData → FPCGPoint → ℚ) (Inputs : List UPCGExPointIO) :
    List FPCGExPartitionByValuesElement.FDistributeCall :=
  Inputs.flatMap (fun Io => Io.In.Points.map (fun Point => ⟨Io, Point, GetValue Io.In Point⟩))

/-! ## Point loops (PCGExPointsProcessor.h, 21-59) -/

/-- `PCGEx::FAPointLoop`, with the defaults of the header. The `int32` fields
are integers: on a loop with `0 ≤ CurrentIndex ≤ NumIterations` no operation
on them leaves the `int32` range. -/
structure FAPointLoop where
  NumIterations : ℤ := -1
  ChunkSize : ℤ := 32
  CurrentIndex : ℤ := -1
  bAsyncEnabled : Bool := true
deriving DecidableEq

/-- `FAPointLoop::GetCurrentChunkSize`. -/
def FAPointLoop.GetCurrentChunkSize (Loop : FAPointLoop) : ℤ :=
  min Loop.ChunkSize (Loop.NumIterations - Loop.CurrentIndex)

namespace FPointLoop

/-- Modelled from the spec: `FPointLoop::Advance` is declared in the header
and defined outside the sources at hand. Section 4.2: it "processes the next
chunk (size = `min(ChunkSize, RemainingItems)`) and returns `true` while items
remain, `false` once exhausted", the plain chunked loop running the body "for
each index in the chunk on the calling thread, in index order". The size of
the chunk is `GetCurrentChunkSize()`; `Visited` lists the indices the loop
body has been run on. A chunk size that is not positive runs the body on no
index and leaves the cursor where it is. -/
def Advance (Loop : FAPointLoop) (Visited : List ℤ) : FAPointLoop × List ℤ × Bool :=
  let ChunkNumIterations : ℤ := Loop.GetCurrentChunkSize
  let Visited1 : List ℤ :=
    Visited ++ (List.range ChunkNumIterations.toNat).map (fun (i : ℕ) => Loop.CurrentIndex + (i : ℤ))
  let Loop1 : FAPointLoop :=
    { Loop with CurrentIndex := Loop.CurrentIndex + (ChunkNumIterations.toNat : ℤ) }
  (Loop1, Visited1, decide (Loop1.CurrentIndex < Loop1.NumIterations))

/-- `Advance` called again and again until it returns false, at most `Calls`
times: the loop and the visited indices at that point, `none` if `Advance`
has not returned false by then. -/
def AdvanceUntilExhausted : ℕ → FAPointLoop → List ℤ → Option (FAPointLoop × List ℤ)
  | 0, _, _ => none
  | Calls + 1, Loop, Visited =>
    if (Advance Loop Visited).2.2 then
      AdvanceUntilExhausted Calls (Advance Loop Visited).1 (Advance Loop Visited).2.1
    else some ((Advance Loop Visited).1, (Advance Loop Visited).2.1)

end FPointLoop

/-! ## Edges of WriteEdgeExtras (PCGExWriteEdgeExtras.h, 48-61) -/

/-- Modelled from the spec: `PCGExGraph::FUnsignedEdge` is declared outside
the sources at hand. Section 3: "an unordered pair of vertex indices
`(Start, End)`", the indices being 32-bit. -/
structure FUnsignedEdge where
  Start : ℕ
  End : ℕ
deriving DecidableEq

/-- Modelled from the spec: the canonical key of an edge is computed outside
the sources at hand. Sections 3 and 4.5: "a 64-bit packing of
`(min(Start,End), max(Start,End))`", "e.g., `(min << 32) | max` for 32-bit
indices", here as a `uint64`. -/
def FUnsignedEdge.GetUnsignedHash (Edge : FUnsignedEdge) : ℕ :=
  (((min Edge.Start Edge.End) <<< 32) ||| (max Edge.Start Edge.End)) % 2 ^ 64

/-- `FPCGExWriteEdgeExtrasContext`, the fields of the header that hold data:
`UniqueEdges` is the `TSet<uint64>` (its elements, in the order added),
`Edges` the `TArray` of edges. -/
structure FPCGExWriteEdgeExtrasContext where
  EdgeType : ℕ
  MaxPossibleEdgesPerPoint : ℤ
  UniqueEdges : List ℕ
  Edges : List FUnsignedEdge
deriving DecidableEq

namespace FPCGExWriteEdgeExtrasContext

/-- Modelled from the spec: the code that fills `UniqueEdges` and `Edges` is
outside the sources at hand. Section 4.5: "maintain a set of seen keys; an
edge is inserted into the output edge list only if its key is new". -/
def InsertEdge (Context : FPCGExWriteEdgeExtrasContext) (Edge : FUnsignedEdge) :
    FPCGExWriteEdgeExtrasContext :=
  if Edge.GetUnsignedHash ∈ Context.UniqueEdges then Context
  else
    { Context with
      UniqueEdges := Context.UniqueEdges ++ [Edge.GetUnsignedHash]
      Edges := Context.Edges ++ [Edge] }

/-- The submitted edges inserted one after another. -/
def InsertEdges (Context : FPCGExWriteEdgeExtrasContext) (Submitted : List FUnsignedEdge) :
    FPCGExWriteEdgeExtrasContext :=
  Submitted.foldl InsertEdge Context

end FPCGExWriteEdgeExtrasContext

/-! ## DrawEdges (PCGExDrawEdges.cpp, 45-104) -/

/-- `PCGExMesh::FIndexedEdge`, the fields read by `ExecuteInternal`. -/
structure FIndexedEdge where
  Start : ℤ
  End : ℤ
  bValid : Bool
deriving DecidableEq

/-- `PCGExMesh::FVertex`, the field read by `ExecuteInternal`. -/
structure FVertex where
  Position : FVector
deriving DecidableEq

/-- `PCGExMesh::FMesh`: vertices and edges. -/
structure FMesh where
  Vertices : List FVertex
  Edges : List FIndexedEdge
deriving DecidableEq

/-- `Mesh->Vertices[Index].Position`. An index outside `Vertices` is an
out-of-bounds access in the source; the model gives the origin there. -/
def FMesh.VertexPosition (Mesh : FMesh) (Index : ℤ) : FVector :=
  if 0 ≤ Index then
    match Mesh.Vertices[Index.toNat]? with
    | some Vertex => Vertex.Position
    | none => ⟨0, 0, 0⟩
  else ⟨0, 0, 0⟩

/-- The main points still to be visited by a DrawEdges context: whether the
edges bound to them are valid, and the meshes of these edges. -/
structure FBoundPoints where
  bBoundEdgesValid : Bool
  Meshes : List FMesh
deriving DecidableEq

/-- `FPCGExDrawEdgesContext` with what `ExecuteInternal` reads from the host:
`bDebug` is `Settings->bDebug`, `bBoot` the result of `Boot`, `bNotifyExecute`
the result of `PCGExDebug::NotifyExecute`. `PointsQueue` are the main points
not yet advanced to, `EdgesQueue` the meshes of the bound edges not yet
advanced to, `Lines` the calls of `DrawDebugLine` so far, each with its start
and end position. -/
structure FPCGExDrawEdgesContext where
  CurrentState : AsyncState
  bDebug : Bool
  bBoot : Bool
  bNotifyExecute : Bool
  PointsQueue : List FBoundPoints
  bBoundEdgesValid : Bool
  EdgesQueue : List FMesh
  CurrentMesh : Option FMesh
  Lines : List (FVector × FVector)
deriving DecidableEq

namespace FPCGExDrawEdgesContext

def IsState (Context : FPCGExDrawEdgesContext) (OperationId : AsyncState) : Bool :=
  decide (Context.CurrentState = OperationId)

def IsSetup (Context : FPCGExDrawEdgesContext) : Bool :=
  Context.IsState AsyncState.State_Setup

def IsDone (Context : FPCGExDrawEdgesContext) : Bool :=
  Context.IsState AsyncState.State_Done

def SetState (Context : FPCGExDrawEdgesContext) (OperationId : AsyncState) :
    FPCGExDrawEdgesContext :=
  { Context with CurrentState := OperationId }

/-- `Done()`. -/
def Done (Context : FPCGExDrawEdgesContext) : FPCGExDrawEdgesContext :=
  Context.SetState AsyncState.State_Done

/-- `AdvanceAndBindPointsIO()`: the next main points become current and their
edges are bound; false when there are none left. -/
def AdvanceAndBindPointsIO (Context : FPCGExDrawEdgesContext) : FPCGExDrawEdgesContext × Bool :=
  match Context.PointsQueue with
  | [] => (Context, false)
  | Next :: Rest =>
    ({ Context with
        PointsQueue := Rest
        bBoundEdgesValid := Next.bBoundEdgesValid
        EdgesQueue := Next.Meshes
        CurrentMesh := none }, true)

/-- `AdvanceEdges()`: the mesh of the next bound edges becomes `CurrentMesh`;
false when there are none left. -/
def AdvanceEdges (Context : FPCGExDrawEdgesContext) : FPCGExDrawEdgesContext × Bool :=
  match Context.EdgesQueue with
  | [] => ({ Context with CurrentMesh := none }, false)
  | Mesh :: Rest => ({ Context with EdgesQueue := Rest, CurrentMesh := some Mesh }, true)

end FPCGExDrawEdgesContext

namespace FPCGExDrawEdgesElement

/-- The body of the loop over the edges of the current mesh (lines 87-93) for
one edge: an edge that is not valid is skipped, a valid edge gives one
`DrawDebugLine` from the position of its start vertex to that of its end
vertex. -/
def DrawEdge (Mesh : FMesh) (Lines : List (FVector × FVector)) (Edge : FIndexedEdge) :
    List (FVector × FVector) :=
  if !Edge.bValid then Lines
  else
    let Start : FVector := Mesh.VertexPosition Edge.Start
    let End : FVector := Mesh.VertexPosition Edge.End
    Lines ++ [(Start, End)]

/-- The loop `while (Context->AdvanceEdges())` (lines 85-94): each unit of
fuel is one call of `AdvanceEdges`; `none` when the fuel is used up before it
returns false. -/
def DrawLoop : ℕ → FPCGExDrawEdgesContext → Option FPCGExDrawEdgesContext
  | 0, _ => none
  | Fuel + 1, Context =>
    if Context.AdvanceEdges.2 then
      match Context.AdvanceEdges.1.CurrentMesh with
      | some Mesh =>
        DrawLoop Fuel
          { Context.AdvanceEdges.1 with
            Lines := Mesh.Edges.foldl (DrawEdge Mesh) Context.AdvanceEdges.1.Lines }
      | none => DrawLoop Fuel Context.AdvanceEdges.1
    else some Context.AdvanceEdges.1

/-- `FPCGExDrawEdgesElement::ExecuteInternal` in an editor build: one tick.
Returns the context when the tick returns and the returned flag; `none` only
if the loop over the bound edges did not end within its fuel (one more than
the number of meshes queued). -/
def ExecuteInternal (Context : FPCGExDrawEdgesContext) :
    Option (FPCGExDrawEdgesContext × Bool) :=
  -- lines 54-64
  let AfterSetup : Option FPCGExDrawEdgesContext :=
    if Context.IsSetup then
      if !Context.bDebug then none
      else if !Context.bBoot then none
      else if !Context.bNotifyExecute then none
      else some (Context.SetState AsyncState.State_ReadyForNextPoints)
    else some Context
  match AfterSetup with
  | none => some (Context, true)
  | some C1 =>
    -- lines 66-81
    let C2 : FPCGExDrawEdgesContext :=
      if C1.IsState AsyncState.State_ReadyForNextPoints then
        if !C1.AdvanceAndBindPointsIO.2 then C1.AdvanceAndBindPointsIO.1.Done
        else if !C1.AdvanceAndBindPointsIO.1.bBoundEdgesValid then
          C1.AdvanceAndBindPointsIO.1.SetState AsyncState.State_ReadyForNextPoints
        else C1.AdvanceAndBindPointsIO.1.SetState AsyncState.State_ReadyForNextEdges
      else C1
    -- lines 83-97
    if C2.IsState AsyncState.State_ReadyForNextEdges then
      match DrawLoop (C2.EdgesQueue.length + 1) C2 with
      | none => none
      | some C3 =>
        -- line 99
        some (C3.SetState AsyncState.State_ReadyForNextPoints,
          (C3.SetState AsyncState.State_ReadyForNextPoints).IsDone)
    else some (C2, C2.IsDone)

end FPCGExDrawEdgesElement

/-- Where a running `DistributePoint` call stands: before the read-locked
lookup (lines 137-140), before the branch on `Partition` (lines 144-164),
before the append under the points lock (lines 166-174), or returned. -/
inductive EDistributeStage where
  | Lookup
  | Resolve
  | Append
  | Returned
deriving DecidableEq

/-- The arguments and the locals `Key`, `Partition` and `KeyAttribute` of one
running `DistributePoint` call. -/
structure FDistributeThread where
  Call : FPCGExPartitionByValuesElement.FDistributeCall
  Stage : EDistributeStage
  Key : ℤ
  Partition : Option ℕ
  KeyAttribute : Option ℕ
deriving DecidableEq

namespace FPCGExPartitionByValuesElement

/-- A `DistributePoint` call that has just been entered. -/
def EnterDistributePoint (Call : FDistributeCall) : FDistributeThread :=
  { Call := Call, Stage := EDistributeStage.Lookup, Key := 0, Partition := none,
    KeyAttribute := none }

/-- The next lock-delimited step of a running `DistributePoint` call on the
shared context: the scopes of `PartitionsLock` and `PointsLock` in the source
are the steps, and nothing is held between them. -/
def DistributePoint_Step (Context : FPCGExSplitByValuesContext) (Thread : FDistributeThread) :
    FPCGExSplitByValuesContext × FDistributeThread :=
  match Thread.Stage with
  | EDistributeStage.Lookup =>
    let Found := DistributePoint_Find Context Thread.Call.InValue
    (Context, { Thread with Stage := EDistributeStage.Resolve, Key := Found.1, Partition := Found.2 })
  | EDistributeStage.Resolve =>
    match Thread.Partition with
    | none =>
      let Created := DistributePoint_Create Context Thread.Call.Io Thread.Key
      (Created.1,
        { Thread with Stage := EDistributeStage.Append, Partition := some Created.2.1,
                      KeyAttribute := Created.2.2 })
    | some _ =>
      (Context,
        { Thread with Stage := EDistributeStage.Append,
                      KeyAttribute := DistributePoint_FindAttribute Context Thread.Key })
  | EDistributeStage.Append =>
    match Thread.Partition with
    | some Partition =>
      (DistributePoint_Append Context Partition Thread.KeyAttribute Thread.Call.Point Thread.Key,
        { Thread with Stage := EDistributeStage.Returned })
    | none => (Context, { Thread with Stage := EDistributeStage.Returned })
  | EDistributeStage.Returned => (Context, Thread)

/-- Two running calls under a schedule: each entry says which call takes its
next step (`false` the first call, `true` the second). -/
def RunSchedule (Context : FPCGExSplitByValuesContext) (First Second : FDistributeThread) :
    List Bool → FPCGExSplitByValuesContext × FDistributeThread × FDistributeThread
  | [] => (Context, First, Second)
  | false :: Schedule =>
    RunSchedule (DistributePoint_Step Context First).1 (DistributePoint_Step Context First).2
      Second Schedule
  | true :: Schedule =>
    RunSchedule (DistributePoint_Step Context Second).1 First
      (DistributePoint_Step Context Second).2 Schedule

/-- All schedules in which the first call takes `m` steps and the second `n`. -/
def Interleavings : ℕ → ℕ → List (List Bool)
  | 0, n => [List.replicate n true]
  | m + 1, 0 => [List.replicate (m + 1) false]
  | m + 1, n + 1 =>
    (Interleavings m (n + 1)).map (fun S => false :: S)
      ++ (Interleavings (m + 1) n).map (fun S => true :: S)

end FPCGExPartitionByValuesElement

/-- The first of two calls of the scenario of section 8, item 7, with the same
key `0`: the point of value `0`. -/
def SampleRaceFirst : FPCGExPartitionByValuesElement.FDistributeCall :=
  ⟨ScenarioInput, ScenarioPoint 0, 0⟩

/-- The second of the two calls with key `0`: the point of value `5`. -/
def SampleRaceSecond : FPCGExPartitionByValuesElement.FDistributeCall :=
  ⟨ScenarioInput, ScenarioPoint 5, 5⟩

/-! # Theorems -/

/-! ## Lemmas on truncation -/

theorem truncToInt_intCast (n : ℤ) : truncToInt (n : ℚ) = n := by
  simp [truncToInt]

theorem truncToInt_of_nonneg {x : ℚ} (hx : 0 ≤ x) : truncToInt x = ⌊x⌋ := by
  unfold truncToInt
  rw [Rat.floor_def]
  exact Int.tdiv_eq_ediv (Rat.num_nonneg.mpr hx) (Int.ofNat_nonneg _)

theorem truncToInt_neg (x : ℚ) : truncToInt (-x) = -truncToInt x := by
  simp [truncToInt]

theorem truncToInt_of_nonpos {x : ℚ} (hx : x ≤ 0) : truncToInt x = ⌈x⌉ := by
  have h : truncToInt (-x) = ⌊-x⌋ := truncToInt_of_nonneg (by linarith)
  rw [truncToInt_neg, Int.floor_neg] at h
  exact neg_injective h

theorem truncToInt_mono {x y : ℚ} (h : x ≤ y) : truncToInt x ≤ truncToInt y := by
  rcases le_or_lt 0 x with hx | hx
  · rw [truncToInt_of_nonneg hx, truncToInt_of_nonneg (hx.trans h)]
    exact Int.floor_mono h
  · rcases le_or_lt 0 y with hy | hy
    · rw [truncToInt_of_nonpos hx.le, truncToInt_of_nonneg hy]
      have h1 : ⌈x⌉ ≤ 0 := Int.ceil_le.mpr (by simpa using hx.le)
      have h2 : (0 : ℤ) ≤ ⌊y⌋ := Int.floor_nonneg.mpr hy
      exact h1.trans h2
    · rw [truncToInt_of_nonpos hx.le, truncToInt_of_nonpos hy.le]
      exact Int.ceil_mono h

/-- Subtracting the `Fmod` remainder and dividing is the quotient rounded
toward zero. -/
theorem Filter_eq_trunc (v : ℚ) (Rule : FRule) (hF : Rule.FilterSize ≠ 0) :
    FPCGExPartitionByValuesElement.Filter v Rule
      = truncToInt (v * Rule.Upscale / Rule.FilterSize) := by
  unfold FPCGExPartitionByValuesElement.Filter Fmod
  simp only []
  have h : (v * Rule.Upscale
        - (v * Rule.Upscale
            - Rule.FilterSize * (truncToInt (v * Rule.Upscale / Rule.FilterSize) : ℚ)))
        / Rule.FilterSize
      = ((truncToInt (v * Rule.Upscale / Rule.FilterSize) : ℤ) : ℚ) := by
    field_simp
  rw [h, truncToInt_intCast]

/-! ## C1 -/

/-- C1 (counterexample): with the negative multiplier `Upscale = -1` and
`FilterSize = 1 > 0`, the values `0 ≤ 1` have keys `0` and `-1`: `Filter` is
not non-decreasing for every `Upscale`. -/
theorem C1_counterexample :
    (0 : ℚ) < (⟨-1, 1⟩ : FRule).FilterSize ∧ (0 : ℚ) ≤ 1
      ∧ FPCGExPartitionByValuesElement.Filter 0 ⟨-1, 1⟩ = 0
      ∧ FPCGExPartitionByValuesElement.Filter 1 ⟨-1, 1⟩ = -1
      ∧ ¬ (FPCGExPartitionByValuesElement.Filter 0 ⟨-1, 1⟩
            ≤ FPCGExPartitionByValuesElement.Filter 1 ⟨-1, 1⟩) := by
  decide!

/-- C1 (amended): for every rule with `FilterSize > 0` and `Upscale ≥ 0`, and
every pair of values `v1 ≤ v2`, `Filter v1 rule ≤ Filter v2 rule`. -/
theorem C1_Filter_monotone (Rule : FRule) (v1 v2 : ℚ)
    (hF : 0 < Rule.FilterSize) (hU : 0 ≤ Rule.Upscale) (h : v1 ≤ v2) :
    FPCGExPartitionByValuesElement.Filter v1 Rule
      ≤ FPCGExPartitionByValuesElement.Filter v2 Rule := by
  rw [Filter_eq_trunc v1 Rule hF.ne', Filter_eq_trunc v2 Rule hF.ne']
  apply truncToInt_mono
  apply div_le_div_of_nonneg_right _ hF.le
  exact mul_le_mul_of_nonneg_right h hU

/-- C1 (amended), instance: rule `{Upscale = 3/2, FilterSize = 10}`, values
`-7 ≤ 25`. -/
theorem C1_Filter_monotone_witness :
    (0 : ℚ) < (⟨3 / 2, 10⟩ : FRule).FilterSize ∧ (0 : ℚ) ≤ (⟨3 / 2, 10⟩ : FRule).Upscale
      ∧ (-7 : ℚ) ≤ 25
      ∧ FPCGExPartitionByValuesElement.Filter (-7) ⟨3 / 2, 10⟩
          ≤ FPCGExPartitionByValuesElement.Filter 25 ⟨3 / 2, 10⟩ :=
  ⟨by decide!, by decide!, by decide!,
    C1_Filter_monotone ⟨3 / 2, 10⟩ (-7) 25 (by decide!) (by decide!) (by decide!)⟩

/-! ## C2 -/

/-- C2 (counterexample): with rule `{Upscale = 1, FilterSize = 10}` the value
`-5` has key `0`, while `floor(-5 / 10) = -1`. -/
theorem C2_counterexample :
    FPCGExPartitionByValuesElement.Filter (-5) ⟨1, 10⟩ = 0
      ∧ ⌊((-5 : ℚ) * 1) / 10⌋ = -1
      ∧ FPCGExPartitionByValuesElement.Filter (-5) ⟨1, 10⟩ ≠ ⌊((-5 : ℚ) * 1) / 10⌋ := by
  have h1 : FPCGExPartitionByValuesElement.Filter (-5) ⟨1, 10⟩ = 0 := by decide!
  have h2 : ⌊((-5 : ℚ) * 1) / 10⌋ = -1 := by
    rw [Int.floor_eq_iff]
    norm_num
  refine ⟨h1, h2, ?_⟩
  rw [h1, h2]
  decide

/-- C2 (amended): for every value `v` and rule with `FilterSize > 0`,
`Filter v rule` is `(v * Upscale) / FilterSize` rounded toward zero: it equals
`floor((v * Upscale) / FilterSize)` when `v * Upscale ≥ 0` and
`ceil((v * Upscale) / FilterSize)` when `v * Upscale < 0`. -/
theorem C2_Filter_eq_floor_or_ceil (v : ℚ) (Rule : FRule) (hF : 0 < Rule.FilterSize) :
    FPCGExPartitionByValuesElement.Filter v Rule
      = if 0 ≤ v * Rule.Upscale then ⌊(v * Rule.Upscale) / Rule.FilterSize⌋
        else ⌈(v * Rule.Upscale) / Rule.FilterSize⌉ := by
  rw [Filter_eq_trunc v Rule hF.ne']
  split
  · next h => exact truncToInt_of_nonneg (div_nonneg h hF.le)
  · next h =>
    exact truncToInt_of_nonpos (div_nonpos_of_nonpos_of_nonneg (not_le.mp h).le hF.le)

/-- C2 (amended), instance: rule `{Upscale = 1, FilterSize = 10}` at the value
`-5`. -/
theorem C2_Filter_eq_floor_or_ceil_witness :
    (0 : ℚ) < (⟨1, 10⟩ : FRule).FilterSize
      ∧ FPCGExPartitionByValuesElement.Filter (-5) ⟨1, 10⟩
          = if (0 : ℚ) ≤ -5 * (⟨1, 10⟩ : FRule).Upscale
            then ⌊((-5 : ℚ) * (⟨1, 10⟩ : FRule).Upscale) / (⟨1, 10⟩ : FRule).FilterSize⌋
            else ⌈((-5 : ℚ) * (⟨1, 10⟩ : FRule).Upscale) / (⟨1, 10⟩ : FRule).FilterSize⌉ :=
  ⟨by decide!, C2_Filter_eq_floor_or_ceil (-5) ⟨1, 10⟩ (by decide!)⟩

/-! ## C3 -/

/-- C3: with rule `{Upscale = 1, FilterSize = 10}`, `Filter` maps the values
`[0,5,9,10,19,20]` to the keys `[0,0,0,1,1,2]`, and distributing the points
carrying these values in that order from a new context (empty partitions map
and group), with key writing on or off, gives exactly 3 partitions of sizes
`[3,2,1]` in creation order. -/
theorem C3_scenario (bWriteKey bValidName : Bool) :
    ([0, 5, 9, 10, 19, 20] : List ℚ).map
        (fun v => FPCGExPartitionByValuesElement.Filter v ⟨1, 10⟩) = [0, 0, 0, 1, 1, 2]
      ∧ (ScenarioContext bWriteKey bValidName).PartitionsMap = []
      ∧ (ScenarioContext bWriteKey bValidName).Partitions = []
      ∧ (FPCGExPartitionByValuesElement.DistributePoints
          (ScenarioContext bWriteKey bValidName) ScenarioCalls).Partitions.length = 3
      ∧ (FPCGExPartitionByValuesElement.DistributePoints
          (ScenarioContext bWriteKey bValidName) ScenarioCalls).Partitions.map
            (fun P => P.Out.Points.length) = [3, 2, 1]
      ∧ (FPCGExPartitionByValuesElement.DistributePoints
          (ScenarioContext bWriteKey bValidName) ScenarioCalls).PartitionsMap
            = [(0, 0), (1, 1), (2, 2)] := by
  cases bWriteKey <;> cases bValidName <;> decide!

/-! ## Bucketing on keys alone: what a run establishes -/

theorem lookup_mem {β : Type} {l : List (ℤ × β)} {k : ℤ} {v : β}
    (h : l.lookup k = some v) : (k, v) ∈ l := by
  induction l with
  | nil => simp at h
  | cons e l ih =>
    obtain ⟨k', v'⟩ := e
    rw [List.lookup_cons] at h
    by_cases hk : k = k'
    · subst hk
      simp at h
      simp [h]
    · have : (k == k') = false := by simpa using hk
      rw [this] at h
      exact List.mem_cons_of_mem _ (ih h)

theorem lookup_none_iff {β : Type} (l : List (ℤ × β)) (k : ℤ) :
    l.lookup k = none ↔ k ∉ l.map Prod.fst := by
  rw [List.lookup_eq_none_iff]
  constructor
  · intro h hk
    obtain ⟨p, hp, rfl⟩ := List.mem_map.mp hk
    simpa using h p hp
  · intro h p hp
    have : p.1 ∈ l.map Prod.fst := List.mem_map.mpr ⟨p, hp, rfl⟩
    simp only [bne_iff_ne, ne_eq]
    rintro rfl
    exact h this

theorem sum_length_modify_append {β : Type} (V : List (List β)) (Index : ℕ) (b : β)
    (h : Index < V.length) :
    ((List.modify (fun Bucket => Bucket ++ [b]) Index V).map List.length).sum
      = (V.map List.length).sum + 1 := by
  induction V generalizing Index with
  | nil => simp at h
  | cons B V ih =>
    cases Index with
    | zero => simp [List.modify]; omega
    | succ n =>
      have hn : n < V.length := by simpa using h
      have := ih n hn
      simp only [List.modify_succ_cons, List.map_cons, List.sum_cons, this]
      omega

/-- What a run of `BucketStep` from the empty state establishes. -/
theorem BucketRun_spec {β : Type} (Items : List (ℤ × β)) :
    ((Items.foldl BucketStep ([], [])).1.map Prod.snd
        = List.range (Items.foldl BucketStep ([], [])).2.length)
      ∧ ((Items.foldl BucketStep ([], [])).1.map Prod.fst).Nodup
      ∧ (∀ k, k ∈ (Items.foldl BucketStep ([], [])).1.map Prod.fst ↔ k ∈ Items.map Prod.fst)
      ∧ (∀ k Index, (Items.foldl BucketStep ([], [])).1.lookup k = some Index →
          (Items.foldl BucketStep ([], [])).2[Index]?
            = some ((Items.filter (fun Item => Item.1 = k)).map Prod.snd))
      ∧ ((Items.foldl BucketStep ([], [])).2.map List.length).sum = Items.length := by
  induction Items using List.reverseRecOn with
  | nil => simp
  | append_singleton Items Item ih =>
    obtain ⟨hR, hN, hK, hB, hT⟩ := ih
    rw [List.foldl_append, List.foldl_cons, List.foldl_nil]
    generalize Items.foldl BucketStep ([], []) = S at hR hN hK hB hT
    obtain ⟨M, V⟩ := S
    obtain ⟨k0, b⟩ := Item
    simp only at hR hN hK hB hT
    unfold BucketStep
    simp only
    cases hL : M.lookup k0 with
    | some Index0 =>
      simp only
      have hmem0 : (k0, Index0) ∈ M := lookup_mem hL
      have hlt : Index0 < V.length := by
        have : Index0 ∈ M.map Prod.snd := List.mem_map.mpr ⟨_, hmem0, rfl⟩
        rw [hR] at this
        exact List.mem_range.mp this
      have hk0 : k0 ∈ Items.map Prod.fst := (hK k0).mp (List.mem_map.mpr ⟨_, hmem0, rfl⟩)
      refine ⟨by simpa using hR, hN, ?_, ?_, ?_⟩
      · intro k
        rw [hK k]
        simp only [List.map_append, List.mem_append, List.map_cons, List.map_nil,
          List.mem_singleton]
        constructor
        · exact Or.inl
        · rintro (h | h)
          · exact h
          · exact h ▸ hk0
      · intro k Index hk
        rw [List.getElem?_modify, hB k Index hk]
        have hmem : (k, Index) ∈ M := lookup_mem hk
        have hNV : (M.map Prod.snd).Nodup := hR ▸ List.nodup_range _
        by_cases hik : Index0 = Index
        · have hkk : (k0, Index0) = (k, Index) :=
            List.inj_on_of_nodup_map hNV hmem0 hmem hik
          have hk' : k0 = k := congrArg Prod.fst hkk
          subst hk'
          simp [hik, List.filter_append]
        · have hk' : k0 ≠ k := by
            rintro rfl
            rw [hL] at hk
            exact hik (Option.some.inj hk)
          simp [hik, List.filter_append, hk']
      · rw [sum_length_modify_append V Index0 b hlt, hT]
        simp
    | none =>
      simp only
      have hk0 : k0 ∉ M.map Prod.fst := (lookup_none_iff M k0).mp hL
      refine ⟨?_, ?_, ?_, ?_, ?_⟩
      · simp [hR, List.range_succ]
      · rw [List.map_append, List.nodup_append]
        refine ⟨hN, by simp, ?_⟩
        intro a ha hb
        simp at hb
        exact hk0 (hb ▸ ha)
      · intro k
        simp only [List.map_append, List.mem_append, List.map_cons, List.map_nil,
          List.mem_singleton]
        rw [hK k]
      · intro k Index hk
        rw [List.lookup_append] at hk
        cases hM : M.lookup k with
        | some Index1 =>
          rw [hM] at hk
          simp at hk
          subst hk
          have hmem : (k, Index1) ∈ M := lookup_mem hM
          have hlt : Index1 < V.length := by
            have : Index1 ∈ M.map Prod.snd := List.mem_map.mpr ⟨_, hmem, rfl⟩
            rw [hR] at this
            exact List.mem_range.mp this
          have hk' : k0 ≠ k := by
            rintro rfl
            rw [hL] at hM
            cases hM
          rw [List.getElem?_append_left hlt, hB k Index1 hM]
          simp [List.filter_append, hk']
        | none =>
          rw [hM] at hk
          by_cases hk' : k = k0
          · subst hk'
            simp at hk
            subst hk
            have hnot : k ∉ Items.map Prod.fst := fun h => hk0 ((hK k).mpr h)
            have hfil : Items.filter (fun Item => decide (Item.1 = k)) = [] := by
              rw [List.filter_eq_nil_iff]
              intro a ha
              simp only [decide_eq_true_eq]
              rintro rfl
              exact hnot (List.mem_map.mpr ⟨a, ha, rfl⟩)
            simp [List.filter_append, hfil]
          · have : (k == k0) = false := by simpa using hk'
            simp [List.lookup_cons, this] at hk
      · simp [hT]

/-! ## `DistributePoint` refines bucketing on keys -/

theorem modify_of_getElem?_eq_none {α : Type} (f : α → α) (n : ℕ) (l : List α)
    (h : l[n]? = none) : List.modify f n l = l := by
  apply List.ext_getElem?
  intro m
  rw [List.getElem?_modify]
  by_cases hnm : n = m
  · subst hnm
    simp [h]
  · simp [hnm]

theorem map_set_eq_modify {α γ : Type} (g : α → γ) (f : γ → γ) (l : List α) (n : ℕ) (a a' : α)
    (ha : l[n]? = some a) (h : g a' = f (g a)) :
    (l.set n a').map g = List.modify f n (l.map g) := by
  apply List.ext_getElem?
  intro m
  rw [List.getElem?_map, List.getElem?_set, List.getElem?_modify, List.getElem?_map]
  by_cases hnm : n = m
  · subst hnm
    have hlt : n < l.length := (List.getElem?_eq_some.mp ha).1
    simp [hlt, ha, h]
  · simp [hnm]

theorem map_set_eq_self {α γ : Type} (g : α → γ) (l : List α) (n : ℕ) (a a' : α)
    (ha : l[n]? = some a) (h : g a' = g a) : (l.set n a').map g = l.map g := by
  rw [map_set_eq_modify g id l n a a' ha (by simpa using h)]
  apply List.ext_getElem?
  intro m
  rw [List.getElem?_modify]
  by_cases hnm : n = m <;> simp [hnm]

/-- Appending a point changes the observed points of the partition pointed
to, by the point's body, and nothing else that the bucketing looks at. -/
theorem DistributePoint_Append_view (Context : FPCGExSplitByValuesContext) (Partition : ℕ)
    (KeyAttribute : Option ℕ) (Point : FPCGPoint) (Key : ℤ) :
    PointsView (FPCGExPartitionByValuesElement.DistributePoint_Append Context Partition
        KeyAttribute Point Key)
      = List.modify (fun Bucket => Bucket ++ [Point.Body]) Partition (PointsView Context)
    ∧ (FPCGExPartitionByValuesElement.DistributePoint_Append Context Partition
        KeyAttribute Point Key).PartitionsMap = Context.PartitionsMap
    ∧ (FPCGExPartitionByValuesElement.DistributePoint_Append Context Partition
        KeyAttribute Point Key).PartitionRule = Context.PartitionRule := by
  unfold FPCGExPartitionByValuesElement.DistributePoint_Append PointsView
  split
  · next hP =>
    refine ⟨?_, rfl, rfl⟩
    rw [modify_of_getElem?_eq_none]
    simp [hP]
  · next P hP =>
    split
    · refine ⟨?_, rfl, rfl⟩
      exact map_set_eq_modify _ _ _ _ _ _ hP (by simp)
    · next Attribute =>
      simp only
      split
      · refine ⟨?_, rfl, rfl⟩
        exact map_set_eq_modify _ _ _ _ _ _ hP (by simp [FPCGPoint.Body])
      · next A hA =>
        refine ⟨?_, rfl, rfl⟩
        simp only
        rw [map_set_eq_self _ _ _ _ _ hA (by simp)]
        exact map_set_eq_modify _ _ _ _ _ _ hP (by simp [FPCGPoint.Body])

/-- One `DistributePoint` is one `BucketStep` on the partitions map and the
observed points. -/
theorem DistributePoint_view (Context : FPCGExSplitByValuesContext) (Io : UPCGExPointIO)
    (Point : FPCGPoint) (InValue : ℚ) :
    ((FPCGExPartitionByValuesElement.DistributePoint Context Io Point InValue).PartitionsMap,
      PointsView (FPCGExPartitionByValuesElement.DistributePoint Context Io Point InValue))
      = BucketStep (Context.PartitionsMap, PointsView Context)
          (FPCGExPartitionByValuesElement.Filter InValue Context.PartitionRule, Point.Body)
    ∧ (FPCGExPartitionByValuesElement.DistributePoint Context Io Point InValue).PartitionRule
      = Context.PartitionRule := by
  unfold FPCGExPartitionByValuesElement.DistributePoint
    FPCGExPartitionByValuesElement.DistributePoint_Find BucketStep TMapFind
  simp only
  cases hL : Context.PartitionsMap.lookup
      (FPCGExPartitionByValuesElement.Filter InValue Context.PartitionRule) with
  | some Index =>
    simp only
    obtain ⟨h1, h2, h3⟩ := DistributePoint_Append_view Context Index
      (FPCGExPartitionByValuesElement.DistributePoint_FindAttribute Context
        (FPCGExPartitionByValuesElement.Filter InValue Context.PartitionRule)) Point
      (FPCGExPartitionByValuesElement.Filter InValue Context.PartitionRule)
    rw [h1, h2, h3]
    exact ⟨rfl, rfl⟩
  | none =>
    simp only
    have hC : PointsView (FPCGExPartitionByValuesElement.DistributePoint_Create Context Io
          (FPCGExPartitionByValuesElement.Filter InValue Context.PartitionRule)).1
          = PointsView Context ++ [[]]
        ∧ (FPCGExPartitionByValuesElement.DistributePoint_Create Context Io
          (FPCGExPartitionByValuesElement.Filter InValue Context.PartitionRule)).1.PartitionsMap
          = Context.PartitionsMap ++
            [(FPCGExPartitionByValuesElement.Filter InValue Context.PartitionRule,
              Context.Partitions.length)]
        ∧ (FPCGExPartitionByValuesElement.DistributePoint_Create Context Io
          (FPCGExPartitionByValuesElement.Filter InValue Context.PartitionRule)).1.PartitionRule
          = Context.PartitionRule
        ∧ (FPCGExPartitionByValuesElement.DistributePoint_Create Context Io
          (FPCGExPartitionByValuesElement.Filter InValue Context.PartitionRule)).2.1
          = Context.Partitions.length := by
      unfold FPCGExPartitionByValuesElement.DistributePoint_Create PointsView TMapAdd
      simp only [hL]
      cases Context.bWritePartitionKey <;>
        simp [ClearOrCreateAttribute, UPCGExPointIO.NewOutput]
      split <;> simp
    obtain ⟨hC1, hC2, hC3, hC4⟩ := hC
    obtain ⟨h1, h2, h3⟩ := DistributePoint_Append_view
      (FPCGExPartitionByValuesElement.DistributePoint_Create Context Io
        (FPCGExPartitionByValuesElement.Filter InValue Context.PartitionRule)).1
      (FPCGExPartitionByValuesElement.DistributePoint_Create Context Io
        (FPCGExPartitionByValuesElement.Filter InValue Context.PartitionRule)).2.1
      (FPCGExPartitionByValuesElement.DistributePoint_Create Context Io
        (FPCGExPartitionByValuesElement.Filter InValue Context.PartitionRule)).2.2 Point
      (FPCGExPartitionByValuesElement.Filter InValue Context.PartitionRule)
    rw [h1, h2, h3, hC1, hC2, hC3, hC4]
    refine ⟨?_, rfl⟩
    have hlen : (PointsView Context).length = Context.Partitions.length := by
      simp [PointsView]
    congr 1
    · rw [hlen]
    · apply List.ext_getElem?
      intro m
      rw [List.getElem?_modify]
      by_cases hm : Context.Partitions.length = m
      · subst hm
        simp [← hlen]
      · simp only [hm, if_false]
        rcases Nat.lt_or_ge m (PointsView Context).length with h | h
        · rw [List.getElem?_append_left h, List.getElem?_append_left h]
          simp
        · have hm' : (PointsView Context).length < m := by omega
          rw [List.getElem?_eq_none (by simp; omega), List.getElem?_eq_none (by simp; omega)]
          rfl

/-- A sequence of `DistributePoint` calls is a run of `BucketStep`. -/
theorem DistributePoints_view (Calls : List FPCGExPartitionByValuesElement.FDistributeCall)
    (Context : FPCGExSplitByValuesContext) :
    ((FPCGExPartitionByValuesElement.DistributePoints Context Calls).PartitionsMap,
      PointsView (FPCGExPartitionByValuesElement.DistributePoints Context Calls))
      = (Calls.map (fun Call => (KeyOf Context.PartitionRule Call, Call.Point.Body))).foldl
          BucketStep (Context.PartitionsMap, PointsView Context)
    ∧ (FPCGExPartitionByValuesElement.DistributePoints Context Calls).PartitionRule
      = Context.PartitionRule := by
  induction Calls generalizing Context with
  | nil => exact ⟨rfl, rfl⟩
  | cons Call Calls ih =>
    obtain ⟨h1, h2⟩ := DistributePoint_view Context Call.Io Call.Point Call.InValue
    obtain ⟨h3, h4⟩ := ih
      (FPCGExPartitionByValuesElement.DistributePoint Context Call.Io Call.Point Call.InValue)
    unfold FPCGExPartitionByValuesElement.DistributePoints at h3 h4 ⊢
    rw [List.foldl_cons, List.map_cons, List.foldl_cons, h3, h4, h2, h1]
    exact ⟨rfl, rfl⟩

theorem DistributePoints_snoc (Context : FPCGExSplitByValuesContext)
    (Before : List FPCGExPartitionByValuesElement.FDistributeCall)
    (Call : FPCGExPartitionByValuesElement.FDistributeCall) :
    FPCGExPartitionByValuesElement.DistributePoints Context (Before ++ [Call])
      = FPCGExPartitionByValuesElement.DistributePoint
          (FPCGExPartitionByValuesElement.DistributePoints Context Before)
          Call.Io Call.Point Call.InValue := by
  simp [FPCGExPartitionByValuesElement.DistributePoints, List.foldl_append]

theorem PointsView_length (Context : FPCGExSplitByValuesContext) :
    (PointsView Context).length = Context.Partitions.length := by
  simp [PointsView]

theorem PointsView_sizes (Context : FPCGExSplitByValuesContext) :
    (PointsView Context).map List.length
      = Context.Partitions.map (fun P => P.Out.Points.length) := by
  simp [PointsView, Function.comp_def]

theorem PointsView_getElem? (Context : FPCGExSplitByValuesContext) (Index : ℕ) :
    (PointsView Context)[Index]?
      = (Context.Partitions[Index]?).map (fun P => P.Out.Points.map FPCGPoint.Body) := by
  simp [PointsView]

/-! ## C4 -/

/-- C4: for every sequence of calls passed one after another to
`DistributePoint` from a context with an empty `PartitionsMap` and an empty
`Partitions` group: (1) a call adds a partition exactly when its key was not
seen in the calls before it; (2) the number of partitions is the number of
distinct `Filter` keys; (3) `PartitionsMap` maps every seen key to a partition
of the group and (4) no two keys to the same partition; (5) the partition of
key `k` holds exactly the points (each without its metadata entry, which a
copy may get anew) whose value has key `k`, in input order; (6) the partition
sizes sum to the number of calls. -/
theorem C4_DistributePoints (Context : FPCGExSplitByValuesContext)
    (Calls : List FPCGExPartitionByValuesElement.FDistributeCall)
    (hMap : Context.PartitionsMap = []) (hGroup : Context.Partitions = []) :
    (∀ (Before : List FPCGExPartitionByValuesElement.FDistributeCall)
        (Call : FPCGExPartitionByValuesElement.FDistributeCall),
        (FPCGExPartitionByValuesElement.DistributePoints Context (Before ++ [Call])).Partitions.length
          = (FPCGExPartitionByValuesElement.DistributePoints Context Before).Partitions.length
            + (if KeyOf Context.PartitionRule Call ∈ Before.map (KeyOf Context.PartitionRule)
                then 0 else 1))
      ∧ (FPCGExPartitionByValuesElement.DistributePoints Context Calls).Partitions.length
          = ((Calls.map (KeyOf Context.PartitionRule)).dedup).length
      ∧ (∀ Call ∈ Calls, ∃ Index,
          TMapFind (FPCGExPartitionByValuesElement.DistributePoints Context Calls).PartitionsMap
              (KeyOf Context.PartitionRule Call) = some Index
            ∧ Index < (FPCGExPartitionByValuesElement.DistributePoints Context Calls).Partitions.length)
      ∧ (∀ k1 k2 Index,
          TMapFind (FPCGExPartitionByValuesElement.DistributePoints Context Calls).PartitionsMap k1
              = some Index →
          TMapFind (FPCGExPartitionByValuesElement.DistributePoints Context Calls).PartitionsMap k2
              = some Index →
          k1 = k2)
      ∧ (∀ k Index,
          TMapFind (FPCGExPartitionByValuesElement.DistributePoints Context Calls).PartitionsMap k
              = some Index →
          ((FPCGExPartitionByValuesElement.DistributePoints Context Calls).Partitions[Index]?).map
              (fun P => P.Out.Points.map FPCGPoint.Body)
            = some ((Calls.filter (fun Call => KeyOf Context.PartitionRule Call = k)).map
                (fun Call => Call.Point.Body)))
      ∧ ((FPCGExPartitionByValuesElement.DistributePoints Context Calls).Partitions.map
          (fun P => P.Out.Points.length)).sum = Calls.length := by
  have hView0 : PointsView Context = [] := by simp [PointsView, hGroup]
  have hRun : ∀ (Cs : List FPCGExPartitionByValuesElement.FDistributeCall),
      ((FPCGExPartitionByValuesElement.DistributePoints Context Cs).PartitionsMap,
        PointsView (FPCGExPartitionByValuesElement.DistributePoints Context Cs))
      = (Cs.map (fun Call => (KeyOf Context.PartitionRule Call, Call.Point.Body))).foldl
          BucketStep ([], []) := by
    intro Cs
    rw [(DistributePoints_view Cs Context).1, hMap, hView0]
  have hKeys : ∀ (Cs : List FPCGExPartitionByValuesElement.FDistributeCall),
      (Cs.map (fun Call => (KeyOf Context.PartitionRule Call, Call.Point.Body))).map Prod.fst
        = Cs.map (KeyOf Context.PartitionRule) := by
    intro Cs
    simp [Function.comp_def]
  refine ⟨?_, ?_, ?_, ?_, ?_, ?_⟩
  · intro Before Call
    obtain ⟨hR, -, hK, -, -⟩ := BucketRun_spec
      (Before.map (fun Call => (KeyOf Context.PartitionRule Call, Call.Point.Body)))
    rw [← hRun Before] at hR hK
    simp only at hR hK
    rw [hKeys] at hK
    rw [DistributePoints_snoc]
    obtain ⟨hStep, -⟩ := DistributePoint_view
      (FPCGExPartitionByValuesElement.DistributePoints Context Before)
      Call.Io Call.Point Call.InValue
    have hLen := congrArg (fun S => S.2.length) hStep
    simp only [PointsView_length] at hLen
    rw [hLen, (DistributePoints_view Before Context).2]
    unfold BucketStep
    simp only
    cases hL : (FPCGExPartitionByValuesElement.DistributePoints Context Before).PartitionsMap.lookup
        (FPCGExPartitionByValuesElement.Filter Call.InValue Context.PartitionRule) with
    | some Index =>
      have hin : KeyOf Context.PartitionRule Call ∈ Before.map (KeyOf Context.PartitionRule) :=
        (hK _).mp (List.mem_map.mpr ⟨_, lookup_mem hL, rfl⟩)
      simp [hin, PointsView_length]
    | none =>
      have hnot : KeyOf Context.PartitionRule Call ∉ Before.map (KeyOf Context.PartitionRule) :=
        fun h => (lookup_none_iff _ _).mp hL ((hK _).mpr h)
      simp [hnot, PointsView_length]
  · obtain ⟨hR, hN, hK, -, -⟩ := BucketRun_spec
      (Calls.map (fun Call => (KeyOf Context.PartitionRule Call, Call.Point.Body)))
    rw [← hRun Calls] at hR hN hK
    simp only at hR hN hK
    rw [hKeys] at hK
    have hlen : (FPCGExPartitionByValuesElement.DistributePoints Context Calls).Partitions.length
        = ((FPCGExPartitionByValuesElement.DistributePoints Context Calls).PartitionsMap.map
            Prod.fst).length := by
      have := congrArg List.length hR
      simp only [List.length_map, List.length_range, PointsView_length] at this
      simp [this]
    rw [hlen, ← List.toFinset_card_of_nodup hN, ← List.card_toFinset]
    congr 1
    ext k
    simp only [List.mem_toFinset]
    exact hK k
  · intro Call hCall
    obtain ⟨hR, -, hK, -, -⟩ := BucketRun_spec
      (Calls.map (fun Call => (KeyOf Context.PartitionRule Call, Call.Point.Body)))
    rw [← hRun Calls] at hR hK
    simp only at hR hK
    rw [hKeys] at hK
    have hin : KeyOf Context.PartitionRule Call
        ∈ (FPCGExPartitionByValuesElement.DistributePoints Context Calls).PartitionsMap.map
            Prod.fst := (hK _).mpr (List.mem_map.mpr ⟨Call, hCall, rfl⟩)
    cases hL : (FPCGExPartitionByValuesElement.DistributePoints Context Calls).PartitionsMap.lookup
        (KeyOf Context.PartitionRule Call) with
    | none => exact absurd hin ((lookup_none_iff _ _).mp hL)
    | some Index =>
      refine ⟨Index, hL, ?_⟩
      have : Index ∈ (FPCGExPartitionByValuesElement.DistributePoints Context Calls).PartitionsMap.map
          Prod.snd := List.mem_map.mpr ⟨_, lookup_mem hL, rfl⟩
      rw [hR, PointsView_length] at this
      exact List.mem_range.mp this
  · intro k1 k2 Index h1 h2
    obtain ⟨hR, -, -, -, -⟩ := BucketRun_spec
      (Calls.map (fun Call => (KeyOf Context.PartitionRule Call, Call.Point.Body)))
    rw [← hRun Calls] at hR
    simp only at hR
    have hNV : ((FPCGExPartitionByValuesElement.DistributePoints Context Calls).PartitionsMap.map
        Prod.snd).Nodup := hR ▸ List.nodup_range _
    exact congrArg Prod.fst
      (List.inj_on_of_nodup_map hNV (lookup_mem h1) (lookup_mem h2) rfl)
  · intro k Index hk
    obtain ⟨-, -, -, hB, -⟩ := BucketRun_spec
      (Calls.map (fun Call => (KeyOf Context.PartitionRule Call, Call.Point.Body)))
    rw [← hRun Calls] at hB
    simp only at hB
    rw [← PointsView_getElem?, hB k Index hk, List.filter_map, List.map_map]
    rfl
  · obtain ⟨-, -, -, -, hT⟩ := BucketRun_spec
      (Calls.map (fun Call => (KeyOf Context.PartitionRule Call, Call.Point.Body)))
    rw [← hRun Calls] at hT
    simp only [PointsView_sizes, List.length_map] at hT
    exact hT

/-- C4, instance: the scenario of section 8, item 7, with key writing on. -/
theorem C4_DistributePoints_witness :
    (ScenarioContext true true).PartitionsMap = []
      ∧ (ScenarioContext true true).Partitions = []
      ∧ (FPCGExPartitionByValuesElement.DistributePoints
          (ScenarioContext true true) ScenarioCalls).Partitions.length
          = ((ScenarioCalls.map (KeyOf (ScenarioContext true true).PartitionRule)).dedup).length
      ∧ ((FPCGExPartitionByValuesElement.DistributePoints
          (ScenarioContext true true) ScenarioCalls).Partitions.map
          (fun P => P.Out.Points.length)).sum = ScenarioCalls.length :=
  ⟨rfl, rfl,
    (C4_DistributePoints (ScenarioContext true true) ScenarioCalls rfl rfl).2.1,
    (C4_DistributePoints (ScenarioContext true true) ScenarioCalls rfl rfl).2.2.2.2.2⟩

/-! ## Key tagging: `DistributePoint` refines bucketing of tagged points -/

theorem lookup_of_mem_nodup {β : Type} {l : List (ℤ × β)} {k : ℤ} {v : β}
    (hN : (l.map Prod.fst).Nodup) (h : (k, v) ∈ l) : l.lookup k = some v := by
  induction l with
  | nil => simp at h
  | cons e l ih =>
    obtain ⟨k', v'⟩ := e
    rw [List.map_cons, List.nodup_cons] at hN
    rw [List.lookup_cons]
    rcases List.mem_cons.mp h with h1 | h2
    · cases h1
      simp
    · have hne : k ≠ k' := by
        intro hkk
        exact hN.1 (List.mem_map.mpr ⟨(k, v), h2, hkk⟩)
      have : (k == k') = false := by simpa using hne
      rw [this]
      exact ih hN.2 h2

theorem InitializeOnSet_KeyAttribute (Metadata : UPCGMetadata) (InOutKey : ℤ) :
    (Metadata.InitializeOnSet InOutKey).1.KeyAttribute = Metadata.KeyAttribute := by
  unfold UPCGMetadata.InitializeOnSet UPCGMetadata.AddEntry
  split <;> rfl

theorem GetValue_SetValue (Metadata : UPCGMetadata) (Values : List (ℤ × ℤ))
    (h : Metadata.KeyAttribute = some Values) (EntryKey Value Other : ℤ) :
    (Metadata.SetValue EntryKey Value).GetValue Other
      = if Other = EntryKey then some Value else Metadata.GetValue Other := by
  unfold UPCGMetadata.SetValue UPCGMetadata.GetValue
  simp only [h, List.lookup_cons]
  by_cases hO : Other = EntryKey
  · simp [hO]
  · have : (Other == EntryKey) = false := by simpa using hO
    simp [this, hO]

theorem SetValue_KeyAttribute_isSome (Metadata : UPCGMetadata) (EntryKey Value : ℤ) :
    (Metadata.SetValue EntryKey Value).KeyAttribute.isSome = Metadata.KeyAttribute.isSome := by
  unfold UPCGMetadata.SetValue
  split <;> simp [*]


theorem DistributePoint_Append_own (Context : FPCGExSplitByValuesContext) (Index : ℕ)
    (Point : FPCGPoint) (Key : ℤ) (P : UPCGExPointIO)
    (hP : Context.Partitions[Index]? = some P) :
    FPCGExPartitionByValuesElement.DistributePoint_Append Context Index (some Index) Point Key
      = { Context with Partitions := Context.Partitions.set Index (AppendedPartition P Point Key) } := by
  have hlt : Index < Context.Partitions.length := (List.getElem?_eq_some.mp hP).1
  unfold FPCGExPartitionByValuesElement.DistributePoint_Append AppendedPartition
  simp only [hP, List.getElem?_set, if_true, hlt, List.set_set]

theorem TaggedView_length (Context : FPCGExSplitByValuesContext) :
    (TaggedView Context).length = Context.Partitions.length := by
  simp [TaggedView]

theorem TaggedView_getElem? (Context : FPCGExSplitByValuesContext) (Index : ℕ) :
    (TaggedView Context)[Index]?
      = (Context.Partitions[Index]?).map (fun P =>
          P.Out.Points.map (fun Point => (Point.Body, P.Out.Metadata.GetValue Point.MetadataEntry))) := by
  simp [TaggedView]

theorem AppendedPartition_tagged (P : UPCGExPointIO) (Point : FPCGPoint) (Key : ℤ)
    (hS : P.Out.Metadata.KeyAttribute.isSome = true)
    (hT : ∀ Q ∈ P.Out.Points, P.Out.Metadata.GetValue Q.MetadataEntry = some Key) :
    (AppendedPartition P Point Key).Out.Points.map
        (fun Q => (Q.Body, (AppendedPartition P Point Key).Out.Metadata.GetValue Q.MetadataEntry))
      = P.Out.Points.map (fun Q => (Q.Body, P.Out.Metadata.GetValue Q.MetadataEntry))
        ++ [(Point.Body, some Key)] := by
  obtain ⟨Values, hV⟩ := Option.isSome_iff_exists.mp hS
  have hV' : (P.Out.Metadata.InitializeOnSet Point.MetadataEntry).1.KeyAttribute = some Values := by
    rw [InitializeOnSet_KeyAttribute, hV]
  have hGet : ∀ Other, (P.Out.Metadata.InitializeOnSet Point.MetadataEntry).1.GetValue Other
      = P.Out.Metadata.GetValue Other := by
    intro Other
    unfold UPCGMetadata.GetValue
    rw [hV', hV]
  unfold AppendedPartition
  simp only [List.map_append, List.map_cons, List.map_nil]
  congr 1
  · apply List.map_congr_left
    intro Q hQ
    rw [GetValue_SetValue _ Values hV', hGet, hT Q hQ]
    simp
  · rw [GetValue_SetValue _ Values hV']
    simp [FPCGPoint.Body]

/-- With key writing on and the key attributes cached under the keys of the
partitions map, one `DistributePoint` is one `BucketStep` on the points
observed with their key attribute values. -/
theorem DistributePoint_tagged (Context : FPCGExSplitByValuesContext) (Io : UPCGExPointIO)
    (Point : FPCGPoint) (InValue : ℚ)
    (hW : Context.bWritePartitionKey = true) (hN : IsValidName Context.PartitionKeyName = true)
    (hKA : Context.KeyAttributeMap = Context.PartitionsMap)
    (hR : Context.PartitionsMap.map Prod.snd = List.range Context.Partitions.length)
    (hS : ∀ P ∈ Context.Partitions, P.Out.Metadata.KeyAttribute.isSome = true)
    (hT : ∀ k Index P, Context.PartitionsMap.lookup k = some Index →
      Context.Partitions[Index]? = some P →
      ∀ Q ∈ P.Out.Points, P.Out.Metadata.GetValue Q.MetadataEntry = some k) :
    ((FPCGExPartitionByValuesElement.DistributePoint Context Io Point InValue).PartitionsMap,
      TaggedView (FPCGExPartitionByValuesElement.DistributePoint Context Io Point InValue))
      = BucketStep (Context.PartitionsMap, TaggedView Context)
          (FPCGExPartitionByValuesElement.Filter InValue Context.PartitionRule,
            (Point.Body, some (FPCGExPartitionByValuesElement.Filter InValue Context.PartitionRule)))
    ∧ (FPCGExPartitionByValuesElement.DistributePoint Context Io Point InValue).bWritePartitionKey
      = true
    ∧ IsValidName
        (FPCGExPartitionByValuesElement.DistributePoint Context Io Point InValue).PartitionKeyName
      = true
    ∧ (FPCGExPartitionByValuesElement.DistributePoint Context Io Point InValue).KeyAttributeMap
      = (FPCGExPartitionByValuesElement.DistributePoint Context Io Point InValue).PartitionsMap
    ∧ (∀ P ∈ (FPCGExPartitionByValuesElement.DistributePoint Context Io Point InValue).Partitions,
        P.Out.Metadata.KeyAttribute.isSome = true)
    ∧ (FPCGExPartitionByValuesElement.DistributePoint Context Io Point InValue).PartitionRule
      = Context.PartitionRule := by
  unfold FPCGExPartitionByValuesElement.DistributePoint
    FPCGExPartitionByValuesElement.DistributePoint_Find BucketStep TMapFind
  simp only
  generalize FPCGExPartitionByValuesElement.Filter InValue Context.PartitionRule = Key
  cases hL : Context.PartitionsMap.lookup Key with
  | some Index =>
    simp only
    have hlt : Index < Context.Partitions.length := by
      have : Index ∈ Context.PartitionsMap.map Prod.snd :=
        List.mem_map.mpr ⟨_, lookup_mem hL, rfl⟩
      rw [hR] at this
      exact List.mem_range.mp this
    have hP : Context.Partitions[Index]? = some Context.Partitions[Index] :=
      List.getElem?_eq_getElem hlt
    have hFA : FPCGExPartitionByValuesElement.DistributePoint_FindAttribute Context Key
        = some Index := by
      unfold FPCGExPartitionByValuesElement.DistributePoint_FindAttribute TMapFind
      rw [hW, hKA, hL]
      rfl
    rw [hFA, DistributePoint_Append_own Context Index Point Key _ hP]
    refine ⟨?_, hW, hN, hKA, ?_, rfl⟩
    · congr 1
      unfold TaggedView
      exact map_set_eq_modify _ _ _ _ _ _ hP
        (AppendedPartition_tagged _ Point Key (hS _ (List.getElem_mem hlt))
          (hT Key Index _ hL hP))
    · intro Q hQ
      simp only at hQ
      rcases List.mem_or_eq_of_mem_set hQ with h | h
      · exact hS Q h
      · subst h
        unfold AppendedPartition
        simp only
        rw [SetValue_KeyAttribute_isSome, InitializeOnSet_KeyAttribute]
        exact hS _ (List.getElem_mem hlt)
  | none =>
    simp only
    obtain ⟨N, hNS, hNP, hC⟩ : ∃ N : UPCGExPointIO,
        N.Out.Metadata.KeyAttribute.isSome = true ∧ N.Out.Points = [] ∧
        FPCGExPartitionByValuesElement.DistributePoint_Create Context Io Key
        = ({ Context with
              Partitions := Context.Partitions ++ [N]
              PartitionsMap := Context.PartitionsMap ++ [(Key, Context.Partitions.length)]
              KeyAttributeMap := Context.PartitionsMap ++ [(Key, Context.Partitions.length)] },
            Context.Partitions.length, some Context.Partitions.length) := by
      refine ⟨{ In := Io.In
                Out := { Points := []
                         Metadata :=
                           { ItemKeyOffset :=
                               Io.In.Metadata.ItemKeyOffset + Io.In.Metadata.LocalEntries
                             LocalEntries := 0
                             KeyAttribute := some [] } } }, rfl, rfl, ?_⟩
      unfold FPCGExPartitionByValuesElement.DistributePoint_Create TMapAdd
        ClearOrCreateAttribute UPCGExPointIO.NewOutput
      simp [hW, hN, hKA, hL]
    rw [hC]
    have hget : (Context.Partitions ++ [N])[Context.Partitions.length]? = some N := by simp
    have hset : (Context.Partitions ++ [N]).set Context.Partitions.length
        (AppendedPartition N Point Key)
        = Context.Partitions ++ [AppendedPartition N Point Key] := by simp
    rw [DistributePoint_Append_own _ Context.Partitions.length Point Key N hget]
    refine ⟨?_, hW, hN, rfl, ?_, rfl⟩
    · congr 1
      · show _ = Context.PartitionsMap ++ [(Key, (TaggedView Context).length)]
        rw [TaggedView_length]
      · show TaggedView { Context with
            Partitions := (Context.Partitions ++ [N]).set Context.Partitions.length
              (AppendedPartition N Point Key)
            PartitionsMap := Context.PartitionsMap ++ [(Key, Context.Partitions.length)]
            KeyAttributeMap := Context.PartitionsMap ++ [(Key, Context.Partitions.length)] }
          = TaggedView Context ++ [[(Point.Body, some Key)]]
        unfold TaggedView
        rw [hset, List.map_append, List.map_cons, List.map_nil,
          AppendedPartition_tagged N Point Key hNS (by simp [hNP]), hNP]
        rfl
    · intro Q hQ
      have hQ' : Q ∈ (Context.Partitions ++ [N]).set Context.Partitions.length
          (AppendedPartition N Point Key) := hQ
      rw [hset] at hQ'
      rcases List.mem_append.mp hQ' with h | h
      · exact hS Q h
      · simp only [List.mem_singleton] at h
        subst h
        unfold AppendedPartition
        simp only
        rw [SetValue_KeyAttribute_isSome, InitializeOnSet_KeyAttribute]
        exact hNS

/-- With key writing on, a sequence of `DistributePoint` calls from an empty
context is a run of `BucketStep` on the points with their key attribute
values. -/
theorem DistributePoints_tagged (Context : FPCGExSplitByValuesContext)
    (hW : Context.bWritePartitionKey = true) (hN : IsValidName Context.PartitionKeyName = true)
    (hMap : Context.PartitionsMap = []) (hGroup : Context.Partitions = [])
    (hAttr : Context.KeyAttributeMap = [])
    (Calls : List FPCGExPartitionByValuesElement.FDistributeCall) :
    ((FPCGExPartitionByValuesElement.DistributePoints Context Calls).PartitionsMap,
      TaggedView (FPCGExPartitionByValuesElement.DistributePoints Context Calls))
      = (Calls.map (fun Call => (KeyOf Context.PartitionRule Call,
            (Call.Point.Body, some (KeyOf Context.PartitionRule Call))))).foldl
          BucketStep ([], [])
    ∧ (FPCGExPartitionByValuesElement.DistributePoints Context Calls).bWritePartitionKey = true
    ∧ IsValidName (FPCGExPartitionByValuesElement.DistributePoints Context Calls).PartitionKeyName
      = true
    ∧ (FPCGExPartitionByValuesElement.DistributePoints Context Calls).KeyAttributeMap
      = (FPCGExPartitionByValuesElement.DistributePoints Context Calls).PartitionsMap
    ∧ (∀ P ∈ (FPCGExPartitionByValuesElement.DistributePoints Context Calls).Partitions,
        P.Out.Metadata.KeyAttribute.isSome = true)
    ∧ (FPCGExPartitionByValuesElement.DistributePoints Context Calls).PartitionRule
      = Context.PartitionRule := by
  induction Calls using List.reverseRecOn with
  | nil =>
    simp [FPCGExPartitionByValuesElement.DistributePoints, TaggedView, hW, hN, hMap, hGroup, hAttr]
  | append_singleton Before Call ih =>
    obtain ⟨hRun, hW', hN', hKA', hS', hRule'⟩ := ih
    obtain ⟨hR, -, -, hB, -⟩ := BucketRun_spec
      (Before.map (fun Call => (KeyOf Context.PartitionRule Call,
            (Call.Point.Body, some (KeyOf Context.PartitionRule Call)))))
    rw [← hRun] at hR hB
    simp only [TaggedView_length] at hR hB
    have hT : ∀ k Index P,
        (FPCGExPartitionByValuesElement.DistributePoints Context Before).PartitionsMap.lookup k
          = some Index →
        (FPCGExPartitionByValuesElement.DistributePoints Context Before).Partitions[Index]? = some P →
        ∀ Q ∈ P.Out.Points, P.Out.Metadata.GetValue Q.MetadataEntry = some k := by
      intro k Index P hk hP Q hQ
      have h := hB k Index hk
      rw [TaggedView_getElem?, hP] at h
      simp only [Option.map_some', Option.some.injEq] at h
      have hmem : (Q.Body, P.Out.Metadata.GetValue Q.MetadataEntry)
          ∈ P.Out.Points.map (fun Point => (Point.Body, P.Out.Metadata.GetValue Point.MetadataEntry)) :=
        List.mem_map.mpr ⟨Q, hQ, rfl⟩
      rw [h] at hmem
      obtain ⟨Item, hItem, hEq⟩ := List.mem_map.mp hmem
      have hItem' := List.mem_filter.mp hItem
      obtain ⟨C, -, rfl⟩ := List.mem_map.mp hItem'.1
      simp only [decide_eq_true_eq] at hItem'
      have := congrArg Prod.snd hEq
      simp only at this
      rw [← this, hItem'.2]
    obtain ⟨h1, h2, h3, h4, h5, h6⟩ := DistributePoint_tagged
      (FPCGExPartitionByValuesElement.DistributePoints Context Before)
      Call.Io Call.Point Call.InValue hW' hN' hKA' hR hS' hT
    rw [DistributePoints_snoc]
    refine ⟨?_, h2, h3, h4, h5, h6.trans hRule'⟩
    rw [h1, hRun, hRule', List.map_append, List.foldl_append]
    rfl

/-! ## C5 -/

/-- C5: with key writing on (`bWritePartitionKey` true and a key attribute
name the engine accepts, so that the attribute is created on each new
partition), after any sequence of `DistributePoint` calls from an empty
context: every partition is the partition of a key `k` under which every point
stored in it has its key attribute set to `k`; and the points of the
partition of `k`, with their key attribute values, are, in order, the points
of the calls whose value `v` has `Filter v = k`, each with the value
`Filter v`. -/
theorem C5_key_attribute (Context : FPCGExSplitByValuesContext)
    (Calls : List FPCGExPartitionByValuesElement.FDistributeCall)
    (hW : Context.bWritePartitionKey = true) (hN : IsValidName Context.PartitionKeyName = true)
    (hMap : Context.PartitionsMap = []) (hGroup : Context.Partitions = [])
    (hAttr : Context.KeyAttributeMap = []) :
    (∀ Index P,
        (FPCGExPartitionByValuesElement.DistributePoints Context Calls).Partitions[Index]? = some P →
        ∃ k, TMapFind (FPCGExPartitionByValuesElement.DistributePoints Context Calls).PartitionsMap k
              = some Index
          ∧ ∀ Q ∈ P.Out.Points, P.Out.Metadata.GetValue Q.MetadataEntry = some k)
      ∧ (∀ k Index,
          TMapFind (FPCGExPartitionByValuesElement.DistributePoints Context Calls).PartitionsMap k
              = some Index →
          ((FPCGExPartitionByValuesElement.DistributePoints Context Calls).Partitions[Index]?).map
              (fun P => P.Out.Points.map
                (fun Q => (Q.Body, P.Out.Metadata.GetValue Q.MetadataEntry)))
            = some ((Calls.filter (fun Call => KeyOf Context.PartitionRule Call = k)).map
                (fun Call => (Call.Point.Body,
                  some (FPCGExPartitionByValuesElement.Filter Call.InValue Context.PartitionRule))))) := by
  obtain ⟨hRun, -, -, -, -, -⟩ := DistributePoints_tagged Context hW hN hMap hGroup hAttr Calls
  obtain ⟨hR, hNd, -, hB, -⟩ := BucketRun_spec
    (Calls.map (fun Call => (KeyOf Context.PartitionRule Call,
          (Call.Point.Body, some (KeyOf Context.PartitionRule Call)))))
  rw [← hRun] at hR hNd hB
  simp only [TaggedView_length] at hR hNd hB
  have hSecond : ∀ k Index,
      TMapFind (FPCGExPartitionByValuesElement.DistributePoints Context Calls).PartitionsMap k
          = some Index →
      ((FPCGExPartitionByValuesElement.DistributePoints Context Calls).Partitions[Index]?).map
          (fun P => P.Out.Points.map
            (fun Q => (Q.Body, P.Out.Metadata.GetValue Q.MetadataEntry)))
        = some ((Calls.filter (fun Call => KeyOf Context.PartitionRule Call = k)).map
            (fun Call => (Call.Point.Body,
              some (FPCGExPartitionByValuesElement.Filter Call.InValue Context.PartitionRule)))) := by
    intro k Index hk
    rw [← TaggedView_getElem?, hB k Index hk, List.filter_map, List.map_map]
    rfl
  refine ⟨?_, hSecond⟩
  intro Index P hP
  have hlt : Index < (FPCGExPartitionByValuesElement.DistributePoints Context Calls).Partitions.length :=
    (List.getElem?_eq_some.mp hP).1
  have hin : Index ∈ (FPCGExPartitionByValuesElement.DistributePoints Context Calls).PartitionsMap.map
      Prod.snd := by
    rw [hR]
    exact List.mem_range.mpr hlt
  obtain ⟨⟨k, i⟩, hmem, hi⟩ := List.mem_map.mp hin
  simp only at hi
  subst hi
  have hk : TMapFind (FPCGExPartitionByValuesElement.DistributePoints Context Calls).PartitionsMap k
      = some i := lookup_of_mem_nodup hNd hmem
  refine ⟨k, hk, ?_⟩
  intro Q hQ
  have h := hSecond k i hk
  rw [hP] at h
  simp only [Option.map_some', Option.some.injEq] at h
  have hmemQ : (Q.Body, P.Out.Metadata.GetValue Q.MetadataEntry)
      ∈ P.Out.Points.map (fun Q => (Q.Body, P.Out.Metadata.GetValue Q.MetadataEntry)) :=
    List.mem_map.mpr ⟨Q, hQ, rfl⟩
  rw [h] at hmemQ
  obtain ⟨C, hC, hEq⟩ := List.mem_map.mp hmemQ
  have hC' := (List.mem_filter.mp hC).2
  simp only [decide_eq_true_eq] at hC'
  have := congrArg Prod.snd hEq
  simp only at this
  rw [← this]
  exact congrArg some hC'

/-- C5, instance: the scenario of section 8, item 7, with key writing on: the
partition of key `1` holds the points of values `10` and `19`, both with key
attribute value `1`. -/
theorem C5_key_attribute_witness :
    (ScenarioContext true true).bWritePartitionKey = true
      ∧ IsValidName (ScenarioContext true true).PartitionKeyName = true
      ∧ (ScenarioContext true true).PartitionsMap = []
      ∧ (ScenarioContext true true).Partitions = []
      ∧ (ScenarioContext true true).KeyAttributeMap = []
      ∧ TMapFind (FPCGExPartitionByValuesElement.DistributePoints
          (ScenarioContext true true) ScenarioCalls).PartitionsMap 1 = some 1
      ∧ ((FPCGExPartitionByValuesElement.DistributePoints
          (ScenarioContext true true) ScenarioCalls).Partitions[1]?).map
              (fun P => P.Out.Points.map
                (fun Q => (Q.Body, P.Out.Metadata.GetValue Q.MetadataEntry)))
          = some ((ScenarioCalls.filter
              (fun Call => KeyOf (ScenarioContext true true).PartitionRule Call = 1)).map
                (fun Call => (Call.Point.Body,
                  some (FPCGExPartitionByValuesElement.Filter Call.InValue
                    (ScenarioContext true true).PartitionRule)))) :=
  ⟨rfl, rfl, rfl, rfl, rfl, by decide!,
    (C5_key_attribute (ScenarioContext true true) ScenarioCalls rfl rfl rfl rfl rfl).2 1 1
      (by decide!)⟩

/-! ## C6 -/

/-- C6 (counterexample): a PartitionByValues tick entered in `Setup` with no
input points, and a PathfindingNavmesh tick entered in `Setup` with no goals
(`Boot` returns false), both return true with the context not in the `Done`
state: it is still in `Setup`. -/
theorem C6_counterexample :
    SampleEmptyInputContext.IsCurrentOperation EOperation.Setup = true
      ∧ SampleEmptyInputContext.Points.isEmpty = true
      ∧ (FPCGExPartitionByValuesElement.ExecuteInternal SampleGetValue
          SampleEmptyInputContext).2 = true
      ∧ (FPCGExPartitionByValuesElement.ExecuteInternal SampleGetValue
          SampleEmptyInputContext).1.IsDone = false
      ∧ (SampleNavContext AsyncState.State_Setup [] false).IsSetup = true
      ∧ (FPCGExPathfindingNavmeshElement.Boot
          (SampleNavContext AsyncState.State_Setup [] false)).2 = false
      ∧ (FPCGExPathfindingNavmeshElement.ExecuteInternal SampleGoalPicker
          (SampleNavContext AsyncState.State_Setup [] false)).2 = true
      ∧ (FPCGExPathfindingNavmeshElement.ExecuteInternal SampleGoalPicker
          (SampleNavContext AsyncState.State_Setup [] false)).1.IsDone = false := by
  decide!

/-- `Boot` does not assign the state of the context. -/
theorem Boot_CurrentState (Context : FPCGExPathfindingNavmeshContext) :
    (FPCGExPathfindingNavmeshElement.Boot Context).1.CurrentState = Context.CurrentState := by
  unfold FPCGExPathfindingNavmeshElement.Boot
  cases hBase : Context.bBaseBoot
  · rfl
  · cases hGoals : Context.GoalsInputs <;>
      cases hNav : (!Context.Settings.bNavData && Context.bNavSys) <;>
      simp only [hNav, Bool.not_true, Bool.false_eq_true, if_false, if_true] <;>
      (repeat' split) <;> rfl

/-- C6 (amended): for the PartitionByValues and PathfindingNavmesh nodes,
whenever `ExecuteInternal` is entered in the `Setup` state and validation
fails (PartitionByValues: the input point group is empty, or key writing is on
with an invalid attribute name; PathfindingNavmesh: `Boot` returns false), the
tick returns true and the context is still in the `Setup` state when the tick
returns: `IsDone()` does not hold. -/
theorem C6_validation_failure (GetValue : UPCGPointData → FPCGPoint → ℚ)
    (Partition : FPCGExSplitByValuesContext)
    (GoalPicker : UPCGExGoalPicker) (Navmesh : FPCGExPathfindingNavmeshContext)
    (hSetupP : Partition.CurrentOperation = EOperation.Setup)
    (hInvalidP : Partition.Points.isEmpty = true
      ∨ (Partition.Settings.bWriteKeyToAttribute = true
          ∧ IsValidName Partition.Settings.KeyAttributeName = false))
    (hSetupN : Navmesh.CurrentState = AsyncState.State_Setup)
    (hBootN : (FPCGExPathfindingNavmeshElement.Boot Navmesh).2 = false) :
    (FPCGExPartitionByValuesElement.ExecuteInternal GetValue Partition).2 = true
      ∧ (FPCGExPartitionByValuesElement.ExecuteInternal GetValue Partition).1.CurrentOperation
          = EOperation.Setup
      ∧ (FPCGExPartitionByValuesElement.ExecuteInternal GetValue Partition).1.IsDone = false
      ∧ (FPCGExPathfindingNavmeshElement.ExecuteInternal GoalPicker Navmesh).2 = true
      ∧ (FPCGExPathfindingNavmeshElement.ExecuteInternal GoalPicker Navmesh).1.CurrentState
          = AsyncState.State_Setup
      ∧ (FPCGExPathfindingNavmeshElement.ExecuteInternal GoalPicker Navmesh).1.IsDone = false := by
  have hP : FPCGExPartitionByValuesElement.ExecuteInternal GetValue Partition
      = (Partition, true) := by
    unfold FPCGExPartitionByValuesElement.ExecuteInternal
    rcases hInvalidP with h | ⟨h1, h2⟩
    · simp [FPCGExSplitByValuesContext.IsCurrentOperation, hSetupP, h]
    · simp [FPCGExSplitByValuesContext.IsCurrentOperation, hSetupP, h1, h2]
  have hN : FPCGExPathfindingNavmeshElement.ExecuteInternal GoalPicker Navmesh
      = ((FPCGExPathfindingNavmeshElement.Boot Navmesh).1, true) := by
    unfold FPCGExPathfindingNavmeshElement.ExecuteInternal
    simp [FPCGExPathfindingNavmeshContext.IsSetup, FPCGExPathfindingNavmeshContext.IsState,
      hSetupN, hBootN]
  rw [hP, hN]
  refine ⟨rfl, hSetupP, ?_, rfl, ?_, ?_⟩
  · simp [FPCGExSplitByValuesContext.IsDone, FPCGExSplitByValuesContext.IsCurrentOperation,
      hSetupP]
  · show (FPCGExPathfindingNavmeshElement.Boot Navmesh).1.CurrentState = _
    rw [Boot_CurrentState, hSetupN]
  · show (FPCGExPathfindingNavmeshElement.Boot Navmesh).1.IsDone = false
    simp [FPCGExPathfindingNavmeshContext.IsDone, FPCGExPathfindingNavmeshContext.IsState,
      Boot_CurrentState, hSetupN]

/-- C6 (amended), instance: no input points for PartitionByValues; for
PathfindingNavmesh a goals input without points, where `Boot` assigns
`GoalsPoints` and `NavData` and then returns false. -/
theorem C6_validation_failure_witness :
    SampleEmptyInputContext.CurrentOperation = EOperation.Setup
      ∧ SampleEmptyInputContext.Points.isEmpty = true
      ∧ SampleFreshNavContext.CurrentState = AsyncState.State_Setup
      ∧ (FPCGExPathfindingNavmeshElement.Boot SampleFreshNavContext).2 = false
      ∧ (FPCGExPathfindingNavmeshElement.Boot SampleFreshNavContext).1.GoalsPoints
          = some SampleNoGoals
      ∧ (FPCGExPartitionByValuesElement.ExecuteInternal SampleGetValue
          SampleEmptyInputContext).2 = true
      ∧ (FPCGExPartitionByValuesElement.ExecuteInternal SampleGetValue
          SampleEmptyInputContext).1.IsDone = false
      ∧ (FPCGExPathfindingNavmeshElement.ExecuteInternal SampleGoalPicker
          SampleFreshNavContext).2 = true
      ∧ (FPCGExPathfindingNavmeshElement.ExecuteInternal SampleGoalPicker
          SampleFreshNavContext).1.IsDone = false :=
  ⟨rfl, rfl, rfl, by decide!, by decide!,
    (C6_validation_failure SampleGetValue SampleEmptyInputContext SampleGoalPicker
      SampleFreshNavContext rfl (Or.inl rfl) rfl (by decide!)).1,
    (C6_validation_failure SampleGetValue SampleEmptyInputContext SampleGoalPicker
      SampleFreshNavContext rfl (Or.inl rfl) rfl (by decide!)).2.2.1,
    (C6_validation_failure SampleGetValue SampleEmptyInputContext SampleGoalPicker
      SampleFreshNavContext rfl (Or.inl rfl) rfl (by decide!)).2.2.2.1,
    (C6_validation_failure SampleGetValue SampleEmptyInputContext SampleGoalPicker
      SampleFreshNavContext rfl (Or.inl rfl) rfl (by decide!)).2.2.2.2.2⟩

/-! ## C7 -/

theorem InputCalls_take_succ (GetValue : UPCGPointData → FPCGPoint → ℚ)
    (Inputs : List UPCGExPointIO) (k : ℕ) (Io : UPCGExPointIO) (h : Inputs[k]? = some Io) :
    InputCalls GetValue (Inputs.take (k + 1))
      = InputCalls GetValue (Inputs.take k)
        ++ Io.In.Points.map (fun Point => ⟨Io, Point, GetValue Io.In Point⟩) := by
  unfold InputCalls
  rw [List.take_succ, h, List.flatMap_append]
  simp

/-- Processing the first `k` inputs is a run of `BucketStep` over their
calls. -/
theorem InputsParallelProcessing_firstInputs (GetValue : UPCGPointData → FPCGPoint → ℚ)
    (Inputs : List UPCGExPointIO) (Context : FPCGExSplitByValuesContext) (k : ℕ)
    (hk : k ≤ Inputs.length) :
    (((List.range k).foldl
        (fun C Index =>
          match Inputs[Index]? with
          | none => C
          | some Io =>
            Io.In.Points.foldl
              (fun C1 Point => FPCGExPartitionByValuesElement.ProcessPoint GetValue C1 Point Io)
              ( FPCGExPartitionByValuesElement.InitializeForIO C Index))
        Context).PartitionsMap,
      PointsView ((List.range k).foldl
        (fun C Index =>
          match Inputs[Index]? with
          | none => C
          | some Io =>
            Io.In.Points.foldl
              (fun C1 Point => FPCGExPartitionByValuesElement.ProcessPoint GetValue C1 Point Io)
              ( FPCGExPartitionByValuesElement.InitializeForIO C Index))
        Context))
      = ((InputCalls GetValue (Inputs.take k)).map
          (fun Call => (KeyOf Context.PartitionRule Call, Call.Point.Body))).foldl
          BucketStep (Context.PartitionsMap, PointsView Context)
    ∧ ((List.range k).foldl
        (fun C Index =>
          match Inputs[Index]? with
          | none => C
          | some Io =>
            Io.In.Points.foldl
              (fun C1 Point => FPCGExPartitionByValuesElement.ProcessPoint GetValue C1 Point Io)
              ( FPCGExPartitionByValuesElement.InitializeForIO C Index))
        Context).PartitionRule = Context.PartitionRule := by
  induction k with
  | zero => simp [InputCalls]
  | succ k ih =>
    obtain ⟨h1, h2⟩ := ih (by omega)
    rw [List.range_succ, List.foldl_append, List.foldl_cons, List.foldl_nil]
    generalize (List.range k).foldl
        (fun C Index =>
          match Inputs[Index]? with
          | none => C
          | some Io =>
            Io.In.Points.foldl
              (fun C1 Point => FPCGExPartitionByValuesElement.ProcessPoint GetValue C1 Point Io)
              ( FPCGExPartitionByValuesElement.InitializeForIO C Index))
        Context = S at h1 h2
    have hkl : k < Inputs.length := by omega
    have hget : Inputs[k]? = some Inputs[k] := List.getElem?_eq_getElem hkl
    simp only [hget]
    have hFold : Inputs[k].In.Points.foldl
          (fun C1 Point => FPCGExPartitionByValuesElement.ProcessPoint GetValue C1 Point Inputs[k])
          ( FPCGExPartitionByValuesElement.InitializeForIO S k)
        = FPCGExPartitionByValuesElement.DistributePoints
            ( FPCGExPartitionByValuesElement.InitializeForIO S k)
            (Inputs[k].In.Points.map
              (fun Point => ⟨Inputs[k], Point, GetValue Inputs[k].In Point⟩)) := by
      unfold FPCGExPartitionByValuesElement.DistributePoints
      rw [List.foldl_map]
      rfl
    obtain ⟨h3, h4⟩ := DistributePoints_view
      (Inputs[k].In.Points.map (fun Point => ⟨Inputs[k], Point, GetValue Inputs[k].In Point⟩))
      ( FPCGExPartitionByValuesElement.InitializeForIO S k)
    have hI1 : ( FPCGExPartitionByValuesElement.InitializeForIO S k).PartitionsMap
        = S.PartitionsMap := rfl
    have hI2 : PointsView ( FPCGExPartitionByValuesElement.InitializeForIO S k)
        = PointsView S := rfl
    have hI3 : ( FPCGExPartitionByValuesElement.InitializeForIO S k).PartitionRule
        = S.PartitionRule := rfl
    rw [hFold, h3, h4, hI1, hI2, hI3, h1, h2, InputCalls_take_succ GetValue Inputs k _ hget,
      List.map_append, List.foldl_append]
    exact ⟨rfl, rfl⟩

/-- Processing all inputs is a run of `BucketStep` over all their calls. -/
theorem InputsParallelProcessing_view (GetValue : UPCGPointData → FPCGPoint → ℚ)
    (Context : FPCGExSplitByValuesContext) :
    ((FPCGExPartitionByValuesElement.InputsParallelProcessing GetValue Context).1.PartitionsMap,
      PointsView (FPCGExPartitionByValuesElement.InputsParallelProcessing GetValue Context).1)
      = ((InputCalls GetValue Context.Points).map
          (fun Call => (KeyOf Context.PartitionRule Call, Call.Point.Body))).foldl
          BucketStep (Context.PartitionsMap, PointsView Context)
    ∧ (FPCGExPartitionByValuesElement.InputsParallelProcessing GetValue Context).2 = true := by
  have h := (InputsParallelProcessing_firstInputs GetValue Context.Points Context
    Context.Points.length (le_refl _)).1
  rw [List.take_length] at h
  exact ⟨h, rfl⟩

/-- C7 (counterexample): with the bucket width `FilterSize = -10`, a tick
entered in `Setup` with six input points does not stop in `Setup`: it ends in
`Done` after every point went through `DistributePoint`, `Filter` having been
evaluated with the negative width (keys `0`, `-1` and `-2`). -/
theorem C7_counterexample :
    SampleNegativeWidthContext.PartitionRule.FilterSize ≤ 0
      ∧ SampleNegativeWidthContext.CurrentOperation = EOperation.Setup
      ∧ (FPCGExPartitionByValuesElement.ExecuteInternal SampleGetValue
          SampleNegativeWidthContext).2 = true
      ∧ (FPCGExPartitionByValuesElement.ExecuteInternal SampleGetValue
          SampleNegativeWidthContext).1.CurrentOperation = EOperation.Done
      ∧ (FPCGExPartitionByValuesElement.ExecuteInternal SampleGetValue
          SampleNegativeWidthContext).1.PartitionsMap = [(0, 0), (-1, 1), (-2, 2)]
      ∧ (FPCGExPartitionByValuesElement.ExecuteInternal SampleGetValue
          SampleNegativeWidthContext).1.Partitions.map (fun P => P.Out.Points.length)
          = [3, 2, 1]
      ∧ FPCGExPartitionByValuesElement.Filter 20 SampleNegativeWidthContext.PartitionRule
          = -2 := by
  decide!

/-- C7 (amended): the `Setup` phase of `ExecuteInternal` does not look at
`FilterSize`. For every PartitionByValues context entered in `Setup` whose
rule has `FilterSize <= 0`, with input points and without an invalid key
attribute name, the tick goes on as a tick entered in `ReadyForNextPoints`:
with in-order processing it returns true in the `Done` state after every
input point was passed to `DistributePoint`, `Filter` being evaluated with
that `FilterSize`: the partition sizes sum to the number of input points and
the partition of key `k` holds the points whose value has `Filter` key `k`. -/
theorem C7_Setup_ignores_FilterSize (GetValue : UPCGPointData → FPCGPoint → ℚ)
    (Context : FPCGExSplitByValuesContext)
    (hWidth : Context.PartitionRule.FilterSize ≤ 0)
    (hSetup : Context.CurrentOperation = EOperation.Setup)
    (hPoints : Context.Points.isEmpty = false)
    (hName : (Context.Settings.bWriteKeyToAttribute
      && !IsValidName Context.Settings.KeyAttributeName) = false)
    (hMap : Context.PartitionsMap = []) (hGroup : Context.Partitions = []) :
    FPCGExPartitionByValuesElement.ExecuteInternal GetValue Context
        = FPCGExPartitionByValuesElement.ExecuteInternal GetValue
            (Context.SetOperation EOperation.ReadyForNextPoints)
      ∧ (FPCGExPartitionByValuesElement.ExecuteInternal GetValue Context).2 = true
      ∧ (FPCGExPartitionByValuesElement.ExecuteInternal GetValue Context).1.CurrentOperation
          = EOperation.Done
      ∧ ((FPCGExPartitionByValuesElement.ExecuteInternal GetValue Context).1.Partitions.map
          (fun P => P.Out.Points.length)).sum = (InputCalls GetValue Context.Points).length
      ∧ (∀ k Index,
          TMapFind (FPCGExPartitionByValuesElement.ExecuteInternal GetValue Context).1.PartitionsMap
              k = some Index →
          ((FPCGExPartitionByValuesElement.ExecuteInternal GetValue Context).1.Partitions[Index]?).map
              (fun P => P.Out.Points.map FPCGPoint.Body)
            = some (((InputCalls GetValue Context.Points).filter
                (fun Call => FPCGExPartitionByValuesElement.Filter Call.InValue
                  Context.PartitionRule = k)).map (fun Call => Call.Point.Body))) := by
  have hExec : FPCGExPartitionByValuesElement.ExecuteInternal GetValue Context
      = (FPCGExPartitionByValuesElement.OutputPartitions
          ((FPCGExPartitionByValuesElement.InputsParallelProcessing GetValue
            (Context.SetOperation EOperation.ReadyForNextPoints)).1.SetOperation
              EOperation.Done), true) := by
    unfold FPCGExPartitionByValuesElement.ExecuteInternal
    simp [FPCGExSplitByValuesContext.IsCurrentOperation, FPCGExSplitByValuesContext.IsDone,
      FPCGExSplitByValuesContext.SetOperation, hSetup, hPoints, hName,
      FPCGExPartitionByValuesElement.InputsParallelProcessing]
  have hExec' : FPCGExPartitionByValuesElement.ExecuteInternal GetValue
        (Context.SetOperation EOperation.ReadyForNextPoints)
      = (FPCGExPartitionByValuesElement.OutputPartitions
          ((FPCGExPartitionByValuesElement.InputsParallelProcessing GetValue
            (Context.SetOperation EOperation.ReadyForNextPoints)).1.SetOperation
              EOperation.Done), true) := by
    unfold FPCGExPartitionByValuesElement.ExecuteInternal
    simp [FPCGExSplitByValuesContext.IsCurrentOperation, FPCGExSplitByValuesContext.IsDone,
      FPCGExSplitByValuesContext.SetOperation,
      FPCGExPartitionByValuesElement.InputsParallelProcessing]
  obtain ⟨hView, -⟩ := InputsParallelProcessing_view GetValue
    (Context.SetOperation EOperation.ReadyForNextPoints)
  have hView0 : PointsView (Context.SetOperation EOperation.ReadyForNextPoints) = [] := by
    simp [PointsView, FPCGExSplitByValuesContext.SetOperation, hGroup]
  have hMap0 : (Context.SetOperation EOperation.ReadyForNextPoints).PartitionsMap = [] := hMap
  have hRule0 : (Context.SetOperation EOperation.ReadyForNextPoints).PartitionRule
      = Context.PartitionRule := rfl
  have hPts0 : (Context.SetOperation EOperation.ReadyForNextPoints).Points = Context.Points := rfl
  rw [hView0, hMap0, hRule0, hPts0] at hView
  obtain ⟨-, -, -, hB, hT⟩ := BucketRun_spec
    ((InputCalls GetValue Context.Points).map
      (fun Call => (KeyOf Context.PartitionRule Call, Call.Point.Body)))
  rw [← hView] at hB hT
  refine ⟨hExec.trans hExec'.symm, by rw [hExec], by rw [hExec]; rfl, ?_, ?_⟩
  · rw [hExec]
    simp only [PointsView_sizes, List.length_map] at hT
    exact hT
  · intro k Index hk
    rw [hExec] at hk ⊢
    have := hB k Index hk
    rw [PointsView_getElem?] at this
    rw [List.filter_map, List.map_map] at this
    exact this

/-- C7 (amended), instance: the context with `FilterSize = -10` over the six
scenario points. -/
theorem C7_Setup_ignores_FilterSize_witness :
    SampleNegativeWidthContext.PartitionRule.FilterSize ≤ 0
      ∧ SampleNegativeWidthContext.CurrentOperation = EOperation.Setup
      ∧ SampleNegativeWidthContext.Points.isEmpty = false
      ∧ (FPCGExPartitionByValuesElement.ExecuteInternal SampleGetValue
          SampleNegativeWidthContext).1.CurrentOperation = EOperation.Done
      ∧ ((FPCGExPartitionByValuesElement.ExecuteInternal SampleGetValue
          SampleNegativeWidthContext).1.Partitions.map
          (fun P => P.Out.Points.length)).sum
          = (InputCalls SampleGetValue SampleNegativeWidthContext.Points).length :=
  ⟨by decide!, rfl, rfl,
    (C7_Setup_ignores_FilterSize SampleGetValue SampleNegativeWidthContext (by decide!) rfl rfl
      rfl rfl rfl).2.2.1,
    (C7_Setup_ignores_FilterSize SampleGetValue SampleNegativeWidthContext (by decide!) rfl rfl
      rfl rfl rfl).2.2.2.1⟩

/-! ## C8 -/

/-- C8: in the PathfindingNavmesh node, a tick entered in `State_Pathfinding`
while `IsAsyncWorkComplete()` is false leaves the context as it is (state
unchanged, `OutputPaths` not flushed) and returns false; the flush and the
transition to `Done` happen exactly in a tick in which `IsAsyncWorkComplete()`
is true, which returns true. -/
theorem C8_async_gating (GoalPicker : UPCGExGoalPicker)
    (Context : FPCGExPathfindingNavmeshContext)
    (hState : Context.CurrentState = AsyncState.State_Pathfinding) :
    FPCGExPathfindingNavmeshElement.ExecuteInternal GoalPicker Context
      = if Context.IsAsyncWorkComplete = true then
          (({ Context with
              OutputData := Context.OutputData
                ++ Context.OutputPaths.map (fun (P : UPCGExPointIO) => P.Out) }).Done, true)
        else (Context, false) := by
  unfold FPCGExPathfindingNavmeshElement.ExecuteInternal
  by_cases h : Context.IsAsyncWorkComplete = true
  · simp [FPCGExPathfindingNavmeshContext.IsSetup, FPCGExPathfindingNavmeshContext.IsState,
      FPCGExPathfindingNavmeshContext.IsDone, FPCGExPathfindingNavmeshContext.Done,
      FPCGExPathfindingNavmeshContext.SetState, hState, h]
  · simp [FPCGExPathfindingNavmeshContext.IsSetup, FPCGExPathfindingNavmeshContext.IsState,
      FPCGExPathfindingNavmeshContext.IsDone, hState, h]

/-- C8, instance: a context waiting in `State_Pathfinding` with work
outstanding stays as it is and the tick returns false. -/
theorem C8_async_gating_witness :
    (SampleNavContext AsyncState.State_Pathfinding [SampleGoals] false).CurrentState
        = AsyncState.State_Pathfinding
      ∧ (SampleNavContext AsyncState.State_Pathfinding [SampleGoals] false).IsAsyncWorkComplete
        = false
      ∧ FPCGExPathfindingNavmeshElement.ExecuteInternal SampleGoalPicker
          (SampleNavContext AsyncState.State_Pathfinding [SampleGoals] false)
        = (SampleNavContext AsyncState.State_Pathfinding [SampleGoals] false, false) :=
  ⟨rfl, rfl,
    (C8_async_gating SampleGoalPicker
      (SampleNavContext AsyncState.State_Pathfinding [SampleGoals] false) rfl).trans
      (if_neg (by decide))⟩

/-! ## C10 -/

theorem ProcessSubPoint_locations {σ : Type} (Copy : FPCGPoint → FPCGPoint → FPCGPoint)
    (SetCopy : ℤ → ℤ → σ → σ × ℤ) (Source : FPCGPoint) (State : List FPCGPoint × σ) (i : ℕ) :
    (ProcessSubPoint Copy SetCopy Source State i).1.map FPCGPoint.Location
      = State.1.map FPCGPoint.Location := by
  unfold ProcessSubPoint
  split
  · rfl
  · next Point hPoint =>
    exact map_set_eq_self _ _ _ _ _ hPoint (by simp [FPCGPoint.SetLocation])

theorem ProcessSubPoints_locations {σ : Type} (Copy : FPCGPoint → FPCGPoint → FPCGPoint)
    (SetCopy : ℤ → ℤ → σ → σ × ℤ) (Source : FPCGPoint) (Indices : List ℕ)
    (State : List FPCGPoint × σ) :
    (Indices.foldl (ProcessSubPoint Copy SetCopy Source) State).1.map FPCGPoint.Location
      = State.1.map FPCGPoint.Location := by
  induction Indices generalizing State with
  | nil => rfl
  | cons i Indices ih =>
    rw [List.foldl_cons, ih, ProcessSubPoint_locations]

/-- C10: for every start point, end point and view of sub-points, whatever
`PCGExMath::Copy` copies from the end (respectively start) point and whatever
`SetCopy` does to the attributes, after
`UPCGExSubPointsDataBlendInheritEnd::ProcessSubPoints` and after
`UPCGExSubPointsDataBlendInheritStart::ProcessSubPoints` the number of
sub-points is unchanged and the locations of the sub-points, index by index,
are the locations before the call. -/
theorem C10_ProcessSubPoints_keeps_locations {σ : Type}
    (Copy : FPCGPoint → FPCGPoint → FPCGPoint) (SetCopy : ℤ → ℤ → σ → σ × ℤ) (AttributeMap : σ)
    (StartPoint EndPoint : FPCGPoint) (SubPoints : List FPCGPoint) (PathLength : ℚ) :
    (UPCGExSubPointsDataBlendInheritEnd.ProcessSubPoints Copy SetCopy AttributeMap
        StartPoint EndPoint SubPoints PathLength).1.length = SubPoints.length
      ∧ (UPCGExSubPointsDataBlendInheritEnd.ProcessSubPoints Copy SetCopy AttributeMap
        StartPoint EndPoint SubPoints PathLength).1.map FPCGPoint.Location
          = SubPoints.map FPCGPoint.Location
      ∧ (UPCGExSubPointsDataBlendInheritStart.ProcessSubPoints Copy SetCopy AttributeMap
        StartPoint EndPoint SubPoints PathLength).1.length = SubPoints.length
      ∧ (UPCGExSubPointsDataBlendInheritStart.ProcessSubPoints Copy SetCopy AttributeMap
        StartPoint EndPoint SubPoints PathLength).1.map FPCGPoint.Location
          = SubPoints.map FPCGPoint.Location := by
  have hEnd := ProcessSubPoints_locations Copy SetCopy EndPoint (List.range SubPoints.length)
    (SubPoints, AttributeMap)
  have hStart := ProcessSubPoints_locations Copy SetCopy StartPoint (List.range SubPoints.length)
    (SubPoints, AttributeMap)
  refine ⟨?_, hEnd, ?_, hStart⟩
  · have := congrArg List.length hEnd
    simpa using this
  · have := congrArg List.length hStart
    simpa using this

/-! ## The navmesh path task -/

/-- The fuse loop ends within `PathLocations.length - i` evaluations of its
test that succeed. -/
theorem FuseLoop_isSome (FuseDistance : ℚ) (FuseCountReduce : ℤ) (Fuel : ℕ) :
    ∀ (i : ℕ) (PathLocations : List FVector) (PathHelper : FPathMetrics),
      PathLocations.length - i ≤ Fuel →
      (FNavmeshPathTask.FuseLoop FuseDistance FuseCountReduce Fuel i PathLocations
        PathHelper).isSome = true := by
  induction Fuel with
  | zero =>
    intro i PathLocations PathHelper h
    unfold FNavmeshPathTask.FuseLoop
    have : ¬ i < PathLocations.length := by omega
    simp [this]
  | succ Fuel ih =>
    intro i PathLocations PathHelper h
    unfold FNavmeshPathTask.FuseLoop
    split
    · rfl
    · next CurrentLocation hCur =>
      have hlt : i < PathLocations.length := (List.getElem?_eq_some.mp hCur).1
      split
      · apply ih
        rw [List.length_eraseIdx]
        simp only [hlt, if_true]
        omega
      · apply ih
        omega

theorem WritePosition_length (PathLocations : List FVector) (Point : FPCGPoint)
    (State : List FPCGPoint × FPathMetrics) (i : ℕ) :
    (FNavmeshPathTask.WritePosition PathLocations Point State i).1.length = State.1.length := by
  unfold FNavmeshPathTask.WritePosition
  split <;> simp

/-- The loop of lines 271-276 over the first `k` positions: these output points
are at the first `k` path locations, which have been added to the metrics. -/
theorem WritePositions_spec (PathLocations : List FVector) (Seed : FPCGPoint)
    (State : List FPCGPoint × FPathMetrics) (k : ℕ) (hk : k ≤ PathLocations.length)
    (hLen : State.1.length = PathLocations.length) :
    ((List.range k).foldl (FNavmeshPathTask.WritePosition PathLocations Seed) State).1.length
        = PathLocations.length
      ∧ (∀ j, j < k →
          (((List.range k).foldl (FNavmeshPathTask.WritePosition PathLocations Seed)
            State).1[j]?).map FPCGPoint.Location = PathLocations[j]?)
      ∧ ((List.range k).foldl (FNavmeshPathTask.WritePosition PathLocations Seed)
          State).2.Locations = State.2.Locations ++ PathLocations.take k := by
  induction k with
  | zero => simp [hLen]
  | succ k ih =>
    obtain ⟨h1, h2, h3⟩ := ih (by omega)
    rw [List.range_succ, List.foldl_append, List.foldl_cons, List.foldl_nil]
    generalize (List.range k).foldl (FNavmeshPathTask.WritePosition PathLocations Seed) State
      = S at h1 h2 h3
    have hkl : k < PathLocations.length := by omega
    have hget : PathLocations[k]? = some PathLocations[k] := List.getElem?_eq_getElem hkl
    unfold FNavmeshPathTask.WritePosition
    simp only [hget]
    refine ⟨by simp [h1], ?_, ?_⟩
    · intro j hj
      rw [List.getElem?_set]
      by_cases hjk : k = j
      · subst hjk
        simp [h1, hkl, hget, FPCGPoint.SetLocation]
      · simp only [hjk, if_false]
        exact h2 j (by omega)
    · simp only [FPathMetrics.Add, h3, List.take_succ, hget, List.append_assoc]
      rfl

/-- Lines 263-280: after `SetNum` and the two writes, the output points are
at the path locations, in order, and these were added to the metrics. -/
theorem Written_spec (PathLocations : List FVector) (Seed Goal : FPCGPoint)
    (Points : List FPCGPoint) (Metrics : FPathMetrics) (hPos : 0 < PathLocations.length) :
    (FNavmeshPathTask.WritePosition PathLocations Goal
        ((List.range (PathLocations.length - 1)).foldl
          (FNavmeshPathTask.WritePosition PathLocations Seed)
          (SetNum Points PathLocations.length, Metrics))
        (PathLocations.length - 1)).1.map FPCGPoint.Location = PathLocations
      ∧ (FNavmeshPathTask.WritePosition PathLocations Goal
        ((List.range (PathLocations.length - 1)).foldl
          (FNavmeshPathTask.WritePosition PathLocations Seed)
          (SetNum Points PathLocations.length, Metrics))
        (PathLocations.length - 1)).2.Locations = Metrics.Locations ++ PathLocations := by
  have hSet : (SetNum Points PathLocations.length).length = PathLocations.length := by
    unfold SetNum
    simp only [List.length_append, List.length_take, List.length_replicate]
    omega
  obtain ⟨h1, h2, h3⟩ := WritePositions_spec PathLocations Seed
    (SetNum Points PathLocations.length, Metrics) (PathLocations.length - 1) (by omega) hSet
  generalize (List.range (PathLocations.length - 1)).foldl
    (FNavmeshPathTask.WritePosition PathLocations Seed)
    (SetNum Points PathLocations.length, Metrics) = S at h1 h2 h3
  have hkl : PathLocations.length - 1 < PathLocations.length := by omega
  have hget : PathLocations[PathLocations.length - 1]?
      = some PathLocations[PathLocations.length - 1] := List.getElem?_eq_getElem hkl
  unfold FNavmeshPathTask.WritePosition
  simp only [hget]
  constructor
  · apply List.ext_getElem?
    intro j
    rw [List.getElem?_map, List.getElem?_set]
    by_cases hj : PathLocations.length - 1 = j
    · subst hj
      simp [h1, hkl, hget, FPCGPoint.SetLocation]
    · simp only [hj, if_false]
      rcases Nat.lt_or_ge j (PathLocations.length - 1) with hlt | hge
      · exact h2 j hlt
      · rw [List.getElem?_eq_none (by omega), List.getElem?_eq_none (by omega)]
        rfl
  · simp only [FPathMetrics.Add, h3]
    rw [List.append_assoc]
    congr 1
    have := List.take_succ (l := PathLocations) (n := PathLocations.length - 1)
    rw [hget] at this
    simp only [Option.toList] at this
    rw [← this, List.take_of_length_le (by omega)]

/-- A false return of `FinishTask` either leaves the path and its output as
they were or happens at the fifth checkpoint, after the points were written. -/
theorem FinishTask_false (Env : FNavmeshPathTask.FTaskEnvironment)
    (Context : FPCGExPathfindingNavmeshContext) (Path : FPath) (OutData : UPCGPointData)
    (Seed Goal : FPCGPoint) (PathLocations : List FVector) (Path' : FPath)
    (OutData' : UPCGPointData)
    (h : FNavmeshPathTask.FinishTask Env Context Path OutData Seed Goal PathLocations
      = (false, Path', OutData')) :
    (Path' = Path ∧ OutData' = OutData)
      ∨ (Env.Cancelled 4 = false ∧ Env.Cancelled 5 = true
          ∧ 2 < OutData'.Points.length
          ∧ Path'.Metrics.Locations
              = Path.Metrics.Locations ++ OutData'.Points.map FPCGPoint.Location) := by
  unfold FNavmeshPathTask.FinishTask at h
  by_cases hLen : PathLocations.length ≤ 2
  · simp only [hLen, if_true, Prod.mk.injEq, true_and] at h
    exact Or.inl ⟨h.1.symm, h.2.symm⟩
  by_cases h4 : Env.Cancelled 4 = true
  · simp only [hLen, h4, if_true, if_false, Prod.mk.injEq, true_and] at h
    exact Or.inl ⟨h.1.symm, h.2.symm⟩
  by_cases h5 : Env.Cancelled 5 = true
  · simp only [hLen, h4, h5, if_true, if_false, Prod.mk.injEq, true_and] at h
    obtain ⟨hP, hO⟩ := h
    obtain ⟨hLoc, hMet⟩ := Written_spec PathLocations Seed Goal OutData.Points Path.Metrics
      (by omega)
    right
    refine ⟨by simpa using h4, h5, ?_, ?_⟩
    · show 2 < (FNavmeshPathTask.WritePosition PathLocations Goal _ _).1.length
      have := congrArg List.length hLoc
      rw [List.length_map] at this
      rw [this]
      omega
    · show (FNavmeshPathTask.WritePosition PathLocations Goal _ _).2.Locations = _
      rw [hMet]
      exact congrArg _ hLoc.symm
  · simp [hLen, h4, h5] at h

theorem FinishTask_early (Env : FNavmeshPathTask.FTaskEnvironment)
    (Context : FPCGExPathfindingNavmeshContext) (Path : FPath) (OutData : UPCGPointData)
    (Seed Goal : FPCGPoint) (PathLocations : List FVector)
    (h : PathLocations.length ≤ 2 ∨ Env.Cancelled 4 = true) :
    FNavmeshPathTask.FinishTask Env Context Path OutData Seed Goal PathLocations
      = (false, Path, OutData) := by
  unfold FNavmeshPathTask.FinishTask
  by_cases hLen : PathLocations.length ≤ 2
  · simp [hLen]
  · rcases h with h | h
    · exact absurd h hLen
    · simp [hLen, h]

/-- The exits of lines 222-261 that leave the path and its output as they
were. -/
theorem FindAndFuse_early (Env : FNavmeshPathTask.FTaskEnvironment)
    (Context : FPCGExPathfindingNavmeshContext) (Path : FPath) (OutData : UPCGPointData)
    (Seed Goal : FPCGPoint)
    (h : Env.Cancelled 2 = true ∨ Env.Cancelled 3 = true ∨ Env.Cancelled 4 = true
      ∨ Env.FindPathSync Seed.Location Goal.Location = none
      ∨ ∃ Points Fused,
          Env.FindPathSync Seed.Location Goal.Location = some Points
          ∧ FNavmeshPathTask.FuseLoop Context.FuseDistance
              (if Context.bAddGoalToPath then 2 else 1)
              ([Seed.Location] ++ Points ++ [Goal.Location]).length
              (if Context.bAddSeedToPath then 1 else 0)
              ([Seed.Location] ++ Points ++ [Goal.Location])
              ((⟨[]⟩ : FPathMetrics).Add Seed.Location) = some Fused
          ∧ Fused.1.length ≤ 2) :
    FNavmeshPathTask.FindAndFuse Env Context Path OutData Seed Goal
      = some (false, Path, OutData) := by
  unfold FNavmeshPathTask.FindAndFuse
  simp only
  by_cases h2 : Env.Cancelled 2 = true
  · simp [h2]
  by_cases h3 : Env.Cancelled 3 = true
  · simp [h2, h3]
  simp only [h2, h3, if_false, Bool.false_eq_true]
  cases hResult : Env.FindPathSync Seed.Location Goal.Location with
  | none => rfl
  | some Points =>
    simp only
    have hSome := FuseLoop_isSome Context.FuseDistance (if Context.bAddGoalToPath then 2 else 1)
      ([Seed.Location] ++ Points ++ [Goal.Location]).length
      (if Context.bAddSeedToPath then 1 else 0) ([Seed.Location] ++ Points ++ [Goal.Location])
      ((⟨[]⟩ : FPathMetrics).Add Seed.Location) (Nat.sub_le _ _)
    obtain ⟨Fused, hFused⟩ := Option.isSome_iff_exists.mp hSome
    rw [hFused]
    simp only [Option.some.injEq]
    rcases h with h | h | h | h | ⟨Points', Fused', hQ, hF, hLen⟩
    · exact absurd h h2
    · exact absurd h h3
    · exact FinishTask_early Env Context Path OutData Seed Goal Fused.1 (Or.inr h)
    · rw [hResult] at h
      cases h
    · rw [hResult] at hQ
      cases hQ
      rw [hFused] at hF
      cases hF
      exact FinishTask_early Env Context Path OutData Seed Goal Fused.1 (Or.inl hLen)

/-- `FindAndFuse` returns, and a false return of it either leaves the path and
its output as they were or happens at the fifth checkpoint. -/
theorem FindAndFuse_false (Env : FNavmeshPathTask.FTaskEnvironment)
    (Context : FPCGExPathfindingNavmeshContext) (Path : FPath) (OutData : UPCGPointData)
    (Seed Goal : FPCGPoint) :
    (FNavmeshPathTask.FindAndFuse Env Context Path OutData Seed Goal).isSome = true
      ∧ ∀ Path' OutData',
          FNavmeshPathTask.FindAndFuse Env Context Path OutData Seed Goal
            = some (false, Path', OutData') →
          (Path' = Path ∧ OutData' = OutData)
            ∨ (Env.Cancelled 2 = false ∧ Env.Cancelled 3 = false
                ∧ Env.Cancelled 4 = false ∧ Env.Cancelled 5 = true
                ∧ 2 < OutData'.Points.length
                ∧ Path'.Metrics.Locations
                    = Path.Metrics.Locations ++ OutData'.Points.map FPCGPoint.Location) := by
  unfold FNavmeshPathTask.FindAndFuse
  simp only
  by_cases h2 : Env.Cancelled 2 = true
  · simp [h2]
  by_cases h3 : Env.Cancelled 3 = true
  · simp [h2, h3]
  simp only [h2, h3, if_false, Bool.false_eq_true]
  cases hResult : Env.FindPathSync Seed.Location Goal.Location with
  | none => simp
  | some Points =>
    simp only
    have hSome := FuseLoop_isSome Context.FuseDistance (if Context.bAddGoalToPath then 2 else 1)
      ([Seed.Location] ++ Points ++ [Goal.Location]).length
      (if Context.bAddSeedToPath then 1 else 0) ([Seed.Location] ++ Points ++ [Goal.Location])
      ((⟨[]⟩ : FPathMetrics).Add Seed.Location) (Nat.sub_le _ _)
    obtain ⟨Fused, hFused⟩ := Option.isSome_iff_exists.mp hSome
    rw [hFused]
    refine ⟨rfl, ?_⟩
    intro Path' OutData' h
    simp only [Option.some.injEq] at h
    have hFin := FinishTask_false Env Context Path OutData Seed Goal Fused.1 Path' OutData' h
    rcases hFin with hFin | ⟨h4, h5, hlen, hmet⟩
    · exact Or.inl hFin
    · exact Or.inr ⟨by simp [h2], by simp [h3], h4, h5, hlen, hmet⟩

/-- `ExecuteTask` returns, and a false return of it either leaves the path and
its output as they were or happens at the fifth checkpoint. -/
theorem ExecuteTask_false (Env : FNavmeshPathTask.FTaskEnvironment)
    (Context : FPCGExPathfindingNavmeshContext) (Path : FPath) (OutData : UPCGPointData) :
    (FNavmeshPathTask.ExecuteTask Env Context Path OutData).isSome = true
      ∧ ∀ Path' OutData',
          FNavmeshPathTask.ExecuteTask Env Context Path OutData = some (false, Path', OutData') →
          (Path' = Path ∧ OutData' = OutData)
            ∨ (Env.Cancelled 1 = false ∧ Env.Cancelled 2 = false ∧ Env.Cancelled 3 = false
                ∧ Env.Cancelled 4 = false ∧ Env.Cancelled 5 = true
                ∧ 2 < OutData'.Points.length
                ∧ Path'.Metrics.Locations
                    = Path.Metrics.Locations ++ OutData'.Points.map FPCGPoint.Location) := by
  unfold FNavmeshPathTask.ExecuteTask
  by_cases h1 : Env.Cancelled 1 = true
  · simp [h1]
  by_cases hNav : Context.bNavSys = true
  swap
  · simp [h1, hNav]
  simp only [h1, hNav, if_false, Bool.false_eq_true, Bool.not_true]
  split
  · next Seed Goal _ _ =>
    refine ⟨(FindAndFuse_false Env Context Path OutData Seed Goal).1, ?_⟩
    intro Path' OutData' h
    rcases (FindAndFuse_false Env Context Path OutData Seed Goal).2 Path' OutData' h with
      hU | ⟨h2, h3, h4, h5, hlen, hmet⟩
    · exact Or.inl hU
    · exact Or.inr ⟨by simp [h1], h2, h3, h4, h5, hlen, hmet⟩
  · simp

/-! ## C9 -/

/-- C9 (counterexample): with the cancellation flag observed at the fifth
checkpoint only, `ExecuteTask` returns false after it has written four output
points and added their four locations to the path metrics: neither is what it
was before the call (both were empty). -/
theorem C9_counterexample :
    ∃ Path' OutData',
      FNavmeshPathTask.ExecuteTask (SampleEnvironment [5])
          (SampleNavContext AsyncState.State_Pathfinding [SampleGoals] false)
          SamplePath SampleOutData = some (false, Path', OutData')
        ∧ SampleOutData.Points = []
        ∧ SamplePath.Metrics.Locations = []
        ∧ OutData'.Points.map FPCGPoint.Location
            = [⟨0, 0, 0⟩, ⟨5, 0, 0⟩, ⟨10, 0, 0⟩, ⟨10, 0, 0⟩]
        ∧ Path'.Metrics.Locations = [⟨0, 0, 0⟩, ⟨5, 0, 0⟩, ⟨10, 0, 0⟩, ⟨10, 0, 0⟩]
        ∧ OutData' ≠ SampleOutData ∧ Path' ≠ SamplePath := by
  refine ⟨⟨0, ⟨0, 0, 0⟩, 0, ⟨10, 0, 0⟩, 0,
      ⟨[⟨0, 0, 0⟩, ⟨5, 0, 0⟩, ⟨10, 0, 0⟩, ⟨10, 0, 0⟩]⟩⟩,
    ⟨[⟨⟨0, 0, 0⟩, 7, 0⟩, ⟨⟨5, 0, 0⟩, 7, 0⟩, ⟨⟨10, 0, 0⟩, 7, 0⟩, ⟨⟨10, 0, 0⟩, 8, 0⟩],
      ⟨0, 0, none⟩⟩, ?_⟩
  decide!

/-- C9 (amended): `ExecuteTask` always returns. It returns false with the
path's output points and its path metrics exactly as they were before the
call whenever the cancellation flag is set at one of the first four
checkpoints, the navigation system, the seed or the goal is missing, the path
query does not succeed, or the fused path has 2 or fewer locations. Every
other false return is at the fifth checkpoint (the flag observed there and at
none of the first four), where the output already holds the written points,
more than 2, whose locations, in order, have been added to the path
metrics. -/
theorem C9_failed_task (Env : FNavmeshPathTask.FTaskEnvironment)
    (Context : FPCGExPathfindingNavmeshContext) (Path : FPath) (OutData : UPCGPointData) :
    (FNavmeshPathTask.ExecuteTask Env Context Path OutData).isSome = true
      ∧ ((Env.Cancelled 1 = true ∨ Env.Cancelled 2 = true ∨ Env.Cancelled 3 = true
            ∨ Env.Cancelled 4 = true ∨ Context.bNavSys = false
            ∨ TryGetInPoint Context.CurrentIO Path.SeedIndex = none
            ∨ TryGetInPoint Context.GoalsPoints Path.GoalIndex = none) →
          FNavmeshPathTask.ExecuteTask Env Context Path OutData = some (false, Path, OutData))
      ∧ (∀ Seed Goal,
          TryGetInPoint Context.CurrentIO Path.SeedIndex = some Seed →
          TryGetInPoint Context.GoalsPoints Path.GoalIndex = some Goal →
          (Env.FindPathSync Seed.Location Goal.Location = none
            ∨ ∃ Points Fused,
                Env.FindPathSync Seed.Location Goal.Location = some Points
                ∧ FNavmeshPathTask.FuseLoop Context.FuseDistance
                    (if Context.bAddGoalToPath then 2 else 1)
                    ([Seed.Location] ++ Points ++ [Goal.Location]).length
                    (if Context.bAddSeedToPath then 1 else 0)
                    ([Seed.Location] ++ Points ++ [Goal.Location])
                    ((⟨[]⟩ : FPathMetrics).Add Seed.Location) = some Fused
                ∧ Fused.1.length ≤ 2) →
          FNavmeshPathTask.ExecuteTask Env Context Path OutData = some (false, Path, OutData))
      ∧ (∀ Path' OutData',
          FNavmeshPathTask.ExecuteTask Env Context Path OutData = some (false, Path', OutData') →
          (Path' = Path ∧ OutData' = OutData)
            ∨ (Env.Cancelled 1 = false ∧ Env.Cancelled 2 = false ∧ Env.Cancelled 3 = false
                ∧ Env.Cancelled 4 = false ∧ Env.Cancelled 5 = true
                ∧ 2 < OutData'.Points.length
                ∧ Path'.Metrics.Locations
                    = Path.Metrics.Locations ++ OutData'.Points.map FPCGPoint.Location)) := by
  refine ⟨(ExecuteTask_false Env Context Path OutData).1, ?_, ?_,
    (ExecuteTask_false Env Context Path OutData).2⟩
  · intro h
    unfold FNavmeshPathTask.ExecuteTask
    by_cases h1 : Env.Cancelled 1 = true
    · simp [h1]
    by_cases hNav : Context.bNavSys = true
    swap
    · simp [h1, hNav]
    simp only [h1, hNav, if_false, Bool.false_eq_true, Bool.not_true]
    split
    · next Seed Goal hSeed hGoal =>
      rcases h with h | h | h | h | h | h | h
      · exact absurd h h1
      · exact FindAndFuse_early Env Context Path OutData Seed Goal (Or.inl h)
      · exact FindAndFuse_early Env Context Path OutData Seed Goal (Or.inr (Or.inl h))
      · exact FindAndFuse_early Env Context Path OutData Seed Goal (Or.inr (Or.inr (Or.inl h)))
      · rw [h] at hNav
        cases hNav
      · rw [h] at hSeed
        cases hSeed
      · rw [h] at hGoal
        cases hGoal
    · rfl
  · intro Seed Goal hSeed hGoal h
    unfold FNavmeshPathTask.ExecuteTask
    by_cases h1 : Env.Cancelled 1 = true
    · simp [h1]
    by_cases hNav : Context.bNavSys = true
    swap
    · simp [h1, hNav]
    simp only [h1, hNav, if_false, Bool.false_eq_true, Bool.not_true, hSeed, hGoal]
    exact FindAndFuse_early Env Context Path OutData Seed Goal (Or.inr (Or.inr (Or.inr h)))

/-- C9 (amended), instance: with the flag set at the fourth checkpoint the
task returns false and leaves the sample path and its output as they
were. -/
theorem C9_failed_task_witness :
    (SampleEnvironment [4]).Cancelled 4 = true
      ∧ FNavmeshPathTask.ExecuteTask (SampleEnvironment [4])
          (SampleNavContext AsyncState.State_Pathfinding [SampleGoals] false)
          SamplePath SampleOutData = some (false, SamplePath, SampleOutData) :=
  ⟨by decide,
    (C9_failed_task (SampleEnvironment [4])
      (SampleNavContext AsyncState.State_Pathfinding [SampleGoals] false)
      SamplePath SampleOutData).2.1 (Or.inr (Or.inr (Or.inr (Or.inl (by decide)))))⟩

/-! ## C11 -/

/-- Repeated `Advance` on a loop with `ChunkSize ≥ 1` and cursor inside
`[0, NumIterations]`: within `NumIterations - CurrentIndex + 1` calls it
returns false, having run the body on the indices from the cursor up to
`NumIterations`, in order. -/
theorem AdvanceUntilExhausted_spec (Calls : ℕ) :
    ∀ (Loop : FAPointLoop) (Visited : List ℤ),
      1 ≤ Loop.ChunkSize → 0 ≤ Loop.CurrentIndex → Loop.CurrentIndex ≤ Loop.NumIterations →
      (Loop.NumIterations - Loop.CurrentIndex).toNat + 1 ≤ Calls →
      ∃ Final : FAPointLoop,
        FPointLoop.AdvanceUntilExhausted Calls Loop Visited
          = some (Final,
              Visited ++ (List.range (Loop.NumIterations - Loop.CurrentIndex).toNat).map
                (fun (i : ℕ) => Loop.CurrentIndex + (i : ℤ)))
        ∧ Final.CurrentIndex = Loop.NumIterations := by
  induction Calls with
  | zero =>
    intro Loop Visited _ _ _ h
    omega
  | succ Calls ih =>
    intro Loop Visited hC h0 hN hCalls
    unfold FPointLoop.AdvanceUntilExhausted
    obtain ⟨k, hk⟩ : ∃ k : ℕ, Loop.GetCurrentChunkSize.toNat = k := ⟨_, rfl⟩
    have hkdef : (k : ℤ) = min Loop.ChunkSize (Loop.NumIterations - Loop.CurrentIndex) := by
      unfold FAPointLoop.GetCurrentChunkSize at hk
      omega
    have hAdv : FPointLoop.Advance Loop Visited
        = ({ Loop with CurrentIndex := Loop.CurrentIndex + (k : ℤ) },
            Visited ++ (List.range k).map (fun (i : ℕ) => Loop.CurrentIndex + (i : ℤ)),
            decide (Loop.CurrentIndex + (k : ℤ) < Loop.NumIterations)) := by
      unfold FPointLoop.Advance
      simp only [hk]
    rw [hAdv]
    simp only
    by_cases hlt : Loop.CurrentIndex + (k : ℤ) < Loop.NumIterations
    · simp only [hlt, decide_True, if_true]
      obtain ⟨Final, hRun, hFinal⟩ := ih
        { Loop with CurrentIndex := Loop.CurrentIndex + (k : ℤ) }
        (Visited ++ (List.range k).map (fun (i : ℕ) => Loop.CurrentIndex + (i : ℤ)))
        hC (by show 0 ≤ Loop.CurrentIndex + (k : ℤ); omega)
        (by show Loop.CurrentIndex + (k : ℤ) ≤ Loop.NumIterations; omega)
        (by show (Loop.NumIterations - (Loop.CurrentIndex + (k : ℤ))).toNat + 1 ≤ Calls; omega)
      refine ⟨Final, ?_, hFinal⟩
      rw [hRun]
      have hsplit : (Loop.NumIterations - Loop.CurrentIndex).toNat
          = k + (Loop.NumIterations - (Loop.CurrentIndex + (k : ℤ))).toNat := by omega
      simp only [hsplit, List.range_add, List.map_append, List.map_map, List.append_assoc]
      congr 4
      apply List.map_congr_left
      intro i _
      simp only [Function.comp_apply, Nat.cast_add]
      ring
    · simp only [hlt, decide_False, if_false, Bool.false_eq_true]
      have hk' : (Loop.NumIterations - Loop.CurrentIndex).toNat = k := by omega
      refine ⟨{ Loop with CurrentIndex := Loop.CurrentIndex + (k : ℤ) }, ?_, ?_⟩
      · rw [hk']
      · show Loop.CurrentIndex + (k : ℤ) = Loop.NumIterations
        omega

/-- C11: for every `NumIterations ≥ 0` and `ChunkSize ≥ 1`, calling the plain
chunked loop's `Advance` again and again from index `0`, each call running
the body on the next `GetCurrentChunkSize()` indices and returning true while
items remain, stops (a call returns false) within `NumIterations + 1` calls,
and the loop body has then been run on `0, 1, ..., NumIterations - 1`, in this
order: on every index of `[0, NumIterations)` exactly once, increasing, with
no gaps. -/
theorem C11_chunked_loop_coverage (NumIterations ChunkSize : ℤ) (bAsyncEnabled : Bool)
    (hN : 0 ≤ NumIterations) (hC : 1 ≤ ChunkSize) :
    ∃ Final : FAPointLoop,
      FPointLoop.AdvanceUntilExhausted (NumIterations.toNat + 1)
          { NumIterations := NumIterations, ChunkSize := ChunkSize, CurrentIndex := 0,
            bAsyncEnabled := bAsyncEnabled } []
        = some (Final, (List.range NumIterations.toNat).map (fun (i : ℕ) => (i : ℤ)))
      ∧ Final.CurrentIndex = NumIterations := by
  obtain ⟨Final, hRun, hFinal⟩ := AdvanceUntilExhausted_spec (NumIterations.toNat + 1)
    { NumIterations := NumIterations, ChunkSize := ChunkSize, CurrentIndex := 0,
      bAsyncEnabled := bAsyncEnabled } [] hC (le_refl _) hN (by simp)
  refine ⟨Final, ?_, hFinal⟩
  rw [hRun]
  simp

/-- C11, instance: ten items in chunks of three. -/
theorem C11_chunked_loop_coverage_witness :
    (0 : ℤ) ≤ 10 ∧ (1 : ℤ) ≤ 3
      ∧ (FPointLoop.AdvanceUntilExhausted ((10 : ℤ).toNat + 1)
            { NumIterations := 10, ChunkSize := 3, CurrentIndex := 0, bAsyncEnabled := true }
            []).map Prod.snd
          = some ((List.range (10 : ℤ).toNat).map (fun (i : ℕ) => (i : ℤ))) :=
  ⟨by decide, by decide,
    Exists.elim (C11_chunked_loop_coverage 10 3 true (by decide) (by decide))
      (fun _ h => by rw [h.1]; rfl)⟩

/-! ## C12 -/

/-- C12 (counterexample): with the settings default `ChunkSize = -1` and ten
items remaining, `GetCurrentChunkSize()` is `-1`, and with the context default
`ChunkSize = 0` it is `0`: neither is the number of remaining items. -/
theorem C12_counterexample :
    ({ NumIterations := 10, ChunkSize := -1, CurrentIndex := 0 } : FAPointLoop).GetCurrentChunkSize
        = -1
      ∧ ({ NumIterations := 10, ChunkSize := 0, CurrentIndex := 0 } : FAPointLoop).GetCurrentChunkSize
        = 0
      ∧ ({ NumIterations := 10, ChunkSize := -1, CurrentIndex := 0 } : FAPointLoop).GetCurrentChunkSize
        ≠ ({ NumIterations := 10, ChunkSize := -1, CurrentIndex := 0 } : FAPointLoop).NumIterations
          - ({ NumIterations := 10, ChunkSize := -1, CurrentIndex := 0 } : FAPointLoop).CurrentIndex := by
  decide

/-- C12 (amended): for every point loop with `ChunkSize <= 0` and
`R = NumIterations - CurrentIndex > 0` remaining items,
`FAPointLoop::GetCurrentChunkSize()` is `min(ChunkSize, R) = ChunkSize`: it is
not positive and it is not `R`. -/
theorem C12_GetCurrentChunkSize_nonpositive (Loop : FAPointLoop)
    (hChunk : Loop.ChunkSize ≤ 0) (hR : 0 < Loop.NumIterations - Loop.CurrentIndex) :
    Loop.GetCurrentChunkSize = Loop.ChunkSize
      ∧ Loop.GetCurrentChunkSize ≤ 0
      ∧ Loop.GetCurrentChunkSize ≠ Loop.NumIterations - Loop.CurrentIndex := by
  unfold FAPointLoop.GetCurrentChunkSize
  refine ⟨?_, ?_, ?_⟩ <;> omega

/-- C12 (amended), instance: the settings default `ChunkSize = -1` with ten
items remaining. -/
theorem C12_GetCurrentChunkSize_nonpositive_witness :
    ({ NumIterations := 10, ChunkSize := -1, CurrentIndex := 0 } : FAPointLoop).ChunkSize ≤ 0
      ∧ 0 < ({ NumIterations := 10, ChunkSize := -1, CurrentIndex := 0 } : FAPointLoop).NumIterations
          - ({ NumIterations := 10, ChunkSize := -1, CurrentIndex := 0 } : FAPointLoop).CurrentIndex
      ∧ ({ NumIterations := 10, ChunkSize := -1, CurrentIndex := 0 } : FAPointLoop).GetCurrentChunkSize
          = -1 :=
  ⟨by decide, by decide,
    (C12_GetCurrentChunkSize_nonpositive
      { NumIterations := 10, ChunkSize := -1, CurrentIndex := 0 } (by decide) (by decide)).1⟩

/-! ## C14 -/

/-- Inserting an edge keeps the keys of `Edges` equal to `UniqueEdges` and
free of repetition. -/
theorem InsertEdge_keys (Context : FPCGExWriteEdgeExtrasContext) (Edge : FUnsignedEdge)
    (hKeys : Context.Edges.map FUnsignedEdge.GetUnsignedHash = Context.UniqueEdges)
    (hNodup : Context.UniqueEdges.Nodup) :
    (Context.InsertEdge Edge).Edges.map FUnsignedEdge.GetUnsignedHash
        = (Context.InsertEdge Edge).UniqueEdges
      ∧ (Context.InsertEdge Edge).UniqueEdges.Nodup
      ∧ Edge.GetUnsignedHash ∈ (Context.InsertEdge Edge).UniqueEdges
      ∧ ∀ k ∈ Context.UniqueEdges, k ∈ (Context.InsertEdge Edge).UniqueEdges := by
  unfold FPCGExWriteEdgeExtrasContext.InsertEdge
  split
  · next hIn => exact ⟨hKeys, hNodup, hIn, fun k hk => hk⟩
  · next hNot =>
    refine ⟨by simp [hKeys], ?_, by simp, fun k hk => by simp [hk]⟩
    rw [List.nodup_append]
    refine ⟨hNodup, by simp, ?_⟩
    intro a ha hb
    simp only [List.mem_singleton] at hb
    exact hNot (hb ▸ ha)

/-- Inserting edges one after another keeps the keys of `Edges` equal to
`UniqueEdges` and free of repetition, and the key of every submitted edge is
among them. -/
theorem InsertEdges_keys (Submitted : List FUnsignedEdge) :
    ∀ (Context : FPCGExWriteEdgeExtrasContext),
      Context.Edges.map FUnsignedEdge.GetUnsignedHash = Context.UniqueEdges →
      Context.UniqueEdges.Nodup →
      (Context.InsertEdges Submitted).Edges.map FUnsignedEdge.GetUnsignedHash
          = (Context.InsertEdges Submitted).UniqueEdges
        ∧ (Context.InsertEdges Submitted).UniqueEdges.Nodup
        ∧ (∀ Edge ∈ Submitted,
            Edge.GetUnsignedHash ∈ (Context.InsertEdges Submitted).UniqueEdges)
        ∧ ∀ k ∈ Context.UniqueEdges, k ∈ (Context.InsertEdges Submitted).UniqueEdges := by
  induction Submitted with
  | nil =>
    intro Context hKeys hNodup
    exact ⟨hKeys, hNodup, by simp, fun k hk => hk⟩
  | cons Edge Submitted ih =>
    intro Context hKeys hNodup
    obtain ⟨h1, h2, h3, h4⟩ := InsertEdge_keys Context Edge hKeys hNodup
    obtain ⟨h5, h6, h7, h8⟩ := ih (Context.InsertEdge Edge) h1 h2
    refine ⟨h5, h6, ?_, fun k hk => h8 k (h4 k hk)⟩
    intro E hE
    rcases List.mem_cons.mp hE with hE | hE
    · subst hE
      exact h8 _ h3
    · exact h7 E hE

/-- C14: for every sequence of submitted edges (a multiset in any order),
inserting each edge into the context's `Edges` only when its canonical key is
not yet in `UniqueEdges`, from a context with both empty, leaves `Edges` with
each canonical key at most once, the key of every submitted edge being there;
submitting `[(1,2),(2,1),(3,4)]` leaves exactly 2 edges, the keys of `(1,2)`
and `(2,1)` being equal. -/
theorem C14_edge_dedup (EdgeType : ℕ) (MaxPossibleEdgesPerPoint : ℤ)
    (Submitted : List FUnsignedEdge) :
    (∀ k, ((FPCGExWriteEdgeExtrasContext.InsertEdges
          ⟨EdgeType, MaxPossibleEdgesPerPoint, [], []⟩ Submitted).Edges.map
            FUnsignedEdge.GetUnsignedHash).count k ≤ 1)
      ∧ (∀ Edge ∈ Submitted,
          Edge.GetUnsignedHash ∈ (FPCGExWriteEdgeExtrasContext.InsertEdges
            ⟨EdgeType, MaxPossibleEdgesPerPoint, [], []⟩ Submitted).Edges.map
              FUnsignedEdge.GetUnsignedHash)
      ∧ (FPCGExWriteEdgeExtrasContext.InsertEdges
          ⟨EdgeType, MaxPossibleEdgesPerPoint, [], []⟩
          [⟨1, 2⟩, ⟨2, 1⟩, ⟨3, 4⟩]).Edges = [⟨1, 2⟩, ⟨3, 4⟩]
      ∧ (FPCGExWriteEdgeExtrasContext.InsertEdges
          ⟨EdgeType, MaxPossibleEdgesPerPoint, [], []⟩
          [⟨1, 2⟩, ⟨2, 1⟩, ⟨3, 4⟩]).Edges.length = 2
      ∧ (⟨1, 2⟩ : FUnsignedEdge).GetUnsignedHash = (⟨2, 1⟩ : FUnsignedEdge).GetUnsignedHash := by
  obtain ⟨h1, h2, h3, -⟩ := InsertEdges_keys Submitted
    ⟨EdgeType, MaxPossibleEdgesPerPoint, [], []⟩ rfl List.nodup_nil
  refine ⟨?_, ?_, by rfl, by rfl, by decide⟩
  · rw [h1]
    exact List.nodup_iff_count_le_one.mp h2
  · intro Edge hEdge
    rw [h1]
    exact h3 Edge hEdge

/-! ## C15 -/

/-- The fuse loop removes interior locations only: run on a list
`S :: (W ++ [E])` with `FuseCountReduce ≥ 1`, what it leaves is
`S :: (M ++ [E])` with `M` a sublist of `W`. -/
theorem FuseLoop_interior (FuseDistance : ℚ) (FuseCountReduce : ℤ) (hReduce : 1 ≤ FuseCountReduce)
    (S E : FVector) (Fuel : ℕ) :
    ∀ (i : ℕ) (W : List FVector) (PathHelper : FPathMetrics)
      (Fused : List FVector × FPathMetrics),
      FNavmeshPathTask.FuseLoop FuseDistance FuseCountReduce Fuel i (S :: (W ++ [E])) PathHelper
        = some Fused →
      ∃ M : List FVector, Fused.1 = S :: (M ++ [E]) ∧ M.Sublist W := by
  induction Fuel with
  | zero =>
    intro i W PathHelper Fused h
    unfold FNavmeshPathTask.FuseLoop at h
    split at h
    · cases h
    · cases h
      exact ⟨W, rfl, List.Sublist.refl W⟩
  | succ Fuel ih =>
    intro i W PathHelper Fused h
    unfold FNavmeshPathTask.FuseLoop at h
    split at h
    · cases h
      exact ⟨W, rfl, List.Sublist.refl W⟩
    · split at h
      · next hGuard =>
        obtain ⟨hPos, hLt, -⟩ := hGuard
        obtain ⟨j, rfl⟩ : ∃ j, i = j + 1 := ⟨i - 1, by omega⟩
        have hj : j < W.length := by
          simp only [List.length_cons, List.length_append, List.length_singleton,
            List.length_nil] at hLt
          push_cast at hLt
          omega
        have hErase : (S :: (W ++ [E])).eraseIdx (j + 1) = S :: (W.eraseIdx j ++ [E]) := by
          rw [List.eraseIdx_cons_succ, List.eraseIdx_append_of_lt_length hj]
        rw [hErase] at h
        obtain ⟨M, hM, hSub⟩ := ih (j + 1) (W.eraseIdx j) PathHelper Fused h
        exact ⟨M, hM, hSub.trans (List.eraseIdx_sublist W j)⟩
      · exact ih (i + 1) W _ Fused h

/-- C17: for every list of navmesh waypoints, every fuse distance and every
value of `bAddSeedToPath` and `bAddGoalToPath`, the fuse loop of
`FNavmeshPathTask::ExecuteTask` terminates and leaves in `PathLocations` the
list `[StartLocation] ++ M ++ [EndLocation]` with `M` a subsequence of the
waypoints: a subsequence of the initial list whose first element is still
`StartLocation` and whose last element is still `EndLocation`, only elements
strictly between the first and the last having been removed. -/
theorem C17_fuse_loop_keeps_ends (FuseDistance : ℚ) (bAddSeedToPath bAddGoalToPath : Bool)
    (StartLocation EndLocation : FVector) (Waypoints : List FVector) :
    ∃ (Fused : List FVector × FPathMetrics) (M : List FVector),
      FNavmeshPathTask.FuseLoop FuseDistance (if bAddGoalToPath then 2 else 1)
          ([StartLocation] ++ Waypoints ++ [EndLocation]).length
          (if bAddSeedToPath then 1 else 0)
          ([StartLocation] ++ Waypoints ++ [EndLocation])
          ((⟨[]⟩ : FPathMetrics).Add StartLocation) = some Fused
        ∧ Fused.1 = [StartLocation] ++ M ++ [EndLocation]
        ∧ M.Sublist Waypoints
        ∧ Fused.1.Sublist ([StartLocation] ++ Waypoints ++ [EndLocation])
        ∧ Fused.1.head? = some StartLocation
        ∧ Fused.1.getLast? = some EndLocation := by
  have hSome := FuseLoop_isSome FuseDistance (if bAddGoalToPath then 2 else 1)
    ([StartLocation] ++ Waypoints ++ [EndLocation]).length
    (if bAddSeedToPath then 1 else 0) ([StartLocation] ++ Waypoints ++ [EndLocation])
    ((⟨[]⟩ : FPathMetrics).Add StartLocation) (Nat.sub_le _ _)
  obtain ⟨Fused, hFused⟩ := Option.isSome_iff_exists.mp hSome
  have hReduce : (1 : ℤ) ≤ (if bAddGoalToPath then 2 else 1) := by
    cases bAddGoalToPath <;> simp
  have hShape : [StartLocation] ++ Waypoints ++ [EndLocation]
      = StartLocation :: (Waypoints ++ [EndLocation]) := by simp
  obtain ⟨M, hM, hSub⟩ := FuseLoop_interior FuseDistance _ hReduce StartLocation EndLocation
    ([StartLocation] ++ Waypoints ++ [EndLocation]).length _ Waypoints _ Fused
    (hShape ▸ hFused)
  refine ⟨Fused, M, hFused, by simp [hM], hSub, ?_, by simp [hM],
    by rw [hM, ← List.cons_append]; exact List.getLast?_concat _⟩
  rw [hM, hShape]
  exact List.Sublist.cons₂ _ (List.Sublist.append hSub (List.Sublist.refl _))

/-! ## C16 -/

/-- A true return of `FinishTask` with a blending operation that keeps the
positions of the points it is given: there are at least 3 path locations, and
the output points are at these locations, in order, without the first when
the seed is not added to the path and without the last when the goal is not
added. -/
theorem FinishTask_true (Env : FNavmeshPathTask.FTaskEnvironment)
    (Context : FPCGExPathfindingNavmeshContext) (Path : FPath) (OutData : UPCGPointData)
    (Seed Goal : FPCGPoint) (PathLocations : List FVector) (Path' : FPath)
    (OutData' : UPCGPointData)
    (hBlend : ∀ Points Metrics,
      (Env.BlendSubPoints Points Metrics).map FPCGPoint.Location
        = Points.map FPCGPoint.Location)
    (h : FNavmeshPathTask.FinishTask Env Context Path OutData Seed Goal PathLocations
      = (true, Path', OutData')) :
    3 ≤ PathLocations.length
      ∧ OutData'.Points.map FPCGPoint.Location
        = (if !Context.bAddGoalToPath then
            (if !Context.bAddSeedToPath then PathLocations.eraseIdx 0 else PathLocations).dropLast
          else (if !Context.bAddSeedToPath then PathLocations.eraseIdx 0 else PathLocations)) := by
  unfold FNavmeshPathTask.FinishTask at h
  by_cases hLen : PathLocations.length ≤ 2
  · simp [hLen] at h
  by_cases h4 : Env.Cancelled 4 = true
  · simp [hLen, h4] at h
  by_cases h5 : Env.Cancelled 5 = true
  · simp [hLen, h4, h5] at h
  simp only [hLen, h4, h5, if_false, Bool.false_eq_true, Prod.mk.injEq, true_and] at h
  obtain ⟨-, hO⟩ := h
  obtain ⟨hLoc, -⟩ := Written_spec PathLocations Seed Goal OutData.Points Path.Metrics
    (by omega)
  refine ⟨by omega, ?_⟩
  rw [← hO]
  simp only
  cases Context.bAddSeedToPath <;> cases Context.bAddGoalToPath <;>
    simp [List.map_dropLast, List.map_tail, hBlend, hLoc]

/-- C16: whenever `FNavmeshPathTask::ExecuteTask` returns true, with a blending
operation that keeps the count and the positions of the points it is given:
the seed and the goal were found, the path query succeeded, the fuse loop
left a location list `L` of length `n ≥ 3`, and the output point sequence has
`n - (bAddSeedToPath ? 0 : 1) - (bAddGoalToPath ? 0 : 1) ≥ 1` points whose
positions are, in order, `L` with its first element dropped when
`bAddSeedToPath` is false and its last element dropped when `bAddGoalToPath`
is false. -/
theorem C16_true_return_positions (Env : FNavmeshPathTask.FTaskEnvironment)
    (Context : FPCGExPathfindingNavmeshContext) (Path : FPath) (OutData : UPCGPointData)
    (Path' : FPath) (OutData' : UPCGPointData)
    (hBlend : ∀ Points Metrics,
      (Env.BlendSubPoints Points Metrics).map FPCGPoint.Location
        = Points.map FPCGPoint.Location)
    (hTrue : FNavmeshPathTask.ExecuteTask Env Context Path OutData
      = some (true, Path', OutData')) :
    ∃ (Seed Goal : FPCGPoint) (Waypoints : List FVector) (Fused : List FVector × FPathMetrics),
      TryGetInPoint Context.CurrentIO Path.SeedIndex = some Seed
        ∧ TryGetInPoint Context.GoalsPoints Path.GoalIndex = some Goal
        ∧ Env.FindPathSync Seed.Location Goal.Location = some Waypoints
        ∧ FNavmeshPathTask.FuseLoop Context.FuseDistance
            (if Context.bAddGoalToPath then 2 else 1)
            ([Seed.Location] ++ Waypoints ++ [Goal.Location]).length
            (if Context.bAddSeedToPath then 1 else 0)
            ([Seed.Location] ++ Waypoints ++ [Goal.Location])
            ((⟨[]⟩ : FPathMetrics).Add Seed.Location) = some Fused
        ∧ 3 ≤ Fused.1.length
        ∧ OutData'.Points.map FPCGPoint.Location
            = (if Context.bAddGoalToPath then
                (if Context.bAddSeedToPath then Fused.1 else Fused.1.tail)
              else (if Context.bAddSeedToPath then Fused.1 else Fused.1.tail).dropLast)
        ∧ OutData'.Points.length
            = Fused.1.length - (if Context.bAddSeedToPath then 0 else 1)
                - (if Context.bAddGoalToPath then 0 else 1)
        ∧ 1 ≤ OutData'.Points.length := by
  unfold FNavmeshPathTask.ExecuteTask at hTrue
  by_cases h1 : Env.Cancelled 1 = true
  · simp [h1] at hTrue
  by_cases hNav : Context.bNavSys = true
  swap
  · simp [h1, hNav] at hTrue
  simp only [h1, hNav, if_false, Bool.false_eq_true, Bool.not_true] at hTrue
  split at hTrue
  swap
  · simp at hTrue
  next Seed Goal hSeed hGoal =>
  unfold FNavmeshPathTask.FindAndFuse at hTrue
  simp only at hTrue
  by_cases h2 : Env.Cancelled 2 = true
  · simp [h2] at hTrue
  by_cases h3 : Env.Cancelled 3 = true
  · simp [h2, h3] at hTrue
  simp only [h2, h3, if_false, Bool.false_eq_true] at hTrue
  cases hQuery : Env.FindPathSync Seed.Location Goal.Location with
  | none => simp [hQuery] at hTrue
  | some Waypoints =>
    simp only [hQuery] at hTrue
    cases hFuse : FNavmeshPathTask.FuseLoop Context.FuseDistance
        (if Context.bAddGoalToPath then 2 else 1)
        ([Seed.Location] ++ Waypoints ++ [Goal.Location]).length
        (if Context.bAddSeedToPath then 1 else 0)
        ([Seed.Location] ++ Waypoints ++ [Goal.Location])
        ((⟨[]⟩ : FPathMetrics).Add Seed.Location) with
    | none =>
      rw [hFuse] at hTrue
      cases hTrue
    | some Fused =>
      rw [hFuse] at hTrue
      simp only [Option.some.injEq] at hTrue
      obtain ⟨hLen, hPos⟩ := FinishTask_true Env Context Path OutData Seed Goal Fused.1
        Path' OutData' hBlend hTrue
      have hPos' : OutData'.Points.map FPCGPoint.Location
          = (if Context.bAddGoalToPath then
              (if Context.bAddSeedToPath then Fused.1 else Fused.1.tail)
            else (if Context.bAddSeedToPath then Fused.1 else Fused.1.tail).dropLast) := by
        rw [hPos]
        cases Context.bAddSeedToPath <;> cases Context.bAddGoalToPath <;> simp
      have hCount : OutData'.Points.length
          = Fused.1.length - (if Context.bAddSeedToPath then 0 else 1)
              - (if Context.bAddGoalToPath then 0 else 1) := by
        have := congrArg List.length hPos'
        rw [List.length_map] at this
        rw [this]
        cases Context.bAddSeedToPath <;> cases Context.bAddGoalToPath <;> simp
      refine ⟨Seed, Goal, Waypoints, Fused, hSeed, hGoal, hQuery, hFuse, hLen, hPos', hCount, ?_⟩
      rw [hCount]
      cases Context.bAddSeedToPath <;> cases Context.bAddGoalToPath <;> simp <;> omega

/-- C16, instance: the sample task with the seed not added to the path
returns true; the fuse loop leaves the locations `0, 5, 10, 10` on the `X`
axis and the output has the three points at `5, 10, 10`. -/
theorem C16_true_return_positions_witness :
    FNavmeshPathTask.ExecuteTask (SampleEnvironment [])
        { SampleNavContext AsyncState.State_Pathfinding [SampleGoals] false with
          bAddSeedToPath := false }
        SamplePath SampleOutData
      = some (true,
          ⟨0, ⟨0, 0, 0⟩, 0, ⟨10, 0, 0⟩, 0, ⟨[⟨0, 0, 0⟩, ⟨5, 0, 0⟩, ⟨10, 0, 0⟩, ⟨10, 0, 0⟩]⟩⟩,
          ⟨[⟨⟨5, 0, 0⟩, 7, 0⟩, ⟨⟨10, 0, 0⟩, 7, 0⟩, ⟨⟨10, 0, 0⟩, 8, 0⟩], ⟨0, 0, none⟩⟩)
      ∧ 1 ≤ ([⟨⟨5, 0, 0⟩, 7, 0⟩, ⟨⟨10, 0, 0⟩, 7, 0⟩, ⟨⟨10, 0, 0⟩, 8, 0⟩] : List FPCGPoint).length := by
  have hTrue : FNavmeshPathTask.ExecuteTask (SampleEnvironment [])
        { SampleNavContext AsyncState.State_Pathfinding [SampleGoals] false with
          bAddSeedToPath := false }
        SamplePath SampleOutData
      = some (true,
          ⟨0, ⟨0, 0, 0⟩, 0, ⟨10, 0, 0⟩, 0, ⟨[⟨0, 0, 0⟩, ⟨5, 0, 0⟩, ⟨10, 0, 0⟩, ⟨10, 0, 0⟩]⟩⟩,
          ⟨[⟨⟨5, 0, 0⟩, 7, 0⟩, ⟨⟨10, 0, 0⟩, 7, 0⟩, ⟨⟨10, 0, 0⟩, 8, 0⟩], ⟨0, 0, none⟩⟩) := by
    decide!
  obtain ⟨_, _, _, _, _, _, _, _, _, _, _, hOne⟩ := C16_true_return_positions
    (SampleEnvironment []) _ SamplePath SampleOutData _ _ (fun _ _ => rfl) hTrue
  exact ⟨hTrue, hOne⟩

/-! ## C13 -/

/-- The three steps of one call taken back to back are `DistributePoint`. -/
theorem DistributePoint_Step_sequential (Context : FPCGExSplitByValuesContext)
    (Call : FPCGExPartitionByValuesElement.FDistributeCall) :
    (FPCGExPartitionByValuesElement.RunSchedule Context
        (FPCGExPartitionByValuesElement.EnterDistributePoint Call)
        (FPCGExPartitionByValuesElement.EnterDistributePoint Call) [false, false, false]).1
      = FPCGExPartitionByValuesElement.DistributePoint Context Call.Io Call.Point Call.InValue
    ∧ (FPCGExPartitionByValuesElement.RunSchedule Context
        (FPCGExPartitionByValuesElement.EnterDistributePoint Call)
        (FPCGExPartitionByValuesElement.EnterDistributePoint Call)
        [false, false, false]).2.1.Stage = EDistributeStage.Returned := by
  unfold FPCGExPartitionByValuesElement.DistributePoint
  simp only [FPCGExPartitionByValuesElement.RunSchedule,
    FPCGExPartitionByValuesElement.DistributePoint_Step,
    FPCGExPartitionByValuesElement.EnterDistributePoint]
  cases (FPCGExPartitionByValuesElement.DistributePoint_Find Context Call.InValue).2 <;>
    exact ⟨rfl, rfl⟩

/-- The step taken under the write lock by a call whose lookup missed does not
look the key up again: it emplaces a partition whatever `PartitionsMap` holds
by then. -/
theorem DistributePoint_Step_creates (Context : FPCGExSplitByValuesContext)
    (Thread : FDistributeThread) (hStage : Thread.Stage = EDistributeStage.Resolve)
    (hMiss : Thread.Partition = none) :
    (FPCGExPartitionByValuesElement.DistributePoint_Step Context Thread).1.Partitions.length
      = Context.Partitions.length + 1 := by
  unfold FPCGExPartitionByValuesElement.DistributePoint_Step
    FPCGExPartitionByValuesElement.DistributePoint_Create
  simp only [hStage, hMiss]
  split
  · split <;> simp
  · simp

/-- C13 (the code at the failing input): two `DistributePoint` calls with the
same key `0`, which has no partition yet, interleaved as lookup of the first,
lookup of the second, creation by the first, creation by the second, append
by the first, append by the second. Both lookups miss and neither call looks
the key up again under the write lock: two partitions are created,
`PartitionsMap` ends with key `0` mapped to the second one only, and the two
points sit in different partitions. Of the 20 interleavings of the two calls'
steps, 12 create two partitions. -/
theorem C13_duplicate_partition :
    KeyOf (ScenarioContext true true).PartitionRule SampleRaceFirst = 0
      ∧ KeyOf (ScenarioContext true true).PartitionRule SampleRaceSecond = 0
      ∧ TMapFind (ScenarioContext true true).PartitionsMap 0 = none
      ∧ (FPCGExPartitionByValuesElement.RunSchedule (ScenarioContext true true)
          (FPCGExPartitionByValuesElement.EnterDistributePoint SampleRaceFirst)
          (FPCGExPartitionByValuesElement.EnterDistributePoint SampleRaceSecond)
          [false, true, false, true, false, true]).1.Partitions.length = 2
      ∧ (FPCGExPartitionByValuesElement.RunSchedule (ScenarioContext true true)
          (FPCGExPartitionByValuesElement.EnterDistributePoint SampleRaceFirst)
          (FPCGExPartitionByValuesElement.EnterDistributePoint SampleRaceSecond)
          [false, true, false, true, false, true]).1.PartitionsMap = [(0, 1)]
      ∧ PointsView (FPCGExPartitionByValuesElement.RunSchedule (ScenarioContext true true)
          (FPCGExPartitionByValuesElement.EnterDistributePoint SampleRaceFirst)
          (FPCGExPartitionByValuesElement.EnterDistributePoint SampleRaceSecond)
          [false, true, false, true, false, true]).1
          = [[(ScenarioPoint 0).Body], [(ScenarioPoint 5).Body]]
      ∧ (FPCGExPartitionByValuesElement.RunSchedule (ScenarioContext true true)
          (FPCGExPartitionByValuesElement.EnterDistributePoint SampleRaceFirst)
          (FPCGExPartitionByValuesElement.EnterDistributePoint SampleRaceSecond)
          [false, true, false, true, false, true]).2.1.Stage = EDistributeStage.Returned
      ∧ (FPCGExPartitionByValuesElement.RunSchedule (ScenarioContext true true)
          (FPCGExPartitionByValuesElement.EnterDistributePoint SampleRaceFirst)
          (FPCGExPartitionByValuesElement.EnterDistributePoint SampleRaceSecond)
          [false, true, false, true, false, true]).2.2.Stage = EDistributeStage.Returned
      ∧ (FPCGExPartitionByValuesElement.Interleavings 3 3).length = 20
      ∧ ((FPCGExPartitionByValuesElement.Interleavings 3 3).filter
          (fun Schedule =>
            (FPCGExPartitionByValuesElement.RunSchedule (ScenarioContext true true)
              (FPCGExPartitionByValuesElement.EnterDistributePoint SampleRaceFirst)
              (FPCGExPartitionByValuesElement.EnterDistributePoint SampleRaceSecond)
              Schedule).1.Partitions.length = 2)).length = 12 := by
  decide!

end PCGExtendedToolkit
